import Mathlib

/-!
# dwl-rviz-plugin: primitive buffer and whole-body trajectory display

A shallow embedding of `src/DisplayInterface.cpp` and
`src/WholeBodyTrajectoryDisplay.cpp`, followed by the properties proved
about it.

Conventions of the embedding

* C++ `double` and `float` (Ogre::Real) values are values of `Dbl`: a finite
  value is carried as the rational it denotes, the three non-finite classes
  are separate constructors.  Every arithmetic operation of the sources is
  the exact operation followed by the rounding of its format (`roundBinary`:
  binary32 for the Ogre types, binary64 for `double`), and the assignment of
  a `double` to an `Ogre::Real` is the narrowing `Dbl.toFloat`; overflow
  gives an infinity.  The sign of zero is not represented.
* `uint32_t` counters and sizes are `Nat`: the trajectory, base and contact
  sequences arrive in a ROS message, whose wire format stores array lengths
  in 32 bits, and the request stack is taken to hold fewer than 2^32
  entries, so no size or loop counter wraps.  The one narrowing that is
  represented is `marker.id = i` (unsigned to signed 32 bits).
* A read outside a `std::vector`, or through the `end()` iterator of a
  `std::map`, makes the embedded function return `none`.
* Library code the sources call but do not contain (dwl::math, the
  transform lookup of rviz) is a parameter; the small pieces of Ogre vector
  algebra that are used are written out from Ogre's definitions.
-/

namespace DwlRviz

/-! ## Numbers -/

/-- Floating point value: finite (exact rational), plus infinity, minus infinity or NaN. -/
inductive Dbl where
  | fin (q : ℚ)
  | pinf
  | ninf
  | nan
deriving DecidableEq

namespace Dbl

instance : Inhabited Dbl := ⟨fin 0⟩

/-- Model of `std::isfinite`. -/
def isfinite : Dbl → Bool
  | fin _ => true
  | _ => false

/-- Infinity of the given sign (`true` is positive). -/
def inf (positive : Bool) : Dbl := if positive then pinf else ninf

/-- Unary minus. -/
def neg : Dbl → Dbl
  | fin q => fin (-q)
  | pinf => ninf
  | ninf => pinf
  | nan => nan

/-- IEEE addition on value classes; exact on finite values. -/
def add : Dbl → Dbl → Dbl
  | fin a, fin b => fin (a + b)
  | nan, _ => nan
  | _, nan => nan
  | pinf, ninf => nan
  | ninf, pinf => nan
  | pinf, _ => pinf
  | _, pinf => pinf
  | ninf, _ => ninf
  | _, ninf => ninf

/-- Subtraction `a - b`. -/
def sub (a b : Dbl) : Dbl := add a (neg b)

/-- Product of an infinity of sign `positive` with a finite `q`. -/
def infTimes (positive : Bool) (q : ℚ) : Dbl :=
  if q = 0 then nan else if 0 < q then inf positive else inf (!positive)

/-- IEEE multiplication on value classes; exact on finite values. -/
def mul : Dbl → Dbl → Dbl
  | fin a, fin b => fin (a * b)
  | nan, _ => nan
  | _, nan => nan
  | pinf, fin b => infTimes true b
  | ninf, fin b => infTimes false b
  | fin a, pinf => infTimes true a
  | fin a, ninf => infTimes false a
  | pinf, pinf => pinf
  | ninf, ninf => pinf
  | pinf, ninf => ninf
  | ninf, pinf => ninf

/-- IEEE division on value classes; exact on finite values, zero taken as `+0`. -/
def div : Dbl → Dbl → Dbl
  | fin a, fin b =>
      if b = 0 then (if a = 0 then nan else inf (decide (0 < a))) else fin (a / b)
  | nan, _ => nan
  | _, nan => nan
  | fin _, pinf => fin 0
  | fin _, ninf => fin 0
  | pinf, fin b => inf (decide (0 ≤ b))
  | ninf, fin b => inf (!decide (0 ≤ b))
  | pinf, pinf => nan
  | pinf, ninf => nan
  | ninf, pinf => nan
  | ninf, ninf => nan

/-- Comparison `a >= b`; false as soon as one side is NaN. -/
def ge : Dbl → Dbl → Bool
  | fin a, fin b => decide (b ≤ a)
  | nan, _ => false
  | _, nan => false
  | pinf, _ => true
  | _, ninf => true
  | fin _, pinf => false
  | ninf, fin _ => false
  | ninf, pinf => false

instance : Add Dbl := ⟨add⟩
instance : Sub Dbl := ⟨sub⟩
instance : Mul Dbl := ⟨mul⟩
instance : Div Dbl := ⟨div⟩
instance : Neg Dbl := ⟨neg⟩
instance : OfNat Dbl n := ⟨fin n⟩

end Dbl

/-- The integer nearest to `x`; when `x` lies half-way between two integers, the even one. -/
def roundHalfEven (x : ℚ) : ℤ :=
  if x - ⌊x⌋ < 1 / 2 then ⌊x⌋
  else if 1 / 2 < x - ⌊x⌋ then ⌊x⌋ + 1
  else if ⌊x⌋ % 2 = 0 then ⌊x⌋ else ⌊x⌋ + 1

/-- Rounding of the exact value `q` to the IEEE-754 binary format with `p` significand bits
and normal exponents `emin` to `emax`: the nearest multiple of the spacing at the magnitude
of `q` (ties to even, the spacing of `2 ^ emin` below it), and an infinity when the rounded
magnitude reaches `2 ^ (emax + 1)`. -/
def roundBinary (p : ℕ) (emin emax : ℤ) (q : ℚ) : Dbl :=
  if q = 0 then Dbl.fin 0
  else
    let e := max (Int.log 2 |q|) emin
    let quantum : ℚ := 2 ^ (e - ((p : ℤ) - 1))
    let r : ℚ := (roundHalfEven (q / quantum) : ℚ) * quantum
    if (2 : ℚ) ^ (emax + 1) ≤ |r| then Dbl.inf (decide (0 < q)) else Dbl.fin r

/-- Rounding to `float` (binary32). -/
def roundFloat (q : ℚ) : Dbl := roundBinary 24 (-126) 127 q

/-- Rounding to `double` (binary64). -/
def roundDouble (q : ℚ) : Dbl := roundBinary 53 (-1022) 1023 q

namespace Dbl

/-- Conversion to `float`, as in the assignment of a `double` to an `Ogre::Real`. -/
def toFloat : Dbl → Dbl
  | fin q => roundFloat q
  | x => x

/-- The `double` nearest to the value, as for a literal or the result of an operation. -/
def toDouble : Dbl → Dbl
  | fin q => roundDouble q
  | x => x

/-- Sum of two `float` values. -/
def fadd (a b : Dbl) : Dbl := (a + b).toFloat

/-- Difference of two `float` values. -/
def fsub (a b : Dbl) : Dbl := (a - b).toFloat

/-- Product of two `float` values. -/
def fmul (a b : Dbl) : Dbl := (a * b).toFloat

/-- Quotient of two `float` values. -/
def fdiv (a b : Dbl) : Dbl := (a / b).toFloat

/-- Sum of two `double` values. -/
def dadd (a b : Dbl) : Dbl := (a + b).toDouble

/-- Product of two `double` values. -/
def dmul (a b : Dbl) : Dbl := (a * b).toDouble

end Dbl

/-- Three-component vector (`Eigen::Vector3d`, `Ogre::Vector3`, `geometry_msgs::Point`). -/
structure Vector3 where
  x : Dbl
  y : Dbl
  z : Dbl
deriving DecidableEq, Inhabited

namespace Vector3

/-- The vector (0, 0, 0). -/
def ZERO : Vector3 := ⟨0, 0, 0⟩

/-- Model of `Eigen::isfinite(v.array()).all()`. -/
def allFinite (v : Vector3) : Bool :=
  v.x.isfinite && v.y.isfinite && v.z.isfinite

/-- Component-wise sum of two `Eigen::Vector3d`, in `double`. -/
def add (a b : Vector3) : Vector3 := ⟨a.x.dadd b.x, a.y.dadd b.y, a.z.dadd b.z⟩

instance : Add Vector3 := ⟨add⟩

/-- Model of `Ogre::Vector3::operator+`: component-wise sum in `float`. -/
def fadd (a b : Vector3) : Vector3 := ⟨a.x.fadd b.x, a.y.fadd b.y, a.z.fadd b.z⟩

/-- Model of `Ogre::Vector3::squaredDistance`: squared length of `a - b`, in `float`. -/
def squaredDistance (a b : Vector3) : Dbl :=
  let dx := a.x.fsub b.x
  let dy := a.y.fsub b.y
  let dz := a.z.fsub b.z
  ((dx.fmul dx).fadd (dy.fmul dy)).fadd (dz.fmul dz)

end Vector3

/-- Quaternion with scalar part `w` (`Eigen::Quaterniond`, `Ogre::Quaternion`). -/
structure Quaternion where
  w : Dbl
  x : Dbl
  y : Dbl
  z : Dbl
deriving DecidableEq, Inhabited

namespace Quaternion

/-- The identity rotation, also the value of a default-constructed `Ogre::Quaternion`. -/
def IDENTITY : Quaternion := ⟨1, 0, 0, 0⟩

/-- Hamilton product, as `Ogre::Quaternion::operator*`, in `float`. -/
def mul (p q : Quaternion) : Quaternion :=
  { w := (((p.w.fmul q.w).fsub (p.x.fmul q.x)).fsub (p.y.fmul q.y)).fsub (p.z.fmul q.z)
    x := (((p.w.fmul q.x).fadd (p.x.fmul q.w)).fadd (p.y.fmul q.z)).fsub (p.z.fmul q.y)
    y := (((p.w.fmul q.y).fadd (p.y.fmul q.w)).fadd (p.z.fmul q.x)).fsub (p.x.fmul q.z)
    z := (((p.w.fmul q.z).fadd (p.z.fmul q.w)).fadd (p.x.fmul q.y)).fsub (p.y.fmul q.x) }

instance : Mul Quaternion := ⟨mul⟩

/-- Construction of an `Ogre::Quaternion` from the components of an `Eigen::Quaterniond`:
each component is narrowed to `float`. -/
def toFloat (q : Quaternion) : Quaternion :=
  ⟨q.w.toFloat, q.x.toFloat, q.y.toFloat, q.z.toFloat⟩

end Quaternion

/-- A 3x3 matrix, row by row (`Eigen::Matrix3d`, `Ogre::Matrix3`). -/
structure Matrix3 where
  m00 : Dbl
  m01 : Dbl
  m02 : Dbl
  m10 : Dbl
  m11 : Dbl
  m12 : Dbl
  m20 : Dbl
  m21 : Dbl
  m22 : Dbl
deriving DecidableEq, Inhabited

namespace Matrix3

/-- Transposed matrix. -/
def transpose (m : Matrix3) : Matrix3 :=
  ⟨m.m00, m.m10, m.m20, m.m01, m.m11, m.m21, m.m02, m.m12, m.m22⟩

/-- Matrix times column vector for `Eigen::Matrix3d`, in `double`. -/
def mulVec (m : Matrix3) (v : Vector3) : Vector3 :=
  { x := ((m.m00.dmul v.x).dadd (m.m01.dmul v.y)).dadd (m.m02.dmul v.z)
    y := ((m.m10.dmul v.x).dadd (m.m11.dmul v.y)).dadd (m.m12.dmul v.z)
    z := ((m.m20.dmul v.x).dadd (m.m21.dmul v.y)).dadd (m.m22.dmul v.z) }

end Matrix3

/-- Model of `Ogre::Quaternion::ToRotationMatrix`, in `float`. -/
def Quaternion.ToRotationMatrix (q : Quaternion) : Matrix3 :=
  let fTx := q.x.fadd q.x
  let fTy := q.y.fadd q.y
  let fTz := q.z.fadd q.z
  let fTwx := fTx.fmul q.w
  let fTwy := fTy.fmul q.w
  let fTwz := fTz.fmul q.w
  let fTxx := fTx.fmul q.x
  let fTxy := fTy.fmul q.x
  let fTxz := fTz.fmul q.x
  let fTyy := fTy.fmul q.y
  let fTyz := fTz.fmul q.y
  let fTzz := fTz.fmul q.z
  { m00 := Dbl.fsub 1 (fTyy.fadd fTzz), m01 := fTxy.fsub fTwz, m02 := fTxz.fadd fTwy
    m10 := fTxy.fadd fTwz, m11 := Dbl.fsub 1 (fTxx.fadd fTzz), m12 := fTyz.fsub fTwx
    m20 := fTxz.fsub fTwy, m21 := fTyz.fadd fTwx, m22 := Dbl.fsub 1 (fTxx.fadd fTyy) }

/-- An `Ogre::Matrix4` whose last row is (0, 0, 0, 1): a 3x3 block and a translation column. -/
structure Matrix4 where
  rot : Matrix3
  trans : Vector3
deriving DecidableEq, Inhabited

namespace Matrix4

/-- Model of the constructor `Ogre::Matrix4(const Quaternion&)`: rotation block, zero translation. -/
def ofQuaternion (q : Quaternion) : Matrix4 := ⟨q.ToRotationMatrix, Vector3.ZERO⟩

/-- Model of `Ogre::Matrix4::setTrans`. -/
def setTrans (m : Matrix4) (v : Vector3) : Matrix4 := { m with trans := v }

/-- Model of `Ogre::Matrix4::operator*(const Vector3&)`, homogeneous divide included, in
`float`. -/
def mulVec (m : Matrix4) (v : Vector3) : Vector3 :=
  let fInvW : Dbl :=
    Dbl.fdiv 1 ((((Dbl.fmul 0 v.x).fadd (Dbl.fmul 0 v.y)).fadd (Dbl.fmul 0 v.z)).fadd 1)
  { x := ((((m.rot.m00.fmul v.x).fadd (m.rot.m01.fmul v.y)).fadd
      (m.rot.m02.fmul v.z)).fadd m.trans.x).fmul fInvW
    y := ((((m.rot.m10.fmul v.x).fadd (m.rot.m11.fmul v.y)).fadd
      (m.rot.m12.fmul v.z)).fadd m.trans.y).fmul fInvW
    z := ((((m.rot.m20.fmul v.x).fadd (m.rot.m21.fmul v.y)).fadd
      (m.rot.m22.fmul v.z)).fadd m.trans.z).fmul fInvW }

end Matrix4

/-! ## DisplayInterface.cpp -/

/-- Modelled from the spec: the enumeration `dwl::DisplayType`, declared outside src/; the five
request tags of the data model. -/
inductive DisplayType where
  | LINE
  | ARROW
  | POINT
  | SPHERE
  | TEXT
deriving DecidableEq, Inhabited

/-- Colour with red, green, blue and alpha (`dwl::Color`, `std_msgs::ColorRGBA`). -/
structure Color where
  r : Dbl
  g : Dbl
  b : Dbl
  a : Dbl
deriving DecidableEq, Inhabited

/-- All four colour components finite. -/
def Color.allFinite (c : Color) : Bool :=
  c.r.isfinite && c.g.isfinite && c.b.isfinite && c.a.isfinite

/-- Draw request held in the stack (`dwl::DisplayData`, declared outside src/). -/
structure DisplayData where
  p1 : Vector3
  p2 : Vector3
  scale : Vector3
  color : Color
  type : DisplayType
  frame : String
  text : String
deriving DecidableEq, Inhabited

/-- Arrow dimensions (`dwl::ArrowProperties`, declared outside src/). -/
structure ArrowProperties where
  shaft_diameter : Dbl
  head_diameter : Dbl
  head_length : Dbl
deriving DecidableEq, Inhabited

/-- Time stamp (`ros::Time`). -/
structure Time where
  sec : Nat
  nsec : Nat
deriving DecidableEq, Inhabited

/-- Conversion of an `unsigned int` to the 32-bit signed `marker.id`. -/
def toInt32 (i : Nat) : Int :=
  (((i : Int) + 2147483648) % 4294967296) - 2147483648

/-- The fields of `visualization_msgs::Marker` that `publishMarkerArray` writes. -/
structure Marker where
  stamp : Time
  frame_id : String
  ns : String
  id : Int
  type : Nat
  position : Vector3
  orientation_w : Dbl
  scale : Vector3
  color : Color
  lifetime : Dbl
  points : List Vector3
  text : String
deriving DecidableEq, Inhabited

namespace Marker

/-- Marker type constant `visualization_msgs::Marker::ARROW`. -/
def ARROW : Nat := 0
/-- Marker type constant `visualization_msgs::Marker::SPHERE`. -/
def SPHERE : Nat := 2
/-- Marker type constant `visualization_msgs::Marker::LINE_LIST`. -/
def LINE_LIST : Nat := 5
/-- Marker type constant `visualization_msgs::Marker::POINTS`. -/
def POINTS : Nat := 8
/-- Marker type constant `visualization_msgs::Marker::TEXT_VIEW_FACING`. -/
def TEXT_VIEW_FACING : Nat := 9

/-- A default-constructed marker: every number zero, every string and array empty. -/
def fresh : Marker :=
  { stamp := ⟨0, 0⟩, frame_id := "", ns := "", id := 0, type := 0
    position := Vector3.ZERO, orientation_w := 0, scale := Vector3.ZERO
    color := ⟨0, 0, 0, 0⟩, lifetime := 0, points := [], text := "" }

end Marker

/-- The members of `DisplayInterface`: the request stack and the message last handed to the
realtime publisher (`markers_pub_->msg_`). -/
structure DisplayInterface where
  display_stack_ : List DisplayData
  markers_pub_msg_ : List Marker
deriving DecidableEq, Inhabited

namespace DisplayInterface

/-- The lifetime `ros::Duration(0.035)` given to every marker. -/
def markerLifetime : Dbl := Dbl.fin (35 / 1000)

/-- One pass of the loop body of `publishMarkerArray` for request `d` at index `i`:
returns `markers` with the marker appended when the branch pushes it. -/
def publishStep (time : Time) (i : Nat) (d : DisplayData) (markers : List Marker) :
    List Marker :=
  let marker : Marker :=
    { Marker.fresh with
      stamp := time, frame_id := d.frame, ns := "dls", id := toInt32 i
      lifetime := markerLifetime }
  match d.type with
  | DisplayType.LINE =>
      let marker := { marker with
        type := Marker.LINE_LIST
        color := ⟨d.color.r, d.color.g, d.color.b, d.color.a⟩
        scale := { marker.scale with x := d.scale.x } }
      let marker := { marker with points := marker.points ++ [Vector3.mk d.p1.x d.p1.y d.p1.z] }
      let marker := { marker with points := marker.points ++ [Vector3.mk d.p2.x d.p2.y d.p2.z] }
      markers ++ [marker]
  | DisplayType.ARROW =>
      let marker := { marker with
        type := Marker.ARROW
        color := ⟨d.color.r, d.color.g, d.color.b, d.color.a⟩
        scale := ⟨d.scale.x, d.scale.y, d.scale.z⟩ }
      let marker := { marker with points := marker.points ++ [Vector3.mk d.p1.x d.p1.y d.p1.z] }
      let marker := { marker with points := marker.points ++ [Vector3.mk d.p2.x d.p2.y d.p2.z] }
      markers ++ [marker]
  | DisplayType.POINT =>
      -- the marker is filled in and then dropped: this branch has no push_back
      let _marker : Marker := { marker with
        type := Marker.POINTS
        color := ⟨d.color.r, d.color.g, d.color.b, d.color.a⟩
        scale := ⟨d.scale.x, d.scale.y, d.scale.z⟩
        orientation_w := 1
        position := ⟨d.p1.x, d.p1.y, d.p1.z⟩ }
      markers
  | DisplayType.SPHERE =>
      let marker := { marker with
        type := Marker.SPHERE
        color := ⟨d.color.r, d.color.g, d.color.b, d.color.a⟩
        scale := ⟨d.scale.x, d.scale.y, d.scale.z⟩
        orientation_w := 1
        position := ⟨d.p1.x, d.p1.y, d.p1.z⟩ }
      markers ++ [marker]
  | DisplayType.TEXT =>
      let marker := { marker with
        type := Marker.TEXT_VIEW_FACING
        text := d.text
        color := { marker.color with g := d.color.g, b := d.color.b, a := d.color.a }
        scale := ⟨d.scale.x, d.scale.y, d.scale.z⟩
        orientation_w := 1
        position := ⟨d.p1.x, d.p1.y, d.p1.z⟩ }
      markers ++ [marker]

/-- The loop `for (i = 0; i < display_stack_.size(); i++)` of `publishMarkerArray`, entered at
index `i` with the requests from `i` on. -/
def publishLoop (time : Time) : Nat → List DisplayData → List Marker → List Marker
  | _, [], markers => markers
  | i, d :: rest, markers => publishLoop time (i + 1) rest (publishStep time i d markers)

/-- The batch `markers.markers` that `publishMarkerArray` builds from the stack. -/
def buildMarkers (time : Time) (stack : List DisplayData) : List Marker :=
  publishLoop time 0 stack []

/-- Model of `DisplayInterface::publishMarkerArray`; `trylock` is the outcome of
`markers_pub_->trylock()`. -/
def publishMarkerArray (self : DisplayInterface) (time : Time) (trylock : Bool) :
    DisplayInterface :=
  let markers := buildMarkers time self.display_stack_
  let self := { self with display_stack_ := [] }
  if trylock then { self with markers_pub_msg_ := markers } else self

/-- The admission test of `drawLine`, `drawArrow` and `drawCone`: scale, `p1` and `p2`. -/
def finite3 (data : DisplayData) : Bool :=
  data.scale.allFinite && data.p1.allFinite && data.p2.allFinite

/-- The admission test of `drawSphere` and `drawText`: scale and `p1`. -/
def finite2 (data : DisplayData) : Bool :=
  data.scale.allFinite && data.p1.allFinite

/-- Model of `display_stack_.push_back(data)`. -/
def push (self : DisplayInterface) (data : DisplayData) : DisplayInterface :=
  { self with display_stack_ := self.display_stack_ ++ [data] }

/-- The `data` that `drawLine` fills in; `data0` is the freshly declared `dwl::DisplayData`. -/
def lineData (data0 : DisplayData) (point1 point2 : Vector3) (width : Dbl) (color : Color)
    (frame : String) : DisplayData :=
  { data0 with
    p1 := point1, p2 := point2, scale := ⟨width, 0, 0⟩, color := color
    type := DisplayType.LINE, frame := frame }

/-- Model of `DisplayInterface::drawLine`. -/
def drawLine (self : DisplayInterface) (data0 : DisplayData) (point1 point2 : Vector3)
    (width : Dbl) (color : Color) (frame : String) : DisplayInterface :=
  let data := lineData data0 point1 point2 width color frame
  if finite3 data then self.push data else self

/-- The `data` that `drawSphere` fills in. -/
def sphereData (data0 : DisplayData) (position : Vector3) (radius : Dbl) (color : Color)
    (frame : String) : DisplayData :=
  { data0 with
    p1 := position, scale := ⟨radius, radius, radius⟩, color := color
    type := DisplayType.SPHERE, frame := frame }

/-- Model of `DisplayInterface::drawSphere`. -/
def drawSphere (self : DisplayInterface) (data0 : DisplayData) (position : Vector3)
    (radius : Dbl) (color : Color) (frame : String) : DisplayInterface :=
  let data := sphereData data0 position radius color frame
  if finite2 data then self.push data else self

/-- The `data` that `drawArrow` fills in. -/
def arrowData (data0 : DisplayData) (begin_ end_ : Vector3) (arrow : ArrowProperties)
    (color : Color) (frame : String) : DisplayData :=
  { data0 with
    p1 := begin_, p2 := end_
    scale := ⟨arrow.shaft_diameter, arrow.head_diameter, arrow.head_length⟩
    color := color, type := DisplayType.ARROW, frame := frame }

/-- Model of `DisplayInterface::drawArrow(begin, end, arrow, color, frame)`, the overload in
which every other `drawArrow` ends. -/
def drawArrow (self : DisplayInterface) (data0 : DisplayData) (begin_ end_ : Vector3)
    (arrow : ArrowProperties) (color : Color) (frame : String) : DisplayInterface :=
  let data := arrowData data0 begin_ end_ arrow color frame
  if finite3 data then self.push data else self

/-- The `data` that `drawCone` fills in; `getDirectionCosineMatrix` is
`dwl::math::getDirectionCosineMatrix`. -/
def coneData (getDirectionCosineMatrix : Quaternion → Matrix3) (data0 : DisplayData)
    (vertex : Vector3) (orientation : Quaternion) (height radius : Dbl) (color : Color)
    (frame : String) : DisplayData :=
  let end_ := (getDirectionCosineMatrix orientation).transpose.mulVec ⟨0, 0, height⟩
  { data0 with
    p1 := vertex + end_, p2 := vertex, scale := ⟨0, Dbl.dmul 2 radius, height⟩
    color := color, type := DisplayType.ARROW, frame := frame }

/-- Model of `DisplayInterface::drawCone(vertex, orientation, height, radius, color, frame)`,
in which the overload taking a direction ends. -/
def drawCone (getDirectionCosineMatrix : Quaternion → Matrix3) (self : DisplayInterface)
    (data0 : DisplayData) (vertex : Vector3) (orientation : Quaternion) (height radius : Dbl)
    (color : Color) (frame : String) : DisplayInterface :=
  let data := coneData getDirectionCosineMatrix data0 vertex orientation height radius color frame
  if finite3 data then self.push data else self

/-- The `data` that `drawText` fills in. -/
def textData (data0 : DisplayData) (text : String) (position : Vector3)
    (uppercase_height : Dbl) (color : Color) (frame : String) : DisplayData :=
  { data0 with
    text := text, p1 := position, scale := ⟨0, 0, uppercase_height⟩, color := color
    type := DisplayType.TEXT, frame := frame }

/-- Model of `DisplayInterface::drawText`. -/
def drawText (self : DisplayInterface) (data0 : DisplayData) (text : String)
    (position : Vector3) (uppercase_height : Dbl) (color : Color) (frame : String) :
    DisplayInterface :=
  let data := textData data0 text position uppercase_height color frame
  if finite2 data then self.push data else self

end DisplayInterface

/-- A call of one of the five draw methods, with its arguments. -/
inductive DrawCall where
  | line (point1 point2 : Vector3) (width : Dbl) (color : Color) (frame : String)
  | sphere (position : Vector3) (radius : Dbl) (color : Color) (frame : String)
  | arrow (begin_ end_ : Vector3) (arrow : ArrowProperties) (color : Color) (frame : String)
  | cone (vertex : Vector3) (orientation : Quaternion) (height radius : Dbl) (color : Color)
      (frame : String)
  | text (text : String) (position : Vector3) (uppercase_height : Dbl) (color : Color)
      (frame : String)

namespace DrawCall

/-- The request (`data`) that the call builds before the admission test. -/
def request (dcm : Quaternion → Matrix3) (data0 : DisplayData) : DrawCall → DisplayData
  | line p q w c f => DisplayInterface.lineData data0 p q w c f
  | sphere p r c f => DisplayInterface.sphereData data0 p r c f
  | arrow p q a c f => DisplayInterface.arrowData data0 p q a c f
  | cone v o h r c f => DisplayInterface.coneData dcm data0 v o h r c f
  | text t p h c f => DisplayInterface.textData data0 t p h c f

/-- The method the call stands for, applied to the interface. -/
def run (dcm : Quaternion → Matrix3) (self : DisplayInterface) (data0 : DisplayData) :
    DrawCall → DisplayInterface
  | line p q w c f => self.drawLine data0 p q w c f
  | sphere p r c f => self.drawSphere data0 p r c f
  | arrow p q a c f => self.drawArrow data0 p q a c f
  | cone v o h r c f => self.drawCone dcm data0 v o h r c f
  | text t p h c f => self.drawText data0 t p h c f

/-- Whether the call assigns the second end point `p2` of its request. -/
def setsP2 : DrawCall → Bool
  | line .. => true
  | arrow .. => true
  | cone .. => true
  | sphere .. => false
  | text .. => false

/-- Every geometry number the call has assigned is finite: scale, `p1`, and `p2` when set. -/
def geometryFinite (dcm : Quaternion → Matrix3) (data0 : DisplayData) (c : DrawCall) : Bool :=
  let d := c.request dcm data0
  d.scale.allFinite && d.p1.allFinite && (!c.setsP2 || d.p2.allFinite)

/-- Every number of the call's request is finite: its geometry and its colour. -/
def allFinite (dcm : Quaternion → Matrix3) (data0 : DisplayData) (c : DrawCall) : Bool :=
  c.geometryFinite dcm data0 && (c.request dcm data0).color.allFinite

end DrawCall

/-! ## WholeBodyTrajectoryDisplay.cpp: messages and scene objects -/

/-- One base coordinate of a step (`dwl_msgs::BaseState`): axis tag and value. -/
structure BaseState where
  id : Nat
  position : Dbl
deriving DecidableEq, Inhabited

/-- Modelled from the spec: the axis tags `dwl::rbd::AX .. LZ`, declared outside src/; three
rotational and three translational tags, pairwise distinct (only that is used). -/
def AX : Nat := 0
/-- Axis tag of the pitch angle, see `AX`. -/
def AY : Nat := 1
/-- Axis tag of the yaw angle, see `AX`. -/
def AZ : Nat := 2
/-- Axis tag of the x translation, see `AX`. -/
def LX : Nat := 3
/-- Axis tag of the y translation, see `AX`. -/
def LY : Nat := 4
/-- Axis tag of the z translation, see `AX`. -/
def LZ : Nat := 5

/-- One contact of a step (`dwl_msgs::ContactState`): name and position in the base frame. -/
structure ContactState where
  name : String
  position : Vector3
deriving DecidableEq, Inhabited

/-- One step of the trajectory (`dwl_msgs::WholeBodyState`). -/
structure WholeBodyState where
  base : List BaseState
  contacts : List ContactState
deriving DecidableEq, Inhabited

/-- Message header: frame name and time stamp. -/
structure Header where
  frame_id : String
  stamp : Time
deriving DecidableEq, Inhabited

/-- The message `dwl_msgs::WholeBodyTrajectory`. -/
structure WholeBodyTrajectory where
  header : Header
  trajectory : List WholeBodyState
deriving DecidableEq, Inhabited

/-- The three rendering styles. -/
inductive LineStyle where
  | LINES
  | BILLBOARDS
  | POINTS
deriving DecidableEq, Inhabited

/-- A vertex of a manual object: `position(...)` followed by `colour(...)`. -/
structure Vertex where
  position : Vector3
  colour : Color
deriving DecidableEq, Inhabited

/-- The part of an `Ogre::ManualObject` the display drives. -/
structure ManualObject where
  dynamic : Bool
  vertexEstimate : Nat
  begun : Bool
  vertices : List Vertex
  ended : Bool
deriving DecidableEq, Inhabited

namespace ManualObject

/-- Result of `createManualObject()`. -/
def create : ManualObject := ⟨false, 0, false, [], false⟩

/-- The calls `setDynamic(true)`, `estimateVertexCount(n)` and `begin(.., OT_LINE_STRIP)`. -/
def start (m : ManualObject) (n : Nat) : ManualObject :=
  { m with dynamic := true, vertexEstimate := n, begun := true }

/-- The calls `position(x, y, z)` and `colour(c)`. -/
def addVertex (m : ManualObject) (p : Vector3) (c : Color) : ManualObject :=
  { m with vertices := m.vertices ++ [⟨⟨p.x, p.y, p.z⟩, c⟩] }

/-- The call `end()`. -/
def finish (m : ManualObject) : ManualObject := { m with ended := true }

end ManualObject

/-- The part of an `rviz::BillboardLine` the display drives. -/
structure BillboardLine where
  numLines : Nat
  maxPointsPerLine : Nat
  lineWidth : Dbl
  points : List Vertex
deriving DecidableEq, Inhabited

namespace BillboardLine

/-- A new billboard line after `setNumLines(1)`, `setMaxPointsPerLine(n)`, `setLineWidth(w)`. -/
def create (n : Nat) (w : Dbl) : BillboardLine := ⟨1, n, w, []⟩

/-- The call `addPoint(p, c)`. -/
def addPoint (b : BillboardLine) (p : Vector3) (c : Color) : BillboardLine :=
  { b with points := b.points ++ [⟨p, c⟩] }

end BillboardLine

/-- A `PointVisual`: a marker with its own frame anchor. -/
structure PointVisual where
  color : Color
  radius : Dbl
  point : Vector3
  framePosition : Vector3
  frameOrientation : Quaternion
deriving DecidableEq, Inhabited

/-- An `rviz::Axes` annotation. -/
structure Axes where
  position : Vector3
  orientation : Quaternion
  alpha : Dbl
  scale : Vector3
deriving DecidableEq, Inhabited

/-- What the display obtains from outside the repository. -/
structure Env where
  /-- Values left in `position` and `orientation` by `FrameManager::getTransform`. -/
  getTransform : Header → Vector3 × Quaternion
  /-- The function `dwl::math::getQuaternion` (roll, pitch, yaw to quaternion). -/
  getQuaternion : Vector3 → Quaternion
  /-- Content of the uninitialised `Eigen::Vector3d base_rpy` at each step of the contact pass. -/
  base_rpy_init : Nat → Vector3

/-- The members of `WholeBodyTrajectoryDisplay` and the values of its properties. -/
structure WholeBodyTrajectoryDisplay where
  is_info_ : Bool
  msg_ : Option WholeBodyTrajectory
  base_style_property_ : LineStyle
  base_line_width_property_ : Dbl
  base_color_property_ : Color
  base_scale_property_ : Dbl
  base_alpha_property_ : Dbl
  contact_style_property_ : LineStyle
  contact_line_width_property_ : Dbl
  contact_color_property_ : Color
  contact_alpha_property_ : Dbl
  base_manual_object_ : Option ManualObject
  base_billboard_line_ : Option BillboardLine
  base_points_ : List PointVisual
  base_axes_ : List Axes
  last_point_position_ : Vector3
  contact_manual_object_ : List (Option ManualObject)
  contact_billboard_line_ : List (Option BillboardLine)
  contact_points_ : List (List (Option PointVisual))
deriving DecidableEq, Inhabited

/-! ## processBaseTrajectory -/

/-- One pass of the loop over `base[j]`: the value goes to the component named by the tag,
any tag other than LX, LY, LZ, AX, AY going to the yaw angle.  The translation is an
`Ogre::Vector3`, so the `double` of the message is narrowed to `float`; the angles are an
`Eigen::Vector3d`. -/
def assignBase (acc : Vector3 × Vector3) (base : BaseState) : Vector3 × Vector3 :=
  if base.id = LX then ({ acc.1 with x := base.position.toFloat }, acc.2)
  else if base.id = LY then ({ acc.1 with y := base.position.toFloat }, acc.2)
  else if base.id = LZ then ({ acc.1 with z := base.position.toFloat }, acc.2)
  else if base.id = AX then (acc.1, { acc.2 with x := base.position })
  else if base.id = AY then (acc.1, { acc.2 with y := base.position })
  else (acc.1, { acc.2 with z := base.position })

/-- The loop `for (j = 0; j < num_base; j++)` over `trajectory[i].base[j]`, started from
`pos` and `rpy`; `none` when the step has fewer than `num_base` base entries. -/
def assembleBase (num_base : Nat) (base : List BaseState) (pos rpy : Vector3) :
    Option (Vector3 × Vector3) :=
  if num_base ≤ base.length then some ((base.take num_base).foldl assignBase (pos, rpy))
  else none

/-- The sanity check on a group of three numbers: all three are zeroed unless all are finite. -/
def sanitize (v : Vector3) : Vector3 :=
  if !(v.x.isfinite && v.y.isfinite && v.z.isfinite) then ⟨0, 0, 0⟩ else v

/-- The two members that the annotation cursor reads and writes. -/
structure AxisCursor where
  base_axes_ : List Axes
  last_point_position_ : Vector3
deriving DecidableEq, Inhabited

/-- The axes object built for a step: placed at `xpos`, oriented `quat * orientation`, `quat`
being the `Eigen::Quaterniond` of the angles narrowed to an `Ogre::Quaternion`. -/
def makeAxes (env : Env) (orientation : Quaternion) (scale alpha : Dbl) (xpos rpy : Vector3) :
    Axes :=
  let q := env.getQuaternion rpy
  let quat : Quaternion := q.toFloat
  { position := xpos, orientation := quat * orientation, alpha := alpha
    scale := ⟨scale, scale, scale⟩ }

/-- The `double` literal 0.0032 of the distance gate. -/
def gateFactor : Dbl := (Dbl.fin (32 / 10000)).toDouble

/-- The block that follows the vertex in each style of `processBaseTrajectory`: the first and
the last step get an axes object, another step gets one when its squared distance to
`last_point_position_` is at least `scale * scale * 0.0032`.  The squared distance and
`scale * scale` are `float`, the product with the literal and the comparison are `double`. -/
def annotate (env : Env) (orientation : Quaternion) (scale alpha : Dbl) (num_points i : Nat)
    (xpos rpy : Vector3) (c : AxisCursor) : AxisCursor :=
  if i = 0 ∨ i = num_points - 1 then
    let c := { c with last_point_position_ := xpos }
    { c with base_axes_ := c.base_axes_ ++ [makeAxes env orientation scale alpha xpos rpy] }
  else
    let sq_distant := xpos.squaredDistance c.last_point_position_
    if sq_distant.ge ((scale.fmul scale).dmul gateFactor) then
      let c := { c with
        base_axes_ := c.base_axes_ ++ [makeAxes env orientation scale alpha xpos rpy] }
      { c with last_point_position_ := xpos }
    else c

namespace WholeBodyTrajectoryDisplay

/-- The annotation block applied to the display's members. -/
def annotateStep (self : WholeBodyTrajectoryDisplay) (env : Env) (orientation : Quaternion)
    (num_points i : Nat) (xpos rpy : Vector3) : WholeBodyTrajectoryDisplay :=
  let scale := self.base_scale_property_
  let c := annotate env orientation scale self.base_alpha_property_ num_points i xpos rpy
    ⟨self.base_axes_, self.last_point_position_⟩
  { self with base_axes_ := c.base_axes_, last_point_position_ := c.last_point_position_ }

/-- Body of the loop over the steps in the LINES case of `processBaseTrajectory`. -/
def baseLinesStep (env : Env) (transform : Matrix4) (orientation : Quaternion)
    (base_color : Color) (num_points num_base i : Nat) (state : WholeBodyState)
    (self : WholeBodyTrajectoryDisplay) : Option WholeBodyTrajectoryDisplay :=
  match assembleBase num_base state.base ⟨0, 0, 0⟩ ⟨0, 0, 0⟩ with
  | none => none
  | some (pos, rpy) =>
    let pos := sanitize pos
    let rpy := sanitize rpy
    let xpos := transform.mulVec pos
    match self.base_manual_object_ with
    | none => none
    | some mo =>
      let self := { self with base_manual_object_ := some (mo.addVertex xpos base_color) }
      some (self.annotateStep env orientation num_points i xpos rpy)

/-- Body of the loop over the steps in the BILLBOARDS case of `processBaseTrajectory`. -/
def baseBillboardsStep (env : Env) (transform : Matrix4) (orientation : Quaternion)
    (base_color : Color) (num_points num_base i : Nat) (state : WholeBodyState)
    (self : WholeBodyTrajectoryDisplay) : Option WholeBodyTrajectoryDisplay :=
  match assembleBase num_base state.base ⟨0, 0, 0⟩ ⟨0, 0, 0⟩ with
  | none => none
  | some (pos, rpy) =>
    let pos := sanitize pos
    let rpy := sanitize rpy
    let xpos := transform.mulVec pos
    match self.base_billboard_line_ with
    | none => none
    | some bl =>
      let self := { self with base_billboard_line_ := some (bl.addPoint xpos base_color) }
      some (self.annotateStep env orientation num_points i xpos rpy)

/-- Body of the loop over the steps in the POINTS case of `processBaseTrajectory`;
`position` and `orientation` are the looked-up world transform. -/
def basePointsStep (env : Env) (transform : Matrix4) (position : Vector3)
    (orientation : Quaternion) (base_color : Color) (base_line_width : Dbl)
    (num_points num_base i : Nat) (state : WholeBodyState)
    (self : WholeBodyTrajectoryDisplay) : Option WholeBodyTrajectoryDisplay :=
  match assembleBase num_base state.base ⟨0, 0, 0⟩ ⟨0, 0, 0⟩ with
  | none => none
  | some (pos, rpy) =>
    let pos := sanitize pos
    let rpy := sanitize rpy
    let point_visual : PointVisual :=
      { color := ⟨base_color.r, base_color.g, base_color.b, base_color.a⟩
        radius := base_line_width, point := pos, framePosition := position
        frameOrientation := orientation }
    let self := { self with base_points_ := self.base_points_ ++ [point_visual] }
    let xpos := transform.mulVec pos
    some (self.annotateStep env orientation num_points i xpos rpy)

/-- The loop `for (i = 0; i < num_points; ++i)` entered at index `i` with the steps from `i`
on; `body` is the loop body of the style. -/
def stepLoop (body : Nat → WholeBodyState → WholeBodyTrajectoryDisplay →
      Option WholeBodyTrajectoryDisplay) :
    Nat → List WholeBodyState → WholeBodyTrajectoryDisplay → Option WholeBodyTrajectoryDisplay
  | _, [], self => some self
  | i, state :: rest, self =>
    match body i state self with
    | none => none
    | some self => stepLoop body (i + 1) rest self

/-- Model of `WholeBodyTrajectoryDisplay::processBaseTrajectory`.  `none` stands for a read
through a null `msg_`, of `trajectory[0]` of an empty trajectory, or of a base entry that a
step does not have. -/
def processBaseTrajectory (env : Env) (self : WholeBodyTrajectoryDisplay) :
    Option WholeBodyTrajectoryDisplay :=
  match self.msg_ with
  | none => none
  | some msg =>
    let position := (env.getTransform msg.header).1
    let orientation := (env.getTransform msg.header).2
    let transform := (Matrix4.ofQuaternion orientation).setTrans position
    let base_style := self.base_style_property_
    let base_color : Color := { self.base_color_property_ with a := self.base_alpha_property_ }
    let num_points := msg.trajectory.length
    match msg.trajectory with
    | [] => none
    | first :: _ =>
      let num_base := first.base.length
      let self := { self with base_axes_ := [] }
      match base_style with
      | LineStyle.LINES =>
        let self := { self with
          base_manual_object_ := some (ManualObject.create.start num_points) }
        match stepLoop (baseLinesStep env transform orientation base_color num_points num_base)
            0 msg.trajectory self with
        | none => none
        | some self =>
          match self.base_manual_object_ with
          | none => none
          | some mo => some { self with base_manual_object_ := some mo.finish }
      | LineStyle.BILLBOARDS =>
        let base_line_width := self.base_line_width_property_
        let self := { self with
          base_billboard_line_ := some (BillboardLine.create num_points base_line_width) }
        stepLoop (baseBillboardsStep env transform orientation base_color num_points num_base)
          0 msg.trajectory self
      | LineStyle.POINTS =>
        let self := { self with base_points_ := [] }
        let base_line_width := self.base_line_width_property_
        stepLoop (basePointsStep env transform position orientation base_color base_line_width
          num_points num_base) 0 msg.trajectory self

end WholeBodyTrajectoryDisplay

/-! ## processContactTrajectory -/

namespace StdMap

/-- Model of `std::map::find`: the value stored under `k`, `none` for `end()`. -/
def find {κ ν : Type} [DecidableEq κ] : List (κ × ν) → κ → Option ν
  | [], _ => none
  | (k', v) :: rest, k => if k = k' then some v else find rest k

/-- Model of the assignment `m[k] = v` on a `std::map` held as a list in key order. -/
def assign {κ ν : Type} [DecidableEq κ] (less : κ → κ → Bool) :
    List (κ × ν) → κ → ν → List (κ × ν)
  | [], k, v => [(k, v)]
  | (k', v') :: rest, k, v =>
    if k = k' then (k, v) :: rest
    else if less k k' then (k, v) :: (k', v') :: rest
    else (k', v') :: assign less rest k v

end StdMap

/-- Lexicographic order on lists of character codes. -/
def lexLess : List Nat → List Nat → Bool
  | [], [] => false
  | [], _ :: _ => true
  | _ :: _, [] => false
  | x :: xs, y :: ys => if x < y then true else if y < x then false else lexLess xs ys

/-- The order `std::string::operator<`, which sorts the keys of `contact_traj_id`. -/
def strLess (a b : String) : Bool :=
  lexLess (a.data.map Char.toNat) (b.data.map Char.toNat)

/-- The pre-scan body: a name not yet in `contact_traj_id` gets the next index. -/
def prescanStep (acc : List (String × Nat) × Nat) (contact : ContactState) :
    List (String × Nat) × Nat :=
  match StdMap.find acc.1 contact.name with
  | none => (StdMap.assign strLess acc.1 contact.name acc.2, acc.2 + 1)
  | some _ => acc

/-- The pre-scan of `processContactTrajectory`: the map `contact_traj_id` and the counter
`num_traj` after both loops. -/
def prescan (trajectory : List WholeBodyState) : List (String × Nat) × Nat :=
  trajectory.foldl (fun acc state => state.contacts.foldl prescanStep acc) ([], 0)

/-- The locals of the assembly pass: the two maps and the counter `traj_id`. -/
structure SlotIds where
  contact_traj_id : List (String × Nat)
  contact_vec_id : List (Nat × Nat)
  traj_id : Nat
deriving DecidableEq, Inhabited

namespace SlotIds

/-- The locals at the start of the assembly pass. -/
def start : SlotIds := ⟨[], [], 0⟩

/-- The bookkeeping of the loop over `contacts[k]`: a new name gets slot `traj_id` and list
index `k`, a known name has its list index updated.  Returns the new locals and the slot just
created, if any; `none` when `contact_vec_id.find` returns `end()`. -/
def update (ids : SlotIds) (k : Nat) (name : String) : Option (SlotIds × Option Nat) :=
  match StdMap.find ids.contact_traj_id name with
  | none =>
    some ({ contact_traj_id := StdMap.assign strLess ids.contact_traj_id name ids.traj_id
            contact_vec_id := StdMap.assign Nat.blt ids.contact_vec_id ids.traj_id k
            traj_id := ids.traj_id + 1 }, some ids.traj_id)
  | some swing_idx =>
    match StdMap.find ids.contact_vec_id swing_idx with
    | none => none
    | some current =>
      if k ≠ current then
        some ({ ids with contact_vec_id := StdMap.assign Nat.blt ids.contact_vec_id swing_idx k },
          none)
      else some (ids, none)

end SlotIds

/-- The point emitted for a contact: `base_pos + base_to_world_tf * position` with the
position of the message narrowed to an `Ogre::Vector3`, zeroed unless its three components
are finite. -/
def contactPoint (base_pos : Vector3) (base_to_world_tf : Matrix4) (contact : ContactState) :
    Vector3 :=
  sanitize (base_pos.fadd (base_to_world_tf.mulVec
    ⟨contact.position.x.toFloat, contact.position.y.toFloat, contact.position.z.toFloat⟩))

/-- The loop `for (k = 0; k < num_contacts; k++)` of the LINES and BILLBOARDS cases, entered
at index `k`; `create` is the object put into the slot of a new name.  `none` when the slot
lies outside the object vector. -/
def slotInner {α : Type} (create : α) :
    Nat → List ContactState → SlotIds → List (Option α) → Option (SlotIds × List (Option α))
  | _, [], ids, objs => some (ids, objs)
  | k, contact :: rest, ids, objs =>
    match ids.update k contact.name with
    | none => none
    | some (ids, none) => slotInner create (k + 1) rest ids objs
    | some (ids, some slot) =>
      if slot < objs.length then slotInner create (k + 1) rest ids (objs.set slot (some create))
      else none

/-- The loop over `contact_traj_id` (in key order) of the LINES and BILLBOARDS cases: each
slot whose recorded list index is below `num_contacts` receives the point of the contact at
that index.  `none` on `end()`, on a slot outside the vector or on a null object. -/
def slotEmit {α : Type} (emit : α → Vector3 → α) (contacts : List ContactState)
    (base_pos : Vector3) (base_to_world_tf : Matrix4) (contact_vec_id : List (Nat × Nat)) :
    List (String × Nat) → List (Option α) → Option (List (Option α))
  | [], objs => some objs
  | (_, traj_id) :: rest, objs =>
    match StdMap.find contact_vec_id traj_id with
    | none => none
    | some id =>
      if h : id < contacts.length then
        let contact := contacts[id]
        let xpos := contactPoint base_pos base_to_world_tf contact
        match objs[traj_id]? with
        | some (some o) =>
          slotEmit emit contacts base_pos base_to_world_tf contact_vec_id rest
            (objs.set traj_id (some (emit o xpos)))
        | _ => none
      else slotEmit emit contacts base_pos base_to_world_tf contact_vec_id rest objs

/-- The base position and the base-to-world matrix that the contact pass computes at step `i`;
`none` when the step has fewer than `num_base` base entries. -/
def contactBase (env : Env) (num_base i : Nat) (state : WholeBodyState) :
    Option (Vector3 × Matrix4) :=
  match assembleBase num_base state.base ⟨0, 0, 0⟩ (env.base_rpy_init i) with
  | none => none
  | some (base_pos, base_rpy) =>
    let quat := env.getQuaternion base_rpy
    let ogre_quat : Quaternion := quat.toFloat
    some (base_pos, Matrix4.ofQuaternion ogre_quat)

/-- Body of the loop over the steps in the LINES and BILLBOARDS cases. -/
def slotStep {α : Type} (create : α) (emit : α → Vector3 → α) (env : Env) (num_base i : Nat)
    (state : WholeBodyState) (ids : SlotIds) (objs : List (Option α)) :
    Option (SlotIds × List (Option α)) :=
  match slotInner create 0 state.contacts ids objs with
  | none => none
  | some (ids, objs) =>
    match contactBase env num_base i state with
    | none => none
    | some (base_pos, base_to_world_tf) =>
      match slotEmit emit state.contacts base_pos base_to_world_tf ids.contact_vec_id
          ids.contact_traj_id objs with
      | none => none
      | some objs => some (ids, objs)

/-- The loop over the steps in the LINES and BILLBOARDS cases, entered at index `i`. -/
def slotLoop {α : Type} (create : α) (emit : α → Vector3 → α) (env : Env) (num_base : Nat) :
    Nat → List WholeBodyState → SlotIds → List (Option α) → Option (SlotIds × List (Option α))
  | _, [], ids, objs => some (ids, objs)
  | i, state :: rest, ids, objs =>
    match slotStep create emit env num_base i state ids objs with
    | none => none
    | some (ids, objs) => slotLoop create emit env num_base (i + 1) rest ids objs

/-- The loop `for (i = 0; i < traj_id; i++) contact_manual_object_[i]->end()`. -/
def finishSlots : Nat → List (Option ManualObject) → Option (List (Option ManualObject))
  | 0, objs => some objs
  | n + 1, objs =>
    match finishSlots n objs with
    | none => none
    | some objs =>
      match objs[n]? with
      | some (some o) => some (objs.set n (some o.finish))
      | _ => none

/-- The loop over `contacts[k]` of the POINTS case: bookkeeping only. -/
def pointsInner : Nat → List ContactState → SlotIds → Option SlotIds
  | _, [], ids => some ids
  | k, contact :: rest, ids =>
    match ids.update k contact.name with
    | none => none
    | some (ids, _) => pointsInner (k + 1) rest ids

/-- The loop over `contact_traj_id` of the POINTS case: the markers of step `i`, written at
`contact_idx`.  `none` on `end()` or on a write outside `contact_points_[i]`. -/
def pointsEmit (visual : Vector3 → PointVisual) (contacts : List ContactState)
    (base_pos : Vector3) (base_to_world_tf : Matrix4) (contact_vec_id : List (Nat × Nat)) :
    List (String × Nat) → Nat → List (Option PointVisual) → Option (List (Option PointVisual))
  | [], _, row => some row
  | (_, traj_id) :: rest, contact_idx, row =>
    match StdMap.find contact_vec_id traj_id with
    | none => none
    | some id =>
      if h : id < contacts.length then
        let contact := contacts[id]
        let xpos := contactPoint base_pos base_to_world_tf contact
        if contact_idx < row.length then
          pointsEmit visual contacts base_pos base_to_world_tf contact_vec_id rest
            (contact_idx + 1) (row.set contact_idx (some (visual xpos)))
        else none
      else pointsEmit visual contacts base_pos base_to_world_tf contact_vec_id rest
        contact_idx row

/-- The loop over the steps in the POINTS case, entered at index `i`; `rows` is
`contact_points_`. -/
def pointsLoop (visual : Vector3 → PointVisual) (env : Env) (num_base : Nat) :
    Nat → List WholeBodyState → SlotIds → List (List (Option PointVisual)) →
      Option (SlotIds × List (List (Option PointVisual)))
  | _, [], ids, rows => some (ids, rows)
  | i, state :: rest, ids, rows =>
    match pointsInner 0 state.contacts ids with
    | none => none
    | some ids =>
      if i < rows.length then
        let row : List (Option PointVisual) := List.replicate state.contacts.length none
        match contactBase env num_base i state with
        | none => none
        | some (base_pos, base_to_world_tf) =>
          match pointsEmit visual state.contacts base_pos base_to_world_tf ids.contact_vec_id
              ids.contact_traj_id 0 row with
          | none => none
          | some row => pointsLoop visual env num_base (i + 1) rest ids (rows.set i row)
      else none

namespace WholeBodyTrajectoryDisplay

/-- Model of `WholeBodyTrajectoryDisplay::processContactTrajectory`.  `none` stands for a read
through a null `msg_`, of `trajectory[0]` of an empty trajectory, or for one of the failures
of the loops above. -/
def processContactTrajectory (env : Env) (self : WholeBodyTrajectoryDisplay) :
    Option WholeBodyTrajectoryDisplay :=
  match self.msg_ with
  | none => none
  | some msg =>
    let position := (env.getTransform msg.header).1
    let orientation := (env.getTransform msg.header).2
    let _transform := (Matrix4.ofQuaternion orientation).setTrans position
    let num_points := msg.trajectory.length
    match msg.trajectory with
    | [] => none
    | first :: _ =>
      let num_base := first.base.length
      let contact_color : Color :=
        { self.contact_color_property_ with a := self.contact_alpha_property_ }
      let num_traj := (prescan msg.trajectory).2
      match self.contact_style_property_ with
      | LineStyle.LINES =>
        match slotLoop (ManualObject.create.start num_points)
            (fun (o : ManualObject) xpos => o.addVertex xpos contact_color) env num_base 0
            msg.trajectory SlotIds.start (List.replicate num_traj none) with
        | none => none
        | some (ids, objs) =>
          match finishSlots ids.traj_id objs with
          | none => none
          | some objs => some { self with contact_manual_object_ := objs }
      | LineStyle.BILLBOARDS =>
        let contact_line_width := self.contact_line_width_property_
        match slotLoop (BillboardLine.create num_points contact_line_width)
            (fun (o : BillboardLine) xpos => o.addPoint xpos contact_color) env num_base 0
            msg.trajectory SlotIds.start (List.replicate num_traj none) with
        | none => none
        | some (_, objs) => some { self with contact_billboard_line_ := objs }
      | LineStyle.POINTS =>
        let contact_line_width := self.contact_line_width_property_
        let visual : Vector3 → PointVisual := fun xpos =>
          { color := ⟨contact_color.r, contact_color.g, contact_color.b, contact_color.a⟩
            radius := contact_line_width, point := xpos, framePosition := position
            frameOrientation := orientation }
        match pointsLoop visual env num_base 0 msg.trajectory SlotIds.start
            (List.replicate num_points []) with
        | none => none
        | some (_, rows) => some { self with contact_points_ := rows }

end WholeBodyTrajectoryDisplay

/-! ## Style changes and new messages -/

/-- The loop `for (i = 0; i < n; i++) v[i].reset()`; `none` when `n` exceeds the size of the
vector. -/
def resetSlots {α : Type} : Nat → List (Option α) → Option (List (Option α))
  | 0, objs => some objs
  | n + 1, objs =>
    match resetSlots n objs with
    | none => none
    | some objs => if n < objs.length then some (objs.set n none) else none

/-- The loop that resets every marker of `contact_points_` and clears each row; the outer
vector keeps its size. -/
def clearRows (rows : List (List (Option PointVisual))) : List (List (Option PointVisual)) :=
  rows.map (fun _ => [])

namespace WholeBodyTrajectoryDisplay

/-- Model of `WholeBodyTrajectoryDisplay::destroyObjects`. -/
def destroyObjects (self : WholeBodyTrajectoryDisplay) : WholeBodyTrajectoryDisplay :=
  { self with
    base_manual_object_ := none, base_billboard_line_ := none, base_points_ := []
    base_axes_ := [], contact_manual_object_ := [], contact_billboard_line_ := []
    contact_points_ := [] }

/-- Model of `WholeBodyTrajectoryDisplay::processMessage`. -/
def processMessage (env : Env) (self : WholeBodyTrajectoryDisplay)
    (msg : WholeBodyTrajectory) : Option WholeBodyTrajectoryDisplay :=
  let self := { self with msg_ := some msg, is_info_ := true }
  let self := self.destroyObjects
  match self.processBaseTrajectory env with
  | none => none
  | some self => self.processContactTrajectory env

/-- Model of `WholeBodyTrajectoryDisplay::updateBaseStyle`, called once the style property
holds the newly selected style.  Showing and hiding the width property is not represented. -/
def updateBaseStyle (env : Env) (self : WholeBodyTrajectoryDisplay) :
    Option WholeBodyTrajectoryDisplay :=
  let style := self.base_style_property_
  let self :=
    match style with
    | LineStyle.LINES => { self with base_billboard_line_ := none, base_points_ := [] }
    | LineStyle.BILLBOARDS => { self with base_manual_object_ := none, base_points_ := [] }
    | LineStyle.POINTS => { self with base_manual_object_ := none, base_billboard_line_ := none }
  if self.is_info_ then self.processBaseTrajectory env else some self

/-- The switch of `updateContactStyle`; `num_contact` is the size of
`contact_billboard_line_` and bounds every loop over the two object vectors.  `none` when
`contact_manual_object_` is indexed beyond its size. -/
def resetContactStyle (self : WholeBodyTrajectoryDisplay) : Option WholeBodyTrajectoryDisplay :=
  let style := self.contact_style_property_
  let num_contact := self.contact_billboard_line_.length
  match style with
  | LineStyle.LINES =>
    match resetSlots num_contact self.contact_billboard_line_ with
    | none => none
    | some lines =>
      some { self with
        contact_billboard_line_ := lines, contact_points_ := clearRows self.contact_points_ }
  | LineStyle.BILLBOARDS =>
    match resetSlots num_contact self.contact_manual_object_ with
    | none => none
    | some objs =>
      some { self with
        contact_manual_object_ := objs, contact_points_ := clearRows self.contact_points_ }
  | LineStyle.POINTS =>
    match resetSlots num_contact self.contact_manual_object_ with
    | none => none
    | some objs =>
      match resetSlots num_contact self.contact_billboard_line_ with
      | none => none
      | some lines =>
        some { self with contact_manual_object_ := objs, contact_billboard_line_ := lines }

/-- Model of `WholeBodyTrajectoryDisplay::updateContactStyle`, called once the style property
holds the newly selected style. -/
def updateContactStyle (env : Env) (self : WholeBodyTrajectoryDisplay) :
    Option WholeBodyTrajectoryDisplay :=
  match self.resetContactStyle with
  | none => none
  | some self => if self.is_info_ then self.processContactTrajectory env else some self

end WholeBodyTrajectoryDisplay

/-! ## Notions used in the statements -/

/-- The contacts of all steps in scan order: step by step and, within a step, in list order. -/
def allContacts : List WholeBodyState → List ContactState
  | [] => []
  | state :: rest => state.contacts ++ allContacts rest

/-- The contact names of the trajectory in scan order, repetitions included. -/
def contactNames (trajectory : List WholeBodyState) : List String :=
  (allContacts trajectory).map (fun c => c.name)

/-- The trajectory is non-empty and each step has at least as many base entries as the first
step, whose count `num_base` bounds every read `base[j]`. -/
def wellFormed (trajectory : List WholeBodyState) : Bool :=
  match trajectory with
  | [] => false
  | first :: _ => trajectory.all (fun state => decide (first.base.length ≤ state.base.length))

/-- What the bookkeeping has reached after the names `seen`: the counter is the number of
distinct names, unseen names are not in the map, and a seen name maps to the number of
distinct names before its first occurrence. -/
def ScanInv (seen : List String) (acc : List (String × Nat) × Nat) : Prop :=
  acc.2 = seen.toFinset.card ∧
  (∀ n, n ∉ seen → StdMap.find acc.1 n = none) ∧
  (∀ pre n post, seen = pre ++ n :: post → n ∉ pre →
    StdMap.find acc.1 n = some pre.toFinset.card)

/-- The state of the LINES/BILLBOARDS pass is sound for the contacts `future` still to come:
slots in the map are below the counter, each slot below the counter has a list index and an
object, and the vector has the size the pre-scan reaches. -/
def SlotInv {α : Type} (ids : SlotIds) (objs : List (Option α))
    (future : List ContactState) : Prop :=
  (∀ e ∈ ids.contact_traj_id, e.2 < ids.traj_id) ∧
  (∀ j, j < ids.traj_id → ∃ k, StdMap.find ids.contact_vec_id j = some k) ∧
  (∀ j, j < ids.traj_id → ∃ o, objs[j]? = some (some o)) ∧
  objs.length = (future.foldl prescanStep (ids.contact_traj_id, ids.traj_id)).2

/-- The base translation assembled for a step from its first `num_base` base entries. -/
def assembledPos (num_base : Nat) (state : WholeBodyState) : Vector3 :=
  ((state.base.take num_base).foldl assignBase (⟨0, 0, 0⟩, ⟨0, 0, 0⟩)).1

/-- The roll, pitch and yaw assembled for a step from its first `num_base` base entries. -/
def assembledRpy (num_base : Nat) (state : WholeBodyState) : Vector3 :=
  ((state.base.take num_base).foldl assignBase (⟨0, 0, 0⟩, ⟨0, 0, 0⟩)).2

/-- The world-transformed position of a step: the transform applied to the checked
translation. -/
def stepXpos (transform : Matrix4) (num_base : Nat) (state : WholeBodyState) : Vector3 :=
  transform.mulVec (sanitize (assembledPos num_base state))

/-- The annotation block run over the steps from index `i` on. -/
def cursorRun (env : Env) (orientation : Quaternion) (scale alpha : Dbl) (num_points : Nat)
    (transform : Matrix4) (num_base : Nat) : Nat → List WholeBodyState → AxisCursor → AxisCursor
  | _, [], c => c
  | i, state :: rest, c =>
    cursorRun env orientation scale alpha num_points transform num_base (i + 1) rest
      (annotate env orientation scale alpha num_points i (stepXpos transform num_base state)
        (sanitize (assembledRpy num_base state)) c)

/-- The count `num_base`: the number of base entries of the first step. -/
def numBase : List WholeBodyState → Nat
  | [] => 0
  | first :: _ => first.base.length

/-- The matrix `transform` built from the looked-up world position and orientation. -/
def worldTransform (env : Env) (msg : WholeBodyTrajectory) : Matrix4 :=
  (Matrix4.ofQuaternion (env.getTransform msg.header).2).setTrans (env.getTransform msg.header).1

/-- The colour `base_color`: the colour property with the alpha property as alpha. -/
def baseColor (self : WholeBodyTrajectoryDisplay) : Color :=
  { self.base_color_property_ with a := self.base_alpha_property_ }

/-- The annotation block run over the whole trajectory, from an empty `base_axes_`. -/
def baseCursor (env : Env) (self : WholeBodyTrajectoryDisplay) (msg : WholeBodyTrajectory) :
    AxisCursor :=
  cursorRun env (env.getTransform msg.header).2 self.base_scale_property_
    self.base_alpha_property_ msg.trajectory.length (worldTransform env msg)
    (numBase msg.trajectory) 0 msg.trajectory ⟨[], self.last_point_position_⟩

/-- The position the sanity check leaves, in the words of the specification: the assembled
position when all its components are finite, (0, 0, 0) otherwise. -/
def zeroUnlessFinite (v : Vector3) : Vector3 :=
  if v.allFinite then v else ⟨0, 0, 0⟩

/-- The steps at which the annotation block creates an axes object, when it is run from
index `i` over the transformed positions `x :: rest` with `last` as `last_point_position_`
and `thr` as the gate. -/
def annotatedFrom (thr : Dbl) (N : Nat) : Nat → List Vector3 → Vector3 → List Nat
  | _, [], _ => []
  | i, x :: rest, last =>
    if i = 0 ∨ i = N - 1 ∨ (x.squaredDistance last).ge thr = true then
      i :: annotatedFrom thr N (i + 1) rest x
    else annotatedFrom thr N (i + 1) rest last

/-- The most recently annotated step before step `i`, given the annotated steps in
increasing order (0 when there is none). -/
def lastBefore (ann : List Nat) (i : Nat) : Nat :=
  ((ann.filter (fun j => decide (j < i))).getLast?).getD 0

/-- The position of the last of the steps `earlier`, or `last` when there is none. -/
def prevPos (all : List Vector3) (last : Vector3) (earlier : List Nat) : Vector3 :=
  earlier.foldl (fun _ m => all.getD m default) last

/-- The world-transformed position of step `j` of the message. -/
def xposAt (env : Env) (msg : WholeBodyTrajectory) (j : Nat) : Vector3 :=
  stepXpos (worldTransform env msg) (numBase msg.trajectory) (msg.trajectory.getD j default)

/-- The axes object of step `j`: at the step's transformed position, oriented by the step's
checked roll, pitch and yaw composed with the world orientation. -/
def axesAt (env : Env) (self : WholeBodyTrajectoryDisplay) (msg : WholeBodyTrajectory)
    (j : Nat) : Axes :=
  makeAxes env (env.getTransform msg.header).2 self.base_scale_property_
    self.base_alpha_property_ (xposAt env msg j)
    (sanitize (assembledRpy (numBase msg.trajectory) (msg.trajectory.getD j default)))

/-- The gate `scale * scale * 0.0032` for the display's axes scale, as the code computes it:
the `float` product `scale * scale` times the `double` literal. -/
def gateThreshold (self : WholeBodyTrajectoryDisplay) : Dbl :=
  (self.base_scale_property_.fmul self.base_scale_property_).dmul gateFactor

/-- The point number `j` of the straight line through (ax, ay, az) with step (vx, vy, vz). -/
def linePoint (ax ay az vx vy vz : ℚ) (j : Nat) : Vector3 :=
  ⟨Dbl.fin (ax + j * vx), Dbl.fin (ay + j * vy), Dbl.fin (az + j * vz)⟩

/-- The count of the specification for a uniformly spaced straight line: going through `n`
further interior steps, `since` spacings lying between the last annotation and the step
before the next one, count the steps at which the squared cumulative spacing since the last
annotation, `(since + 1)^2 * d2`, first reaches the gate `thr`; `d2` is the squared
spacing. -/
def gateCount (d2 : ℚ) (thr : Dbl) : Nat → Nat → Nat
  | 0, _ => 0
  | n + 1, since =>
    if (Dbl.fin (((since : ℚ) + 1) ^ 2 * d2)).ge thr = true then 1 + gateCount d2 thr n 0
    else gateCount d2 thr n (since + 1)

/-- The tag is one of the six axis tags AX, AY, AZ, LX, LY, LZ. -/
def isAxisTag (id : Nat) : Bool :=
  id == AX || id == AY || id == AZ || id == LX || id == LY || id == LZ

/-- The composed position of a contact: the base position plus the base orientation applied
to the local contact position, as the code computes it in `float`. -/
def composedPosition (base_pos : Vector3) (base_to_world_tf : Matrix4)
    (contact : ContactState) : Vector3 :=
  base_pos.fadd (base_to_world_tf.mulVec
    ⟨contact.position.x.toFloat, contact.position.y.toFloat, contact.position.z.toFloat⟩)

/-- The point `p` is the composed position of a contact of some step of the trajectory, taken
with the base pose the contact pass assembles at that step, and replaced by (0, 0, 0) unless
all its components are finite. -/
def ClampedContact (env : Env) (trajectory : List WholeBodyState) (p : Vector3) : Prop :=
  ∃ i state contact base_pos base_to_world_tf,
    trajectory[i]? = some state ∧ contact ∈ state.contacts ∧
    contactBase env (numBase trajectory) i state = some (base_pos, base_to_world_tf) ∧
    p = zeroUnlessFinite (composedPosition base_pos base_to_world_tf contact)

/-- The marker that the POINTS case of the contact pass builds at `xpos`. -/
def contactVisual (env : Env) (self : WholeBodyTrajectoryDisplay) (msg : WholeBodyTrajectory)
    (xpos : Vector3) : PointVisual :=
  { color := ⟨self.contact_color_property_.r, self.contact_color_property_.g,
      self.contact_color_property_.b, self.contact_alpha_property_⟩
    radius := self.contact_line_width_property_, point := xpos
    framePosition := (env.getTransform msg.header).1
    frameOrientation := (env.getTransform msg.header).2 }

/-- The requests for which `publishMarkerArray` pushes a marker, each paired with its index
in the stack, for the part of the stack that starts at index `i`: every request but those of
type POINT, whose branch pushes nothing. -/
def pushedFrom (i : Nat) (stack : List DisplayData) : List (Nat × DisplayData) :=
  (stack.enumFrom i).filter (fun p => p.2.type != DisplayType.POINT)

/-! ## Inputs of the worked examples -/

/-- Six base entries, one per axis tag, all of value zero. -/
def zeroBase : List BaseState := [⟨LX, 0⟩, ⟨LY, 0⟩, ⟨LZ, 0⟩, ⟨AX, 0⟩, ⟨AY, 0⟩, ⟨AZ, 0⟩]

/-- Surroundings of the worked examples: the world transform is the translation by (1, 0, 0)
with the identity rotation; `getQuaternion` is the identity quaternion, the value of
`dwl::math::getQuaternion` at zero roll, pitch and yaw, its only argument in the examples. -/
def exampleEnv : Env :=
  { getTransform := fun _ => (⟨1, 0, 0⟩, Quaternion.IDENTITY)
    getQuaternion := fun _ => Quaternion.IDENTITY
    base_rpy_init := fun _ => ⟨0, 0, 0⟩ }

/-- A display that holds the message `msg` and has the given base and contact styles, the
other properties having the values the constructor gives them: line width 0.01, colour
(0, 85, 255), axes scale 1, alpha 1. -/
def displayOf (msg : WholeBodyTrajectory) (base_style contact_style : LineStyle) :
    WholeBodyTrajectoryDisplay :=
  { (default : WholeBodyTrajectoryDisplay) with
    is_info_ := true, msg_ := some msg
    base_style_property_ := base_style, contact_style_property_ := contact_style
    base_line_width_property_ := Dbl.fin (1 / 100)
    base_color_property_ := ⟨0, Dbl.fin (85 / 255), 1, 1⟩
    base_scale_property_ := 1, base_alpha_property_ := 1
    contact_line_width_property_ := Dbl.fin (1 / 100)
    contact_color_property_ := ⟨0, Dbl.fin (85 / 255), 1, 1⟩
    contact_alpha_property_ := 1 }

/-- Two steps: "lf_foot" then "rf_foot" in step 0, "rf_foot" alone in step 1. -/
def liftOffTrajectory : WholeBodyTrajectory :=
  { header := ⟨"base", ⟨0, 0⟩⟩
    trajectory :=
      [⟨zeroBase, [⟨"lf_foot", ⟨1, 0, 0⟩⟩, ⟨"rf_foot", ⟨2, 0, 0⟩⟩]⟩,
       ⟨zeroBase, [⟨"rf_foot", ⟨3, 0, 0⟩⟩]⟩] }

/-- Eight steps: "front-left" in steps 0-2 and 5-7, "front-right" in steps 0-7. -/
def gaitTrajectory : WholeBodyTrajectory :=
  let both : WholeBodyState :=
    ⟨zeroBase, [⟨"front-left", ⟨0, 0, 0⟩⟩, ⟨"front-right", ⟨0, 0, 0⟩⟩]⟩
  let right : WholeBodyState := ⟨zeroBase, [⟨"front-right", ⟨0, 0, 0⟩⟩]⟩
  { header := ⟨"base", ⟨0, 0⟩⟩
    trajectory := [both, both, both, right, right, both, both, both] }

/-- A display holding `gaitTrajectory`. -/
def gaitDisplay : WholeBodyTrajectoryDisplay :=
  displayOf gaitTrajectory LineStyle.LINES LineStyle.LINES

/-- One step with one contact "lf_foot" at (2, 0, 0) of the base frame, the base at zero. -/
def singleContactTrajectory : WholeBodyTrajectory :=
  { header := ⟨"base", ⟨0, 0⟩⟩
    trajectory := [⟨zeroBase, [⟨"lf_foot", ⟨2, 0, 0⟩⟩]⟩] }

/-- Five steps advancing by 1 along x; the z translation of step 3 is NaN. -/
def nanStepTrajectory : WholeBodyTrajectory :=
  let step (x z : Dbl) : WholeBodyState :=
    ⟨[⟨LX, x⟩, ⟨LY, 0⟩, ⟨LZ, z⟩, ⟨AX, 0⟩, ⟨AY, 0⟩, ⟨AZ, 0⟩], []⟩
  { header := ⟨"base", ⟨0, 0⟩⟩
    trajectory := [step 0 0, step 1 0, step 2 0, step 3 Dbl.nan, step 4 0] }

/-- Three steps spaced 1/64 along x, shown with axes scale -1. -/
def denseTrajectory : WholeBodyTrajectory :=
  let step (x : Dbl) : WholeBodyState :=
    ⟨[⟨LX, x⟩, ⟨LY, 0⟩, ⟨LZ, 0⟩, ⟨AX, 0⟩, ⟨AY, 0⟩, ⟨AZ, 0⟩], []⟩
  { header := ⟨"base", ⟨0, 0⟩⟩
    trajectory := [step 0, step (Dbl.fin (1 / 64)), step (Dbl.fin (2 / 64))] }

/-- A display holding `denseTrajectory` with the axes scale set to -1. -/
def negativeScaleDisplay : WholeBodyTrajectoryDisplay :=
  { displayOf denseTrajectory LineStyle.LINES LineStyle.LINES with
    base_scale_property_ := Dbl.fin (-1) }

/-- Three steps at the same place. -/
def standingTrajectory : WholeBodyTrajectory :=
  let step : WholeBodyState :=
    ⟨[⟨LX, 0⟩, ⟨LY, 0⟩, ⟨LZ, 0⟩, ⟨AX, 0⟩, ⟨AY, 0⟩, ⟨AZ, 0⟩], []⟩
  { header := ⟨"base", ⟨0, 0⟩⟩
    trajectory := [step, step, step] }

/-- A display holding `standingTrajectory` with the axes scale set to 0. -/
def zeroScaleDisplay : WholeBodyTrajectoryDisplay :=
  { displayOf standingTrajectory LineStyle.LINES LineStyle.LINES with
    base_scale_property_ := Dbl.fin 0 }

/-- Four steps spaced 0.125 along x, shown with the axes scale 1. -/
def eighthTrajectory : WholeBodyTrajectory :=
  let step (x : Dbl) : WholeBodyState :=
    ⟨[⟨LX, x⟩, ⟨LY, 0⟩, ⟨LZ, 0⟩, ⟨AX, 0⟩, ⟨AY, 0⟩, ⟨AZ, 0⟩], []⟩
  { header := ⟨"base", ⟨0, 0⟩⟩
    trajectory := [step 0, step (Dbl.fin (1 / 8)), step (Dbl.fin (2 / 8)),
      step (Dbl.fin (3 / 8))] }

/-- Three steps on the straight line with step (11/1024, 14908697/2^28, 0), every coordinate
a `float`; the squared spacing exceeds 0.0032 by less than 3e-11.  Shown with the axes
scale 1. -/
def boundaryTrajectory : WholeBodyTrajectory :=
  let step (x y : Dbl) : WholeBodyState :=
    ⟨[⟨LX, x⟩, ⟨LY, y⟩, ⟨LZ, 0⟩, ⟨AX, 0⟩, ⟨AY, 0⟩, ⟨AZ, 0⟩], []⟩
  { header := ⟨"base", ⟨0, 0⟩⟩
    trajectory := [step 0 0, step (Dbl.fin (11 / 1024)) (Dbl.fin (14908697 / 268435456)),
      step (Dbl.fin (22 / 1024)) (Dbl.fin (29817394 / 268435456))] }

/-- Twelve steps spaced 0.1 along y at the offset 4.5e6 (y = 4500000 + j / 10), where the
`float` values are 0.5 apart.  Shown with the axes scale 1. -/
def offsetTrajectory : WholeBodyTrajectory :=
  let step (j : Nat) : WholeBodyState :=
    ⟨[⟨LX, 0⟩, ⟨LY, Dbl.fin (4500000 + j / 10)⟩, ⟨LZ, 0⟩, ⟨AX, 0⟩, ⟨AY, 0⟩, ⟨AZ, 0⟩], []⟩
  { header := ⟨"base", ⟨0, 0⟩⟩
    trajectory := (List.range 12).map step }

/-- A direction cosine matrix stand-in that returns the unit matrix for every quaternion. -/
def unitDcm : Quaternion → Matrix3 := fun _ => ⟨1, 0, 0, 0, 1, 0, 0, 0, 1⟩

/-- A colour whose red component is NaN, the other components being finite. -/
def nanRed : Color := ⟨Dbl.nan, 0, 0, 1⟩

/-- Six base entries, one per axis tag, with the values 1 to 6. -/
def tiltedBase : List BaseState := [⟨LX, 1⟩, ⟨LY, 2⟩, ⟨LZ, 3⟩, ⟨AX, 4⟩, ⟨AY, 5⟩, ⟨AZ, 6⟩]

/-- A trajectory with no steps. -/
def emptyTrajectory : WholeBodyTrajectory := ⟨⟨"base", ⟨0, 0⟩⟩, []⟩

/-- One step without base entries and with one contact. -/
def bareTrajectory : WholeBodyTrajectory :=
  ⟨⟨"base", ⟨0, 0⟩⟩, [⟨[], [⟨"lf_foot", ⟨1, 0, 0⟩⟩]⟩]⟩

/-- Two steps without contacts: the first has the three translation entries of `tiltedBase`,
the second all six. -/
def raggedTrajectory : WholeBodyTrajectory :=
  { header := ⟨"base", ⟨0, 0⟩⟩
    trajectory := [⟨tiltedBase.take 3, []⟩, ⟨tiltedBase, []⟩] }

/-- Three steps advancing along x, none with a contact. -/
def flightTrajectory : WholeBodyTrajectory :=
  let step (x : Dbl) : WholeBodyState :=
    ⟨[⟨LX, x⟩, ⟨LY, 0⟩, ⟨LZ, 0⟩, ⟨AX, 0⟩, ⟨AY, 0⟩, ⟨AZ, 0⟩], []⟩
  { header := ⟨"base", ⟨0, 0⟩⟩, trajectory := [step 0, step 1, step 2] }

/-- The display as the constructor leaves it: no message, no object, both styles Points. -/
def freshDisplay : WholeBodyTrajectoryDisplay :=
  { (default : WholeBodyTrajectoryDisplay) with
    is_info_ := false, msg_ := none
    base_style_property_ := LineStyle.POINTS, contact_style_property_ := LineStyle.POINTS
    base_line_width_property_ := Dbl.fin (1 / 100)
    base_color_property_ := ⟨0, Dbl.fin (85 / 255), 1, 1⟩
    base_scale_property_ := 1, base_alpha_property_ := 1
    contact_line_width_property_ := Dbl.fin (1 / 100)
    contact_color_property_ := ⟨0, Dbl.fin (85 / 255), 1, 1⟩
    contact_alpha_property_ := 1 }

/-- Three steps with the contact "lf_foot" at x = 1, x = NaN and x = 3 of the base frame,
the base at zero. -/
def nanContactTrajectory : WholeBodyTrajectory :=
  { header := ⟨"base", ⟨0, 0⟩⟩
    trajectory :=
      [⟨zeroBase, [⟨"lf_foot", ⟨1, 0, 0⟩⟩]⟩, ⟨zeroBase, [⟨"lf_foot", ⟨Dbl.nan, 0, 0⟩⟩]⟩,
       ⟨zeroBase, [⟨"lf_foot", ⟨3, 0, 0⟩⟩]⟩] }

/-- A stack of four requests: a line, a point, a text and a sphere, in frames "a" to "d". -/
def mixedStack : List DisplayData :=
  [{ (default : DisplayData) with type := DisplayType.LINE, frame := "a" },
   { (default : DisplayData) with type := DisplayType.POINT, frame := "b" },
   { (default : DisplayData) with type := DisplayType.TEXT, frame := "c" },
   { (default : DisplayData) with type := DisplayType.SPHERE, frame := "d" }]

@[simp] theorem Dbl.ofNat_eq (n : Nat) : (OfNat.ofNat n : Dbl) = Dbl.fin (n : ℚ) := rfl

@[simp] theorem Dbl.fin_add (a b : ℚ) : Dbl.fin a + Dbl.fin b = Dbl.fin (a + b) := rfl

@[simp] theorem Dbl.fin_sub (a b : ℚ) : Dbl.fin a - Dbl.fin b = Dbl.fin (a - b) := by
  show Dbl.fin (a + -b) = _
  rw [sub_eq_add_neg]

@[simp] theorem Dbl.fin_mul (a b : ℚ) : Dbl.fin a * Dbl.fin b = Dbl.fin (a * b) := rfl

theorem Dbl.fin_div (a b : ℚ) (h : b ≠ 0) : Dbl.fin a / Dbl.fin b = Dbl.fin (a / b) := by
  show Dbl.div _ _ = _
  simp [Dbl.div, h]

@[simp] theorem Dbl.fin_div_one (a : ℚ) : Dbl.fin a / Dbl.fin 1 = Dbl.fin a := by
  rw [Dbl.fin_div a 1 one_ne_zero, div_one]

@[simp] theorem Dbl.isfinite_fin (a : ℚ) : (Dbl.fin a).isfinite = true := rfl

@[simp] theorem Dbl.toFloat_fin (q : ℚ) : (Dbl.fin q).toFloat = roundFloat q := rfl

@[simp] theorem Dbl.toDouble_fin (q : ℚ) : (Dbl.fin q).toDouble = roundDouble q := rfl

@[simp] theorem Dbl.toFloat_nan : Dbl.nan.toFloat = Dbl.nan := rfl

@[simp] theorem Dbl.toFloat_pinf : Dbl.pinf.toFloat = Dbl.pinf := rfl

@[simp] theorem Dbl.toFloat_ninf : Dbl.ninf.toFloat = Dbl.ninf := rfl

@[simp] theorem Dbl.fadd_fin (a b : ℚ) : (Dbl.fin a).fadd (Dbl.fin b) = roundFloat (a + b) :=
  rfl

@[simp] theorem Dbl.fsub_fin (a b : ℚ) : (Dbl.fin a).fsub (Dbl.fin b) = roundFloat (a - b) := by
  rw [Dbl.fsub, Dbl.fin_sub, Dbl.toFloat_fin]

@[simp] theorem Dbl.fmul_fin (a b : ℚ) : (Dbl.fin a).fmul (Dbl.fin b) = roundFloat (a * b) :=
  rfl

@[simp] theorem Dbl.fdiv_fin_one (a : ℚ) : (Dbl.fin a).fdiv (Dbl.fin 1) = roundFloat a := by
  rw [Dbl.fdiv, Dbl.fin_div_one, Dbl.toFloat_fin]

@[simp] theorem Dbl.nan_fadd (x : Dbl) : Dbl.nan.fadd x = Dbl.nan := by
  cases x <;> rfl

@[simp] theorem Dbl.fadd_nan (x : Dbl) : x.fadd Dbl.nan = Dbl.nan := by
  cases x <;> rfl

@[simp] theorem Dbl.nan_fsub (x : Dbl) : Dbl.nan.fsub x = Dbl.nan := by
  cases x <;> rfl

@[simp] theorem Dbl.fsub_nan (x : Dbl) : x.fsub Dbl.nan = Dbl.nan := by
  cases x <;> rfl

@[simp] theorem Dbl.nan_fmul (x : Dbl) : Dbl.nan.fmul x = Dbl.nan := by
  cases x <;> rfl

@[simp] theorem Dbl.fmul_nan (x : Dbl) : x.fmul Dbl.nan = Dbl.nan := by
  cases x <;> rfl

@[simp] theorem Dbl.nan_fdiv (x : Dbl) : Dbl.nan.fdiv x = Dbl.nan := by
  cases x <;> rfl

@[simp] theorem Dbl.fdiv_nan (x : Dbl) : x.fdiv Dbl.nan = Dbl.nan := by
  cases x <;> rfl

@[simp] theorem Dbl.dadd_fin (a b : ℚ) : (Dbl.fin a).dadd (Dbl.fin b) = roundDouble (a + b) :=
  rfl

@[simp] theorem Dbl.dmul_fin (a b : ℚ) : (Dbl.fin a).dmul (Dbl.fin b) = roundDouble (a * b) :=
  rfl

theorem roundHalfEven_intCast (z : ℤ) : roundHalfEven (z : ℚ) = z := by
  simp [roundHalfEven]

/-- A value `m * 2 ^ e` whose significand `m` fits in `p` bits, with `e` in the range of the
format, is representable: rounding leaves it as it is. -/
theorem roundBinary_exact (p : ℕ) (emin emax m e : ℤ) (hm : |m| < 2 ^ p)
    (he : emin - ((p : ℤ) - 1) ≤ e) (hmax : (p : ℤ) + e ≤ emax + 1) :
    roundBinary p emin emax ((m : ℚ) * 2 ^ e) = Dbl.fin ((m : ℚ) * 2 ^ e) := by
  by_cases hm0 : m = 0
  · subst hm0
    simp [roundBinary]
  have h2 : (0 : ℚ) < 2 := by norm_num
  have hq0 : (m : ℚ) * 2 ^ e ≠ 0 := by
    have : (2 : ℚ) ^ e ≠ 0 := (zpow_pos h2 e).ne'
    exact mul_ne_zero (by exact_mod_cast hm0) this
  have habs : |(m : ℚ) * 2 ^ e| = (|m| : ℤ) * (2 : ℚ) ^ e := by
    rw [abs_mul, abs_of_pos (zpow_pos h2 e)]
    push_cast
    rfl
  have hlt : |(m : ℚ) * 2 ^ e| < (2 : ℚ) ^ ((p : ℤ) + e) := by
    rw [habs, zpow_add₀ (by norm_num : (2 : ℚ) ≠ 0)]
    apply mul_lt_mul_of_pos_right _ (zpow_pos h2 e)
    have : ((|m| : ℤ) : ℚ) < ((2 ^ p : ℤ) : ℚ) := by exact_mod_cast hm
    simpa using this
  have hpos : 0 < |(m : ℚ) * 2 ^ e| := abs_pos.mpr hq0
  have hL : Int.log 2 |(m : ℚ) * 2 ^ e| < (p : ℤ) + e :=
    (Int.lt_zpow_iff_log_lt (by norm_num) hpos).mp hlt
  obtain ⟨k, hk⟩ : ∃ k : ℕ, (k : ℤ) =
      e - (max (Int.log 2 |(m : ℚ) * 2 ^ e|) emin - ((p : ℤ) - 1)) := by
    refine ⟨(e - (max (Int.log 2 |(m : ℚ) * 2 ^ e|) emin - ((p : ℤ) - 1))).toNat, ?_⟩
    rw [Int.toNat_of_nonneg]
    rcases max_cases (Int.log 2 |(m : ℚ) * 2 ^ e|) emin with ⟨h, _⟩ | ⟨h, _⟩ <;> rw [h] <;> omega
  have hdiv : (m : ℚ) * 2 ^ e /
      2 ^ (max (Int.log 2 |(m : ℚ) * 2 ^ e|) emin - ((p : ℤ) - 1)) =
      ((m * 2 ^ k : ℤ) : ℚ) := by
    rw [mul_div_assoc, ← zpow_sub₀ (by norm_num : (2 : ℚ) ≠ 0), ← hk]
    push_cast
    rw [zpow_natCast]
  have hback : ((m * 2 ^ k : ℤ) : ℚ) *
      2 ^ (max (Int.log 2 |(m : ℚ) * 2 ^ e|) emin - ((p : ℤ) - 1)) = (m : ℚ) * 2 ^ e := by
    rw [← hdiv]
    exact div_mul_cancel₀ _ (zpow_pos h2 _).ne'
  have hno : ¬ (2 : ℚ) ^ (emax + 1) ≤ |(m : ℚ) * 2 ^ e| := by
    rw [not_le]
    exact lt_of_lt_of_le hlt (zpow_le_zpow_right₀ (by norm_num) hmax)
  simp only [roundBinary, hq0, if_false, hdiv, roundHalfEven_intCast, hback, hno]

theorem roundFloat_intCast (z : ℤ) (h : |z| < 16777216) : roundFloat (z : ℚ) = Dbl.fin z := by
  have := roundBinary_exact 24 (-126) 127 z 0 (by simpa using h) (by norm_num) (by norm_num)
  simpa [roundFloat] using this

theorem roundFloat_natCast (n : ℕ) (h : n < 16777216) : roundFloat (n : ℚ) = Dbl.fin n := by
  have := roundFloat_intCast (n : ℤ) (by simpa using (by exact_mod_cast h : (n : ℤ) < 16777216))
  simpa using this

theorem roundDouble_intCast (z : ℤ) (h : |z| < 9007199254740992) :
    roundDouble (z : ℚ) = Dbl.fin z := by
  have := roundBinary_exact 53 (-1022) 1023 z 0 (by simpa using h) (by norm_num) (by norm_num)
  simpa [roundDouble] using this

theorem roundDouble_natCast (n : ℕ) (h : n < 9007199254740992) :
    roundDouble (n : ℚ) = Dbl.fin n := by
  have := roundDouble_intCast (n : ℤ)
    (by simpa using (by exact_mod_cast h : (n : ℤ) < 9007199254740992))
  simpa using this

@[simp] theorem roundFloat_zero : roundFloat 0 = Dbl.fin 0 := by
  simpa using roundFloat_natCast 0 (by norm_num)

@[simp] theorem roundFloat_one : roundFloat 1 = Dbl.fin 1 := by
  simpa using roundFloat_natCast 1 (by norm_num)

theorem Dbl.toFloat_zero : (0 : Dbl).toFloat = 0 := by
  simp

theorem Dbl.toFloat_natCast (n : ℕ) (h : n < 16777216) :
    (Dbl.fin (n : ℚ)).toFloat = Dbl.fin n := by
  rw [Dbl.toFloat_fin, roundFloat_natCast n h]

@[simp] theorem roundFloat_ofNat (n : ℕ) [n.AtLeastTwo] (h : n < 16777216) :
    roundFloat (no_index (OfNat.ofNat n)) = Dbl.fin (OfNat.ofNat n) := by
  simpa using roundFloat_natCast n h

@[simp] theorem roundFloat_neg_one : roundFloat (-1) = Dbl.fin (-1) := by
  simpa using roundFloat_intCast (-1) (by norm_num)

@[simp] theorem roundFloat_neg_ofNat (n : ℕ) [n.AtLeastTwo] (h : n < 16777216) :
    roundFloat (-(no_index (OfNat.ofNat n))) = Dbl.fin (-(OfNat.ofNat n)) := by
  have := roundFloat_intCast (-(n : ℤ)) (by simpa using (by exact_mod_cast h : (n : ℤ) < 16777216))
  simpa using this

@[simp] theorem roundDouble_zero : roundDouble 0 = Dbl.fin 0 := by
  simpa using roundDouble_natCast 0 (by norm_num)

@[simp] theorem roundDouble_one : roundDouble 1 = Dbl.fin 1 := by
  simpa using roundDouble_natCast 1 (by norm_num)

@[simp] theorem roundDouble_ofNat (n : ℕ) [n.AtLeastTwo] (h : n < 9007199254740992) :
    roundDouble (no_index (OfNat.ofNat n)) = Dbl.fin (OfNat.ofNat n) := by
  simpa using roundDouble_natCast n h

/-- The `double` nearest to 0.0032. -/
theorem gateFactor_eq : gateFactor = Dbl.fin (7378697629483821 / 2305843009213693952) := by
  have hlog : Int.log 2 |(32 / 10000 : ℚ)| = -9 := by
    have hpos : (0 : ℚ) < |(32 / 10000 : ℚ)| := by norm_num
    have h1 : (-9 : ℤ) ≤ Int.log 2 |(32 / 10000 : ℚ)| :=
      (Int.zpow_le_iff_le_log (by norm_num) hpos).mp (by norm_num [abs_of_pos])
    have h2 : Int.log 2 |(32 / 10000 : ℚ)| < -8 :=
      (Int.lt_zpow_iff_log_lt (by norm_num) hpos).mp (by norm_num [abs_of_pos])
    omega
  have hround : roundHalfEven (4611686018427387904 / 625) = 7378697629483821 := by
    have hfloor : ⌊(4611686018427387904 / 625 : ℚ)⌋ = 7378697629483820 := by
      rw [Int.floor_eq_iff]
      norm_num
    simp only [roundHalfEven, hfloor]
    norm_num
  simp only [gateFactor, Dbl.toDouble_fin, roundDouble, roundBinary, hlog]
  norm_num [zpow_neg, Dbl.inf]
  rw [hround]
  norm_num
  intro h
  rw [abs_of_pos (by norm_num)] at h
  norm_num at h

/-- The value of the literal is itself a `double`: multiplying it by 1 leaves it. -/
theorem roundDouble_gateFactor :
    roundDouble (7378697629483821 / 2305843009213693952) =
      Dbl.fin (7378697629483821 / 2305843009213693952) := by
  have := roundBinary_exact 53 (-1022) 1023 7378697629483821 (-61) (by norm_num)
    (by norm_num) (by norm_num)
  have hval : ((7378697629483821 : ℤ) : ℚ) * 2 ^ (-61 : ℤ) =
      7378697629483821 / 2305843009213693952 := by
    norm_num [zpow_neg]
  rw [hval] at this
  exact this

theorem roundFloat_dyadic (z : ℤ) (j : ℕ) (q : ℚ) (hq : q = (z : ℚ) / 2 ^ j)
    (hz : |z| < 16777216) (hj : j ≤ 149) : roundFloat q = Dbl.fin q := by
  have h := roundBinary_exact 24 (-126) 127 z (-(j : ℤ)) (by simpa using hz) (by omega)
    (by omega)
  have hval : (z : ℚ) * 2 ^ (-(j : ℤ)) = q := by
    rw [hq, zpow_neg, zpow_natCast, div_eq_mul_inv]
  rw [hval] at h
  exact h

theorem roundHalfEven_of_near (x : ℚ) (n : ℤ) (h : |x - n| < 1 / 2) : roundHalfEven x = n := by
  rw [abs_lt] at h
  have hf := Int.floor_le x
  have hf2 := Int.lt_floor_add_one x
  have h1 : ⌊x⌋ < n + 1 := by
    have : (⌊x⌋ : ℚ) < ((n + 1 : ℤ) : ℚ) := by push_cast; linarith
    exact_mod_cast this
  have h2 : n - 1 < ⌊x⌋ + 1 := by
    have : ((n - 1 : ℤ) : ℚ) < ((⌊x⌋ + 1 : ℤ) : ℚ) := by push_cast; linarith
    exact_mod_cast this
  have hcase : ⌊x⌋ = n ∨ ⌊x⌋ = n - 1 := by omega
  rcases hcase with hc | hc
  · have : x - ⌊x⌋ < 1 / 2 := by rw [hc]; linarith
    unfold roundHalfEven
    rw [if_pos this]
    exact hc
  · have hlt : ¬ x - ⌊x⌋ < 1 / 2 := by rw [hc]; push_cast; linarith
    have hgt : 1 / 2 < x - ⌊x⌋ := by rw [hc]; push_cast; linarith
    unfold roundHalfEven
    rw [if_neg hlt, if_pos hgt, hc]
    omega

/-- Evaluation of a rounding: `e` is the binary exponent of `q` and `n` the integer nearest
to `q` in units of the spacing at that exponent. -/
theorem roundBinary_eval (p : ℕ) (emin emax : ℤ) (q : ℚ) (e n : ℤ)
    (hlo : (2 : ℚ) ^ e ≤ |q|) (hhi : |q| < (2 : ℚ) ^ (e + 1)) (hemin : emin ≤ e)
    (hn : |q / 2 ^ (e - ((p : ℤ) - 1)) - n| < 1 / 2)
    (hmax : |(n : ℚ) * 2 ^ (e - ((p : ℤ) - 1))| < (2 : ℚ) ^ (emax + 1)) :
    roundBinary p emin emax q = Dbl.fin ((n : ℚ) * 2 ^ (e - ((p : ℤ) - 1))) := by
  have hpos : 0 < |q| := lt_of_lt_of_le (zpow_pos (by norm_num) e) hlo
  have hq0 : q ≠ 0 := abs_pos.mp hpos
  have hlog : Int.log 2 |q| = e := by
    have h1 : e ≤ Int.log 2 |q| := (Int.zpow_le_iff_le_log (by norm_num) hpos).mp hlo
    have h2 : Int.log 2 |q| < e + 1 := (Int.lt_zpow_iff_log_lt (by norm_num) hpos).mp hhi
    omega
  simp only [roundBinary, hq0, if_false, hlog, max_eq_left hemin,
    roundHalfEven_of_near _ n hn, not_le.mpr hmax]

/-- Overflow of a rounding: the nearest value at the exponent of `q` lies beyond the largest
finite value of the format. -/
theorem roundBinary_overflow (p : ℕ) (emin emax : ℤ) (q : ℚ) (e n : ℤ)
    (hlo : (2 : ℚ) ^ e ≤ |q|) (hhi : |q| < (2 : ℚ) ^ (e + 1)) (hemin : emin ≤ e)
    (hn : |q / 2 ^ (e - ((p : ℤ) - 1)) - n| < 1 / 2)
    (hover : (2 : ℚ) ^ (emax + 1) ≤ |(n : ℚ) * 2 ^ (e - ((p : ℤ) - 1))|) :
    roundBinary p emin emax q = Dbl.inf (decide (0 < q)) := by
  have hpos : 0 < |q| := lt_of_lt_of_le (zpow_pos (by norm_num) e) hlo
  have hq0 : q ≠ 0 := abs_pos.mp hpos
  have hlog : Int.log 2 |q| = e := by
    have h1 : e ≤ Int.log 2 |q| := (Int.zpow_le_iff_le_log (by norm_num) hpos).mp hlo
    have h2 : Int.log 2 |q| < e + 1 := (Int.lt_zpow_iff_log_lt (by norm_num) hpos).mp hhi
    omega
  simp only [roundBinary, hq0, if_false, hlog, max_eq_left hemin,
    roundHalfEven_of_near _ n hn, hover, if_true]

@[simp] theorem Dbl.ge_fin (a b : ℚ) : (Dbl.fin a).ge (Dbl.fin b) = decide (b ≤ a) := rfl

@[simp] theorem Vector3.add_def (a b : Vector3) :
    a + b = ⟨a.x.dadd b.x, a.y.dadd b.y, a.z.dadd b.z⟩ := rfl

/-! ## Properties of DisplayInterface -/

/-- C1, as stated, fails: `drawLine` with finite end points and width but a NaN red colour
component has a non-finite field in its request, and the request is stored all the same. -/
theorem C1_nonfinite_color_is_stored :
    (DrawCall.line Vector3.ZERO Vector3.ZERO 1 nanRed "world").allFinite unitDcm default
        = false ∧
      ((DrawCall.line Vector3.ZERO Vector3.ZERO 1 nanRed "world").run unitDcm
          ⟨[], []⟩ default).display_stack_.length = 1 := by
  constructor <;> rfl

/-- C1, amended: a draw call (drawLine, drawSphere, drawArrow, drawCone, drawText) whose
request has a non-finite number in its scale or in an end point/position that the call
assigns leaves `display_stack_` unchanged; the colour is not inspected. -/
theorem C1_nonfinite_geometry_dropped (dcm : Quaternion → Matrix3) (self : DisplayInterface)
    (data0 : DisplayData) (c : DrawCall) (h : c.geometryFinite dcm data0 = false) :
    (c.run dcm self data0).display_stack_ = self.display_stack_ := by
  cases c <;>
    simp only [DrawCall.geometryFinite, DrawCall.request, DrawCall.setsP2, Bool.not_true,
      Bool.not_false, Bool.false_or, Bool.true_or, Bool.and_true] at h <;>
    simp [DrawCall.run, DisplayInterface.drawLine, DisplayInterface.drawSphere,
      DisplayInterface.drawArrow, DisplayInterface.drawCone, DisplayInterface.drawText,
      DisplayInterface.finite3, DisplayInterface.finite2, h]

/-- Witness for C1: `drawSphere` with an infinite radius on a stack of one request. -/
theorem C1_nonfinite_geometry_dropped_witness :
    (DrawCall.sphere Vector3.ZERO Dbl.pinf ⟨0, 0, 0, 1⟩ "world").geometryFinite unitDcm default
        = false ∧
      ((DrawCall.sphere Vector3.ZERO Dbl.pinf ⟨0, 0, 0, 1⟩ "world").run unitDcm
          ⟨[default], []⟩ default).display_stack_ = [default] :=
  ⟨rfl, C1_nonfinite_geometry_dropped unitDcm ⟨[default], []⟩ default
    (DrawCall.sphere Vector3.ZERO Dbl.pinf ⟨0, 0, 0, 1⟩ "world") rfl⟩

/-- C2: whatever the stack holds, whatever the time stamp and whether or not the publisher's
lock is obtained, `publishMarkerArray` leaves `display_stack_` empty; a second call right after
builds an empty batch, which is also what it hands to the publisher when it gets the lock. -/
theorem C2_publish_clears_stack (self : DisplayInterface) (time time2 : Time)
    (trylock : Bool) :
    (self.publishMarkerArray time trylock).display_stack_ = [] ∧
      DisplayInterface.buildMarkers time2
          (self.publishMarkerArray time trylock).display_stack_ = [] ∧
      ((self.publishMarkerArray time trylock).publishMarkerArray time2 true).markers_pub_msg_
          = [] ∧
      ∀ trylock2 : Bool,
        ((self.publishMarkerArray time trylock).publishMarkerArray time2
            trylock2).display_stack_ = [] := by
  cases trylock <;>
    simp [DisplayInterface.publishMarkerArray, DisplayInterface.buildMarkers,
      DisplayInterface.publishLoop]

theorem StdMap.find_assign {κ ν : Type} [DecidableEq κ] (less : κ → κ → Bool)
    (m : List (κ × ν)) (k : κ) (v : ν) (k2 : κ) :
    StdMap.find (StdMap.assign less m k v) k2 =
      if k2 = k then some v else StdMap.find m k2 := by
  induction m with
  | nil => simp [StdMap.assign, StdMap.find]
  | cons e rest ih =>
    obtain ⟨k', v'⟩ := e
    by_cases h1 : k = k'
    · subst h1
      by_cases h3 : k2 = k <;> simp [StdMap.assign, StdMap.find, h3]
    · by_cases h2 : less k k' = true
      · simp [StdMap.assign, StdMap.find, h1, h2]
      · by_cases h3 : k2 = k
        · subst h3
          simp [StdMap.assign, StdMap.find, h1, h2, ih]
        · simp [StdMap.assign, StdMap.find, h1, h2, ih, h3]

theorem StdMap.mem_assign {κ ν : Type} [DecidableEq κ] (less : κ → κ → Bool)
    (m : List (κ × ν)) (k : κ) (v : ν) (e : κ × ν)
    (h : e ∈ StdMap.assign less m k v) : e = (k, v) ∨ e ∈ m := by
  induction m with
  | nil => simpa [StdMap.assign] using h
  | cons e' rest ih =>
    obtain ⟨k', v'⟩ := e'
    by_cases h1 : k = k'
    · simp only [StdMap.assign, h1, if_true, List.mem_cons] at h
      rcases h with h | h
      · exact Or.inl (by rw [h, h1])
      · exact Or.inr (List.mem_cons_of_mem _ h)
    · by_cases h2 : less k k' = true
      · simp only [StdMap.assign, h1, h2, if_true, if_false, List.mem_cons] at h
        rcases h with h | h | h
        · exact Or.inl h
        · exact Or.inr (List.mem_cons.mpr (Or.inl h))
        · exact Or.inr (List.mem_cons_of_mem _ h)
      · simp only [StdMap.assign, h1, if_false] at h
        rw [if_neg (by simpa using h2), List.mem_cons] at h
        rcases h with h3 | h3
        · exact Or.inr (List.mem_cons.mpr (Or.inl h3))
        · rcases ih h3 with h4 | h4
          · exact Or.inl h4
          · exact Or.inr (List.mem_cons_of_mem _ h4)

theorem StdMap.mem_of_find {κ ν : Type} [DecidableEq κ] (m : List (κ × ν)) (k : κ) (v : ν)
    (h : StdMap.find m k = some v) : (k, v) ∈ m := by
  induction m with
  | nil => simp [StdMap.find] at h
  | cons e rest ih =>
    obtain ⟨k', v'⟩ := e
    by_cases h1 : k = k'
    · subst h1
      simp only [StdMap.find, if_true, Option.some.injEq] at h
      rw [h]; exact List.mem_cons_self _ _
    · simp only [StdMap.find, h1, if_false] at h
      exact List.mem_cons_of_mem _ (ih h)

theorem first_occurrence (l : List String) (n : String) (h : n ∈ l) :
    ∃ pre post, l = pre ++ n :: post ∧ n ∉ pre := by
  induction l with
  | nil => simp at h
  | cons x rest ih =>
    by_cases hx : n = x
    · exact ⟨[], rest, by simp [hx], by simp⟩
    · have hr : n ∈ rest := by
        rcases List.mem_cons.mp h with h | h
        · exact absurd h hx
        · exact h
      obtain ⟨pre, post, hl, hn⟩ := ih hr
      refine ⟨x :: pre, post, by simp [hl], ?_⟩
      simp only [List.mem_cons, not_or]
      exact ⟨hx, hn⟩

theorem prescanStep_counter_le (acc : List (String × Nat) × Nat) (c : ContactState) :
    acc.2 ≤ (prescanStep acc c).2 := by
  unfold prescanStep
  cases StdMap.find acc.1 c.name <;> simp

theorem foldl_prescanStep_counter_le (cs : List ContactState)
    (acc : List (String × Nat) × Nat) : acc.2 ≤ (cs.foldl prescanStep acc).2 := by
  induction cs generalizing acc with
  | nil => simp
  | cons c rest ih =>
    exact Nat.le_trans (prescanStep_counter_le acc c) (ih (prescanStep acc c))

theorem prescan_foldl (trajectory : List WholeBodyState) (acc : List (String × Nat) × Nat) :
    trajectory.foldl (fun acc state => state.contacts.foldl prescanStep acc) acc =
      (allContacts trajectory).foldl prescanStep acc := by
  induction trajectory generalizing acc with
  | nil => rfl
  | cons s rest ih => simp [allContacts, List.foldl_append, ih]

theorem prescan_eq (trajectory : List WholeBodyState) :
    prescan trajectory = (allContacts trajectory).foldl prescanStep ([], 0) :=
  prescan_foldl trajectory ([], 0)

theorem scanInv_step (seen : List String) (acc : List (String × Nat) × Nat)
    (c : ContactState) (h : ScanInv seen acc) :
    ScanInv (seen ++ [c.name]) (prescanStep acc c) := by
  obtain ⟨hc, hnone, hsome⟩ := h
  have split : ∀ pre n post, seen ++ [c.name] = pre ++ n :: post →
      (post = [] ∧ seen = pre ∧ c.name = n) ∨
        ∃ post', post = post' ++ [c.name] ∧ seen = pre ++ n :: post' := by
    intro pre n post heq
    rcases List.eq_nil_or_concat post with hp | ⟨post', y, hp⟩
    · subst hp
      have := List.append_inj' heq rfl
      simp only [List.cons.injEq, and_true] at this
      exact Or.inl ⟨rfl, this.1, this.2⟩
    · subst hp
      rw [List.concat_eq_append] at heq ⊢
      have heq' : seen ++ [c.name] = (pre ++ n :: post') ++ [y] := by simpa using heq
      have := List.append_inj' heq' rfl
      simp only [List.cons.injEq, and_true] at this
      exact Or.inr ⟨post', by rw [this.2], this.1⟩
  unfold prescanStep
  cases hf : StdMap.find acc.1 c.name with
  | none =>
    have hnot : c.name ∉ seen := by
      intro hin
      obtain ⟨pre, post, hl, hn⟩ := first_occurrence seen c.name hin
      rw [hsome pre c.name post hl hn] at hf
      exact Option.noConfusion hf
    refine ⟨?_, ?_, ?_⟩
    · have : (seen ++ [c.name]).toFinset = insert c.name seen.toFinset := by
        ext x; simp [or_comm]
      simp only
      rw [this, Finset.card_insert_of_not_mem (by simpa using hnot), hc]
    · intro n hn
      simp only [List.mem_append, List.mem_singleton, not_or] at hn
      simp only [StdMap.find_assign, hn.2, if_false]
      exact hnone n hn.1
    · intro pre n post heq hpre
      rcases split pre n post heq with ⟨_, h2, h3⟩ | ⟨post', _, h2⟩
      · subst h2; subst h3
        simp [StdMap.find_assign, hc]
      · have hne : n ≠ c.name := by
          intro h; apply hnot; rw [h2, ← h]; simp
        simp only [StdMap.find_assign, hne, if_false]
        exact hsome pre n post' h2 hpre
  | some i =>
    have hin : c.name ∈ seen := by
      by_contra hnot
      rw [hnone c.name hnot] at hf
      exact Option.noConfusion hf
    refine ⟨?_, ?_, ?_⟩
    · have : (seen ++ [c.name]).toFinset = seen.toFinset := by
        ext x; simp only [List.mem_toFinset, List.mem_append, List.mem_singleton]
        constructor
        · rintro (h | h)
          · exact h
          · rw [h]; exact hin
        · intro h; exact Or.inl h
      simp only
      rw [this, hc]
    · intro n hn
      simp only [List.mem_append, List.mem_singleton, not_or] at hn
      exact hnone n hn.1
    · intro pre n post heq hpre
      rcases split pre n post heq with ⟨_, h2, h3⟩ | ⟨post', _, h2⟩
      · subst h2; subst h3
        exact absurd hin hpre
      · exact hsome pre n post' h2 hpre

theorem scanInv_foldl (cs : List ContactState) (seen : List String)
    (acc : List (String × Nat) × Nat) (h : ScanInv seen acc) :
    ScanInv (seen ++ cs.map (fun c => c.name)) (cs.foldl prescanStep acc) := by
  induction cs generalizing seen acc with
  | nil => simpa using h
  | cons c rest ih =>
    have := ih (seen ++ [c.name]) (prescanStep acc c) (scanInv_step seen acc c h)
    simpa [List.append_assoc] using this

theorem prescan_scanInv (trajectory : List WholeBodyState) :
    ScanInv (contactNames trajectory) (prescan trajectory) := by
  have h0 : ScanInv [] (([], 0) : List (String × Nat) × Nat) := by
    refine ⟨by simp, fun n _ => by simp [StdMap.find], ?_⟩
    intro pre n post h
    simp at h
  have := scanInv_foldl (allContacts trajectory) [] ([], 0) h0
  rw [prescan_eq]
  simpa [contactNames] using this

/-! ## The LINES and BILLBOARDS contact pass runs to completion -/

theorem created_set {α : Type} (objs : List (Option α)) (t i : Nat) (a : α)
    (h : ∀ j, j < t → ∃ o, objs[j]? = some (some o)) :
    ∀ j, j < t → ∃ o, (objs.set i (some a))[j]? = some (some o) := by
  intro j hj
  obtain ⟨o, ho⟩ := h j hj
  by_cases hij : i = j
  · subst hij
    have hlt : i < objs.length := (List.getElem?_eq_some.mp ho).1
    exact ⟨a, List.getElem?_set_self hlt⟩
  · exact ⟨o, by rw [List.getElem?_set_ne hij]; exact ho⟩

theorem slotInv_start {α : Type} (trajectory : List WholeBodyState) :
    SlotInv SlotIds.start (List.replicate (prescan trajectory).2 (none : Option α))
      (allContacts trajectory) := by
  refine ⟨?_, ?_, ?_, ?_⟩
  · intro e he
    simp [SlotIds.start] at he
  · intro j hj
    simp [SlotIds.start] at hj
  · intro j hj
    simp [SlotIds.start] at hj
  · simp [SlotIds.start, prescan_eq]

theorem update_prescanStep (ids ids' : SlotIds) (k : Nat) (c : ContactState)
    (created : Option Nat) (h : ids.update k c.name = some (ids', created)) :
    (ids'.contact_traj_id, ids'.traj_id) =
      prescanStep (ids.contact_traj_id, ids.traj_id) c := by
  unfold SlotIds.update at h
  unfold prescanStep
  cases hf : StdMap.find ids.contact_traj_id c.name with
  | none =>
    simp only [hf, Option.some.injEq, Prod.mk.injEq] at h
    rw [← h.1]
  | some i =>
    simp only [hf] at h
    cases hv : StdMap.find ids.contact_vec_id i with
    | none => simp [hv] at h
    | some current =>
      simp only [hv] at h
      by_cases hk : k = current
      · simp only [hk, ne_eq, not_true_eq_false, if_false, Option.some.injEq,
          Prod.mk.injEq] at h
        rw [← h.1]
      · simp only [ne_eq, hk, not_false_eq_true, if_true, Option.some.injEq,
          Prod.mk.injEq] at h
        rw [← h.1]

theorem slotInner_spec {α : Type} (create : α) (cs future : List ContactState) :
    ∀ (k : Nat) (ids : SlotIds) (objs : List (Option α)), SlotInv ids objs (cs ++ future) →
      ∃ ids' objs', slotInner create k cs ids objs = some (ids', objs') ∧
        SlotInv ids' objs' future ∧
        (ids'.contact_traj_id, ids'.traj_id) =
          cs.foldl prescanStep (ids.contact_traj_id, ids.traj_id) := by
  induction cs with
  | nil =>
    intro k ids objs h
    exact ⟨ids, objs, rfl, by simpa using h, rfl⟩
  | cons c rest ih =>
    intro k ids objs h
    obtain ⟨h1, h2, h3, h4⟩ := h
    cases hf : StdMap.find ids.contact_traj_id c.name with
    | none =>
      have hstep : prescanStep (ids.contact_traj_id, ids.traj_id) c =
          (StdMap.assign strLess ids.contact_traj_id c.name ids.traj_id, ids.traj_id + 1) := by
        simp [prescanStep, hf]
      have hlt : ids.traj_id < objs.length := by
        rw [h4, List.cons_append, List.foldl_cons, hstep]
        exact Nat.lt_of_lt_of_le (Nat.lt_succ_self _)
          (foldl_prescanStep_counter_le (rest ++ future)
            (StdMap.assign strLess ids.contact_traj_id c.name ids.traj_id, ids.traj_id + 1))
      have hinv : SlotInv
          { contact_traj_id := StdMap.assign strLess ids.contact_traj_id c.name ids.traj_id
            contact_vec_id := StdMap.assign Nat.blt ids.contact_vec_id ids.traj_id k
            traj_id := ids.traj_id + 1 }
          (objs.set ids.traj_id (some create)) (rest ++ future) := by
        refine ⟨?_, ?_, ?_, ?_⟩
        · intro e he
          rcases StdMap.mem_assign _ _ _ _ _ he with he | he
          · rw [he]; exact Nat.lt_succ_self _
          · exact Nat.lt_succ_of_lt (h1 e he)
        · intro j hj
          have hj : j < ids.traj_id + 1 := hj
          simp only [StdMap.find_assign]
          by_cases hjt : j = ids.traj_id
          · exact ⟨k, by simp [hjt]⟩
          · simp only [hjt, if_false]
            exact h2 j (by omega)
        · intro j hj
          have hj : j < ids.traj_id + 1 := hj
          by_cases hjt : j = ids.traj_id
          · subst hjt
            exact ⟨create, List.getElem?_set_self hlt⟩
          · obtain ⟨o, ho⟩ := h3 j (by omega)
            exact ⟨o, by rw [List.getElem?_set_ne (Ne.symm hjt)]; exact ho⟩
        · simp only [List.length_set]
          rw [h4, List.cons_append, List.foldl_cons, hstep]
      obtain ⟨ids', objs', hrun, hinv', heq⟩ := ih (k + 1) _ _ hinv
      refine ⟨ids', objs', ?_, hinv', ?_⟩
      · simp only [slotInner, SlotIds.update, hf, hlt, if_true]
        exact hrun
      · rw [List.foldl_cons, hstep]
        exact heq
    | some i =>
      have hstep : prescanStep (ids.contact_traj_id, ids.traj_id) c =
          (ids.contact_traj_id, ids.traj_id) := by
        simp [prescanStep, hf]
      have hi : i < ids.traj_id := h1 (c.name, i) (StdMap.mem_of_find _ _ _ hf)
      obtain ⟨current, hcur⟩ := h2 i hi
      by_cases hk : k = current
      · have hinv : SlotInv ids objs (rest ++ future) := by
          refine ⟨h1, h2, h3, ?_⟩
          rw [h4, List.cons_append, List.foldl_cons, hstep]
        obtain ⟨ids', objs', hrun, hinv', heq⟩ := ih (k + 1) _ _ hinv
        refine ⟨ids', objs', ?_, hinv', ?_⟩
        · simp only [slotInner, SlotIds.update, hf, hcur, hk, ne_eq, not_true_eq_false,
            if_false]
          rw [← hk]; exact hrun
        · rw [List.foldl_cons, hstep]
          exact heq
      · have hinv : SlotInv
            { ids with contact_vec_id := StdMap.assign Nat.blt ids.contact_vec_id i k }
            objs (rest ++ future) := by
          refine ⟨h1, ?_, h3, ?_⟩
          · intro j hj
            simp only [StdMap.find_assign]
            by_cases hji : j = i
            · exact ⟨k, by simp [hji]⟩
            · simp only [hji, if_false]
              exact h2 j hj
          · rw [h4, List.cons_append, List.foldl_cons, hstep]
        obtain ⟨ids', objs', hrun, hinv', heq⟩ := ih (k + 1) _ _ hinv
        refine ⟨ids', objs', ?_, hinv', ?_⟩
        · simp only [slotInner, SlotIds.update, hf, hcur, ne_eq, hk, not_false_eq_true,
            if_true]
          exact hrun
        · rw [List.foldl_cons, hstep]
          exact heq

theorem slotEmit_spec {α : Type} (emit : α → Vector3 → α) (contacts : List ContactState)
    (base_pos : Vector3) (tf : Matrix4) (vec_id : List (Nat × Nat)) (t : Nat)
    (hvec : ∀ j, j < t → ∃ k, StdMap.find vec_id j = some k) :
    ∀ (es : List (String × Nat)) (objs : List (Option α)),
      (∀ e ∈ es, e.2 < t) → (∀ j, j < t → ∃ o, objs[j]? = some (some o)) →
      ∃ objs', slotEmit emit contacts base_pos tf vec_id es objs = some objs' ∧
        objs'.length = objs.length ∧ (∀ j, j < t → ∃ o, objs'[j]? = some (some o)) := by
  intro es
  induction es with
  | nil =>
    intro objs _ hobjs
    exact ⟨objs, rfl, rfl, hobjs⟩
  | cons e rest ih =>
    intro objs hes hobjs
    obtain ⟨name, slot⟩ := e
    have hslot : slot < t := hes (name, slot) (List.mem_cons_self _ _)
    have hrest : ∀ e ∈ rest, e.2 < t := fun e he => hes e (List.mem_cons_of_mem _ he)
    obtain ⟨id, hid⟩ := hvec slot hslot
    obtain ⟨o, ho⟩ := hobjs slot hslot
    by_cases hlt : id < contacts.length
    · obtain ⟨objs', hrun, hlen, hcr⟩ := ih
        (objs.set slot (some (emit o (contactPoint base_pos tf contacts[id])))) hrest
        (created_set objs t slot _ hobjs)
      refine ⟨objs', ?_, ?_, hcr⟩
      · simp only [slotEmit, hid, hlt, dite_true, ho]
        exact hrun
      · rw [hlen, List.length_set]
    · obtain ⟨objs', hrun, hlen, hcr⟩ := ih objs hrest hobjs
      refine ⟨objs', ?_, hlen, hcr⟩
      simp only [slotEmit, hid, hlt, dite_false]
      exact hrun

theorem assembleBase_ok (num_base : Nat) (base : List BaseState) (pos rpy : Vector3)
    (h : num_base ≤ base.length) :
    assembleBase num_base base pos rpy =
      some ((base.take num_base).foldl assignBase (pos, rpy)) := by
  simp [assembleBase, h]

theorem slotLoop_spec {α : Type} (create : α) (emit : α → Vector3 → α) (env : Env)
    (num_base : Nat) (steps : List WholeBodyState) :
    ∀ (i : Nat) (ids : SlotIds) (objs : List (Option α)),
      (∀ state ∈ steps, num_base ≤ state.base.length) →
      SlotInv ids objs (allContacts steps) →
      ∃ ids' objs', slotLoop create emit env num_base i steps ids objs = some (ids', objs') ∧
        SlotInv ids' objs' [] ∧
        (ids'.contact_traj_id, ids'.traj_id) =
          (allContacts steps).foldl prescanStep (ids.contact_traj_id, ids.traj_id) := by
  induction steps with
  | nil =>
    intro i ids objs _ h
    exact ⟨ids, objs, rfl, h, rfl⟩
  | cons state rest ih =>
    intro i ids objs hbase h
    obtain ⟨ids1, objs1, hinner, hinv1, heq1⟩ :=
      slotInner_spec create state.contacts (allContacts rest) 0 ids objs h
    obtain ⟨g1, g2, g3, g4⟩ := hinv1
    obtain ⟨objs2, hemit, hlen2, hcr2⟩ :=
      slotEmit_spec emit state.contacts
        ((state.base.take num_base).foldl assignBase (⟨0, 0, 0⟩, env.base_rpy_init i)).1
        (Matrix4.ofQuaternion
          (env.getQuaternion ((state.base.take num_base).foldl assignBase
              (⟨0, 0, 0⟩, env.base_rpy_init i)).2).toFloat)
        ids1.contact_vec_id ids1.traj_id g2 ids1.contact_traj_id objs1 g1 g3
    have hinv2 : SlotInv ids1 objs2 (allContacts rest) := ⟨g1, g2, hcr2, by rw [hlen2, g4]⟩
    obtain ⟨ids', objs', hrun, hinv', heq'⟩ :=
      ih (i + 1) ids1 objs2 (fun s hs => hbase s (List.mem_cons_of_mem _ hs)) hinv2
    refine ⟨ids', objs', ?_, hinv', ?_⟩
    · have hb := assembleBase_ok num_base state.base ⟨0, 0, 0⟩ (env.base_rpy_init i)
        (hbase state (List.mem_cons_self _ _))
      simp only [slotLoop, slotStep, hinner, contactBase, hb, hemit]
      exact hrun
    · rw [heq', heq1]
      simp [allContacts, List.foldl_append]

theorem finishSlots_spec (n : Nat) (objs : List (Option ManualObject)) (t : Nat)
    (hn : n ≤ t) (h : ∀ j, j < t → ∃ o, objs[j]? = some (some o)) :
    ∃ objs', finishSlots n objs = some objs' ∧ objs'.length = objs.length ∧
      (∀ j, j < t → ∃ o, objs'[j]? = some (some o)) := by
  induction n with
  | zero => exact ⟨objs, rfl, rfl, h⟩
  | succ m ih =>
    obtain ⟨objs1, hrun, hlen, hcr⟩ := ih (by omega)
    obtain ⟨o, ho⟩ := hcr m (by omega)
    refine ⟨objs1.set m (some o.finish), ?_, ?_, created_set objs1 t m _ hcr⟩
    · simp only [finishSlots, hrun, ho]
    · rw [List.length_set, hlen]

theorem wellFormed_cons (trajectory : List WholeBodyState)
    (h : wellFormed trajectory = true) :
    ∃ first rest, trajectory = first :: rest ∧
      ∀ state ∈ trajectory, first.base.length ≤ state.base.length := by
  cases trajectory with
  | nil => simp [wellFormed] at h
  | cons first rest =>
    refine ⟨first, rest, rfl, ?_⟩
    intro state hs
    simp only [wellFormed, List.all_eq_true, decide_eq_true_eq] at h
    exact h state hs

theorem slotInv_final_length {α : Type} (ids : SlotIds) (objs : List (Option α))
    (h : SlotInv ids objs []) : objs.length = ids.traj_id := h.2.2.2

theorem contact_lines_total (env : Env) (self : WholeBodyTrajectoryDisplay)
    (msg : WholeBodyTrajectory) (hmsg : self.msg_ = some msg)
    (hstyle : self.contact_style_property_ = LineStyle.LINES)
    (hwf : wellFormed msg.trajectory = true) :
    ∃ objs, self.processContactTrajectory env = some { self with contact_manual_object_ := objs }
      ∧ objs.length = (prescan msg.trajectory).2 := by
  obtain ⟨first, rest, htraj, hbase⟩ := wellFormed_cons msg.trajectory hwf
  obtain ⟨ids, objs, hrun, hinv, heq⟩ :=
    slotLoop_spec (ManualObject.create.start msg.trajectory.length)
      (fun (o : ManualObject) xpos =>
        o.addVertex xpos { self.contact_color_property_ with a := self.contact_alpha_property_ })
      env first.base.length msg.trajectory 0 SlotIds.start
      (List.replicate (prescan msg.trajectory).2 none) hbase (slotInv_start msg.trajectory)
  have hlen := slotInv_final_length ids objs hinv
  obtain ⟨objs', hfin, hlen', _⟩ := finishSlots_spec ids.traj_id objs ids.traj_id
    (Nat.le_refl _) hinv.2.2.1
  have hcount : ids.traj_id = (prescan msg.trajectory).2 := by
    have := congrArg Prod.snd heq
    simpa [SlotIds.start, prescan_eq] using this
  refine ⟨objs', ?_, by rw [hlen', hlen, hcount]⟩
  unfold WholeBodyTrajectoryDisplay.processContactTrajectory
  simp only [hmsg, hstyle]
  rw [htraj] at hrun ⊢
  simp only [hrun, hfin]

theorem contact_billboards_total (env : Env) (self : WholeBodyTrajectoryDisplay)
    (msg : WholeBodyTrajectory) (hmsg : self.msg_ = some msg)
    (hstyle : self.contact_style_property_ = LineStyle.BILLBOARDS)
    (hwf : wellFormed msg.trajectory = true) :
    ∃ objs, self.processContactTrajectory env = some { self with contact_billboard_line_ := objs }
      ∧ objs.length = (prescan msg.trajectory).2 := by
  obtain ⟨first, rest, htraj, hbase⟩ := wellFormed_cons msg.trajectory hwf
  obtain ⟨ids, objs, hrun, hinv, heq⟩ :=
    slotLoop_spec
      (BillboardLine.create msg.trajectory.length self.contact_line_width_property_)
      (fun (o : BillboardLine) xpos =>
        o.addPoint xpos { self.contact_color_property_ with a := self.contact_alpha_property_ })
      env first.base.length msg.trajectory 0 SlotIds.start
      (List.replicate (prescan msg.trajectory).2 none) hbase (slotInv_start msg.trajectory)
  have hlen := slotInv_final_length ids objs hinv
  have hcount : ids.traj_id = (prescan msg.trajectory).2 := by
    have := congrArg Prod.snd heq
    simpa [SlotIds.start, prescan_eq] using this
  refine ⟨objs, ?_, by rw [hlen, hcount]⟩
  unfold WholeBodyTrajectoryDisplay.processContactTrajectory
  simp only [hmsg, hstyle]
  rw [htraj] at hrun ⊢
  simp only [hrun]

theorem pointsInner_prescan (cs : List ContactState) :
    ∀ (k : Nat) (ids ids' : SlotIds), pointsInner k cs ids = some ids' →
      (ids'.contact_traj_id, ids'.traj_id) =
        cs.foldl prescanStep (ids.contact_traj_id, ids.traj_id) := by
  induction cs with
  | nil =>
    intro k ids ids' h
    simp only [pointsInner, Option.some.injEq] at h
    rw [← h]; rfl
  | cons c rest ih =>
    intro k ids ids' h
    simp only [pointsInner] at h
    cases hu : ids.update k c.name with
    | none => simp [hu] at h
    | some r =>
      obtain ⟨ids1, created⟩ := r
      simp only [hu] at h
      rw [ih (k + 1) ids1 ids' h, update_prescanStep ids ids1 k c created hu]
      rfl

theorem pointsLoop_prescan (visual : Vector3 → PointVisual) (env : Env) (num_base : Nat)
    (steps : List WholeBodyState) :
    ∀ (i : Nat) (ids ids' : SlotIds) (rows rows' : List (List (Option PointVisual))),
      pointsLoop visual env num_base i steps ids rows = some (ids', rows') →
      (ids'.contact_traj_id, ids'.traj_id) =
        (allContacts steps).foldl prescanStep (ids.contact_traj_id, ids.traj_id) := by
  induction steps with
  | nil =>
    intro i ids ids' rows rows' h
    simp only [pointsLoop, Option.some.injEq, Prod.mk.injEq] at h
    rw [← h.1]; rfl
  | cons state rest ih =>
    intro i ids ids' rows rows' h
    simp only [pointsLoop] at h
    cases hin : pointsInner 0 state.contacts ids with
    | none => simp [hin] at h
    | some ids1 =>
      simp only [hin] at h
      by_cases hi : i < rows.length
      · simp only [hi, if_true] at h
        cases hb : contactBase env num_base i state with
        | none => simp [hb] at h
        | some b =>
          obtain ⟨base_pos, tf⟩ := b
          simp only [hb] at h
          cases he : pointsEmit visual state.contacts base_pos tf ids1.contact_vec_id
              ids1.contact_traj_id 0 (List.replicate state.contacts.length none) with
          | none => simp [he] at h
          | some row =>
            simp only [he] at h
            rw [ih (i + 1) ids1 ids' _ rows' h, pointsInner_prescan state.contacts 0 ids ids1 hin]
            simp [allContacts, List.foldl_append]
      · simp [hi] at h

/-! ## Properties of the contact pass -/

/-- C4, the failing input: "lf_foot" gets slot 0 and occurs in step 0 only, yet its manual
object ends with two vertices; the second is the point computed at step 1 from the entry of
"rf_foot", because the list index recorded for slot 0 is still 0 and step 1 has one contact. -/
theorem C4_absent_name_receives_point (env : Env) :
    (prescan liftOffTrajectory.trajectory).1 = [("lf_foot", 0), ("rf_foot", 1)] ∧
      contactNames (liftOffTrajectory.trajectory.drop 1) = ["rf_foot"] ∧
      ((displayOf liftOffTrajectory LineStyle.LINES
          LineStyle.LINES).processContactTrajectory env).map
          (fun s => s.contact_manual_object_.map
            (Option.map (fun o => o.vertices.map (fun v => v.position)))) =
        some [
          some [contactPoint ⟨0, 0, 0⟩
                  (Matrix4.ofQuaternion (env.getQuaternion ⟨0, 0, 0⟩).toFloat)
                  ⟨"lf_foot", ⟨1, 0, 0⟩⟩,
                contactPoint ⟨0, 0, 0⟩
                  (Matrix4.ofQuaternion (env.getQuaternion ⟨0, 0, 0⟩).toFloat)
                  ⟨"rf_foot", ⟨3, 0, 0⟩⟩],
          some [contactPoint ⟨0, 0, 0⟩
                  (Matrix4.ofQuaternion (env.getQuaternion ⟨0, 0, 0⟩).toFloat)
                  ⟨"rf_foot", ⟨2, 0, 0⟩⟩,
                contactPoint ⟨0, 0, 0⟩
                  (Matrix4.ofQuaternion (env.getQuaternion ⟨0, 0, 0⟩).toFloat)
                  ⟨"rf_foot", ⟨3, 0, 0⟩⟩]] := by
  have h : ((displayOf liftOffTrajectory LineStyle.LINES
      LineStyle.LINES).processContactTrajectory env).map
      (fun s => s.contact_manual_object_.map
        (Option.map (fun o => o.vertices.map (fun v => v.position)))) =
    some [
      some [contactPoint ⟨(0 : Dbl).toFloat, (0 : Dbl).toFloat, (0 : Dbl).toFloat⟩
              (Matrix4.ofQuaternion (env.getQuaternion ⟨0, 0, 0⟩).toFloat)
              ⟨"lf_foot", ⟨1, 0, 0⟩⟩,
            contactPoint ⟨(0 : Dbl).toFloat, (0 : Dbl).toFloat, (0 : Dbl).toFloat⟩
              (Matrix4.ofQuaternion (env.getQuaternion ⟨0, 0, 0⟩).toFloat)
              ⟨"rf_foot", ⟨3, 0, 0⟩⟩],
      some [contactPoint ⟨(0 : Dbl).toFloat, (0 : Dbl).toFloat, (0 : Dbl).toFloat⟩
              (Matrix4.ofQuaternion (env.getQuaternion ⟨0, 0, 0⟩).toFloat)
              ⟨"rf_foot", ⟨2, 0, 0⟩⟩,
            contactPoint ⟨(0 : Dbl).toFloat, (0 : Dbl).toFloat, (0 : Dbl).toFloat⟩
              (Matrix4.ofQuaternion (env.getQuaternion ⟨0, 0, 0⟩).toFloat)
              ⟨"rf_foot", ⟨3, 0, 0⟩⟩]] := rfl
  rw [Dbl.toFloat_zero] at h
  exact ⟨rfl, rfl, h⟩

/-- C5: after `processContactTrajectory` in Lines style the size of `contact_manual_object_`,
and in Billboards style the size of `contact_billboard_line_`, is the number of distinct
contact names of the trajectory, whatever the steps in which each name is present. -/
theorem C5_slot_count_is_distinct_names (env : Env) (self : WholeBodyTrajectoryDisplay)
    (msg : WholeBodyTrajectory) (hmsg : self.msg_ = some msg)
    (hwf : wellFormed msg.trajectory = true) :
    (∃ s, ({ self with contact_style_property_ := LineStyle.LINES }).processContactTrajectory env
          = some s ∧
        s.contact_manual_object_.length = (contactNames msg.trajectory).toFinset.card) ∧
      (∃ s, ({ self with contact_style_property_ :=
            LineStyle.BILLBOARDS }).processContactTrajectory env = some s ∧
        s.contact_billboard_line_.length = (contactNames msg.trajectory).toFinset.card) := by
  have hcard : (prescan msg.trajectory).2 = (contactNames msg.trajectory).toFinset.card :=
    (prescan_scanInv msg.trajectory).1
  constructor
  · obtain ⟨objs, hrun, hlen⟩ := contact_lines_total env
      { self with contact_style_property_ := LineStyle.LINES } msg hmsg rfl hwf
    exact ⟨_, hrun, by rw [← hcard, ← hlen]⟩
  · obtain ⟨objs, hrun, hlen⟩ := contact_billboards_total env
      { self with contact_style_property_ := LineStyle.BILLBOARDS } msg hmsg rfl hwf
    exact ⟨_, hrun, by rw [← hcard, ← hlen]⟩

/-- Witness for C5: the trajectory with "front-left" in steps 0-2 and 5-7 and "front-right"
in steps 0-7 has two distinct names, hence two objects. -/
theorem C5_slot_count_is_distinct_names_witness :
    (gaitDisplay).msg_ = some gaitTrajectory ∧
      wellFormed gaitTrajectory.trajectory = true ∧
      (contactNames gaitTrajectory.trajectory).toFinset.card = 2 ∧
      ((∃ s, ({ gaitDisplay with contact_style_property_ :=
            LineStyle.LINES }).processContactTrajectory exampleEnv = some s ∧
          s.contact_manual_object_.length
            = (contactNames gaitTrajectory.trajectory).toFinset.card) ∧
        (∃ s, ({ gaitDisplay with contact_style_property_ :=
            LineStyle.BILLBOARDS }).processContactTrajectory exampleEnv = some s ∧
          s.contact_billboard_line_.length
            = (contactNames gaitTrajectory.trajectory).toFinset.card)) :=
  ⟨rfl, rfl, by decide,
    C5_slot_count_is_distinct_names exampleEnv (gaitDisplay) gaitTrajectory rfl rfl⟩

/-- C6: a contact name whose first occurrence in scan order (step by step, in list order
within a step) comes after the names `pre` is given, by the pre-scan, the index "number of
distinct names in `pre`"; the LINES/BILLBOARDS assembly pass runs to completion and ends with
the same name-to-index map as the pre-scan, and so does the POINTS pass whenever it
completes. -/
theorem C6_slot_index_first_seen_order {α : Type} (create : α) (emit : α → Vector3 → α)
    (visual : Vector3 → PointVisual) (env : Env) (num_base : Nat)
    (trajectory : List WholeBodyState)
    (hbase : ∀ state ∈ trajectory, num_base ≤ state.base.length)
    (pre : List String) (n : String) (post : List String)
    (hnames : contactNames trajectory = pre ++ n :: post) (hfirst : n ∉ pre) :
    StdMap.find (prescan trajectory).1 n = some pre.toFinset.card ∧
      (∃ ids objs,
        slotLoop create emit env num_base 0 trajectory SlotIds.start
            (List.replicate (prescan trajectory).2 none) = some (ids, objs) ∧
          ids.contact_traj_id = (prescan trajectory).1 ∧
          StdMap.find ids.contact_traj_id n = some pre.toFinset.card) ∧
      (∀ ids rows,
        pointsLoop visual env num_base 0 trajectory SlotIds.start
            (List.replicate trajectory.length []) = some (ids, rows) →
          ids.contact_traj_id = (prescan trajectory).1 ∧
          StdMap.find ids.contact_traj_id n = some pre.toFinset.card) := by
  have hpre : StdMap.find (prescan trajectory).1 n = some pre.toFinset.card :=
    (prescan_scanInv trajectory).2.2 pre n post hnames hfirst
  refine ⟨hpre, ?_, ?_⟩
  · obtain ⟨ids, objs, hrun, _, heq⟩ :=
      slotLoop_spec create emit env num_base trajectory 0 SlotIds.start
        (List.replicate (prescan trajectory).2 none) hbase (slotInv_start trajectory)
    have hmap : ids.contact_traj_id = (prescan trajectory).1 := by
      have := congrArg Prod.fst heq
      simpa [SlotIds.start, prescan_eq] using this
    exact ⟨ids, objs, hrun, hmap, by rw [hmap]; exact hpre⟩
  · intro ids rows hrun
    have heq := pointsLoop_prescan visual env num_base trajectory 0 SlotIds.start ids _ rows hrun
    have hmap : ids.contact_traj_id = (prescan trajectory).1 := by
      have := congrArg Prod.fst heq
      simpa [SlotIds.start, prescan_eq] using this
    exact ⟨hmap, by rw [hmap]; exact hpre⟩

/-- Witness for C6: in the two-step trajectory "rf_foot" is first seen after "lf_foot" and
gets index 1. -/
theorem C6_slot_index_first_seen_order_witness :
    (∀ state ∈ liftOffTrajectory.trajectory, 6 ≤ state.base.length) ∧
      contactNames liftOffTrajectory.trajectory = ["lf_foot"] ++ "rf_foot" :: ["rf_foot"] ∧
      "rf_foot" ∉ ["lf_foot"] ∧
      StdMap.find (prescan liftOffTrajectory.trajectory).1 "rf_foot" = some 1 :=
  ⟨by decide, rfl, by decide,
    (C6_slot_index_first_seen_order (ManualObject.create.start 2)
      (fun (o : ManualObject) xpos => o.addVertex xpos default)
      (fun xpos => { (default : PointVisual) with point := xpos }) exampleEnv 6
      liftOffTrajectory.trajectory (by decide) ["lf_foot"] "rf_foot" ["rf_foot"] rfl
      (by decide)).1⟩

/-- C7, the failing input: with the world transform a translation by (1, 0, 0), zero base
pose and one contact at (2, 0, 0), the Lines vertex is (2, 0, 0), the composed point itself,
whereas the world transform applied to the composed point is (3, 0, 0); the same holds for
the Billboards point. -/
theorem C7_contact_vertex_not_world_transformed :
    ((displayOf singleContactTrajectory LineStyle.LINES
        LineStyle.LINES).processContactTrajectory exampleEnv).map
        (fun s => s.contact_manual_object_.map
          (Option.map (fun o => o.vertices.map (fun v => v.position)))) =
      some [some [⟨2, 0, 0⟩]] ∧
    ((displayOf singleContactTrajectory LineStyle.LINES
        LineStyle.BILLBOARDS).processContactTrajectory exampleEnv).map
        (fun s => s.contact_billboard_line_.map
          (Option.map (fun o => o.points.map (fun v => v.position)))) =
      some [some [⟨2, 0, 0⟩]] ∧
    ((Matrix4.ofQuaternion (exampleEnv.getTransform singleContactTrajectory.header).2).setTrans
        (exampleEnv.getTransform singleContactTrajectory.header).1).mulVec
      ((⟨0, 0, 0⟩ : Vector3) + (Matrix4.ofQuaternion Quaternion.IDENTITY).mulVec ⟨2, 0, 0⟩) =
      ⟨3, 0, 0⟩ := by
  have hpoint : contactPoint ⟨(0 : Dbl).toFloat, (0 : Dbl).toFloat, (0 : Dbl).toFloat⟩
      (Matrix4.ofQuaternion Quaternion.IDENTITY.toFloat) ⟨"lf_foot", ⟨2, 0, 0⟩⟩ = ⟨2, 0, 0⟩ := by
    simp [contactPoint, sanitize, Vector3.fadd, Quaternion.toFloat, Matrix4.ofQuaternion,
      Matrix4.mulVec, Quaternion.IDENTITY, Quaternion.ToRotationMatrix, Vector3.ZERO]
  have hlines : ((displayOf singleContactTrajectory LineStyle.LINES
        LineStyle.LINES).processContactTrajectory exampleEnv).map
        (fun s => s.contact_manual_object_.map
          (Option.map (fun o => o.vertices.map (fun v => v.position)))) =
      some [some [contactPoint ⟨(0 : Dbl).toFloat, (0 : Dbl).toFloat, (0 : Dbl).toFloat⟩
        (Matrix4.ofQuaternion Quaternion.IDENTITY.toFloat) ⟨"lf_foot", ⟨2, 0, 0⟩⟩]] := rfl
  have hbill : ((displayOf singleContactTrajectory LineStyle.LINES
        LineStyle.BILLBOARDS).processContactTrajectory exampleEnv).map
        (fun s => s.contact_billboard_line_.map
          (Option.map (fun o => o.points.map (fun v => v.position)))) =
      some [some [contactPoint ⟨(0 : Dbl).toFloat, (0 : Dbl).toFloat, (0 : Dbl).toFloat⟩
        (Matrix4.ofQuaternion Quaternion.IDENTITY.toFloat) ⟨"lf_foot", ⟨2, 0, 0⟩⟩]] := rfl
  refine ⟨by rw [hlines, hpoint], by rw [hbill, hpoint], ?_⟩
  simp [exampleEnv, Matrix4.ofQuaternion, Matrix4.setTrans, Matrix4.mulVec,
    Quaternion.IDENTITY, Quaternion.ToRotationMatrix, Vector3.ZERO]
  norm_num

/-! ## The base pass in closed form -/

theorem baseLines_loop (env : Env) (transform : Matrix4) (orientation : Quaternion)
    (base_color : Color) (num_points num_base : Nat) (steps : List WholeBodyState) :
    ∀ (i : Nat) (self : WholeBodyTrajectoryDisplay) (mo : ManualObject),
      (∀ state ∈ steps, num_base ≤ state.base.length) →
      self.base_manual_object_ = some mo →
      WholeBodyTrajectoryDisplay.stepLoop
          (WholeBodyTrajectoryDisplay.baseLinesStep env transform orientation base_color
            num_points num_base) i steps self =
        some { self with
          base_manual_object_ := some { mo with
            vertices := mo.vertices ++
              steps.map (fun state => ⟨stepXpos transform num_base state, base_color⟩) }
          base_axes_ := (cursorRun env orientation self.base_scale_property_
            self.base_alpha_property_ num_points transform num_base i steps
            ⟨self.base_axes_, self.last_point_position_⟩).base_axes_
          last_point_position_ := (cursorRun env orientation self.base_scale_property_
            self.base_alpha_property_ num_points transform num_base i steps
            ⟨self.base_axes_, self.last_point_position_⟩).last_point_position_ } := by
  induction steps with
  | nil =>
    intro i self mo _ hmo
    simp [WholeBodyTrajectoryDisplay.stepLoop, cursorRun, ← hmo]
  | cons state rest ih =>
    intro i self mo hbase hmo
    have hb := assembleBase_ok num_base state.base ⟨0, 0, 0⟩ ⟨0, 0, 0⟩
      (hbase state (List.mem_cons_self _ _))
    simp only [WholeBodyTrajectoryDisplay.stepLoop, WholeBodyTrajectoryDisplay.baseLinesStep,
      hb, hmo]
    rw [ih (i + 1) _ (mo.addVertex (transform.mulVec (sanitize ((state.base.take
      num_base).foldl assignBase (⟨0, 0, 0⟩, ⟨0, 0, 0⟩)).1)) base_color)
      (fun s hs => hbase s (List.mem_cons_of_mem _ hs)) rfl]
    simp [WholeBodyTrajectoryDisplay.annotateStep, cursorRun, ManualObject.addVertex, stepXpos,
      assembledPos, assembledRpy]

theorem baseBillboards_loop (env : Env) (transform : Matrix4) (orientation : Quaternion)
    (base_color : Color) (num_points num_base : Nat) (steps : List WholeBodyState) :
    ∀ (i : Nat) (self : WholeBodyTrajectoryDisplay) (bl : BillboardLine),
      (∀ state ∈ steps, num_base ≤ state.base.length) →
      self.base_billboard_line_ = some bl →
      WholeBodyTrajectoryDisplay.stepLoop
          (WholeBodyTrajectoryDisplay.baseBillboardsStep env transform orientation base_color
            num_points num_base) i steps self =
        some { self with
          base_billboard_line_ := some { bl with
            points := bl.points ++
              steps.map (fun state => ⟨stepXpos transform num_base state, base_color⟩) }
          base_axes_ := (cursorRun env orientation self.base_scale_property_
            self.base_alpha_property_ num_points transform num_base i steps
            ⟨self.base_axes_, self.last_point_position_⟩).base_axes_
          last_point_position_ := (cursorRun env orientation self.base_scale_property_
            self.base_alpha_property_ num_points transform num_base i steps
            ⟨self.base_axes_, self.last_point_position_⟩).last_point_position_ } := by
  induction steps with
  | nil =>
    intro i self bl _ hbl
    simp [WholeBodyTrajectoryDisplay.stepLoop, cursorRun, ← hbl]
  | cons state rest ih =>
    intro i self bl hbase hbl
    have hb := assembleBase_ok num_base state.base ⟨0, 0, 0⟩ ⟨0, 0, 0⟩
      (hbase state (List.mem_cons_self _ _))
    simp only [WholeBodyTrajectoryDisplay.stepLoop,
      WholeBodyTrajectoryDisplay.baseBillboardsStep, hb, hbl]
    rw [ih (i + 1) _ (bl.addPoint (transform.mulVec (sanitize ((state.base.take
      num_base).foldl assignBase (⟨0, 0, 0⟩, ⟨0, 0, 0⟩)).1)) base_color)
      (fun s hs => hbase s (List.mem_cons_of_mem _ hs)) rfl]
    simp [WholeBodyTrajectoryDisplay.annotateStep, cursorRun, BillboardLine.addPoint, stepXpos,
      assembledPos, assembledRpy]

theorem basePoints_loop (env : Env) (transform : Matrix4) (position : Vector3)
    (orientation : Quaternion) (base_color : Color) (base_line_width : Dbl)
    (num_points num_base : Nat) (steps : List WholeBodyState) :
    ∀ (i : Nat) (self : WholeBodyTrajectoryDisplay),
      (∀ state ∈ steps, num_base ≤ state.base.length) →
      WholeBodyTrajectoryDisplay.stepLoop
          (WholeBodyTrajectoryDisplay.basePointsStep env transform position orientation
            base_color base_line_width num_points num_base) i steps self =
        some { self with
          base_points_ := self.base_points_ ++
            steps.map (fun state =>
              { color := base_color, radius := base_line_width
                point := sanitize (assembledPos num_base state)
                framePosition := position, frameOrientation := orientation })
          base_axes_ := (cursorRun env orientation self.base_scale_property_
            self.base_alpha_property_ num_points transform num_base i steps
            ⟨self.base_axes_, self.last_point_position_⟩).base_axes_
          last_point_position_ := (cursorRun env orientation self.base_scale_property_
            self.base_alpha_property_ num_points transform num_base i steps
            ⟨self.base_axes_, self.last_point_position_⟩).last_point_position_ } := by
  induction steps with
  | nil =>
    intro i self _
    simp [WholeBodyTrajectoryDisplay.stepLoop, cursorRun]
  | cons state rest ih =>
    intro i self hbase
    have hb := assembleBase_ok num_base state.base ⟨0, 0, 0⟩ ⟨0, 0, 0⟩
      (hbase state (List.mem_cons_self _ _))
    simp only [WholeBodyTrajectoryDisplay.stepLoop, WholeBodyTrajectoryDisplay.basePointsStep,
      hb]
    rw [ih (i + 1) _ (fun s hs => hbase s (List.mem_cons_of_mem _ hs))]
    simp [WholeBodyTrajectoryDisplay.annotateStep, cursorRun, stepXpos, assembledPos,
      assembledRpy]

theorem processBase_lines (env : Env) (self : WholeBodyTrajectoryDisplay)
    (msg : WholeBodyTrajectory) (hmsg : self.msg_ = some msg)
    (hstyle : self.base_style_property_ = LineStyle.LINES)
    (hwf : wellFormed msg.trajectory = true) :
    self.processBaseTrajectory env =
      some { self with
        base_manual_object_ := some
          { dynamic := true, vertexEstimate := msg.trajectory.length, begun := true
            vertices := msg.trajectory.map (fun state =>
              ⟨stepXpos (worldTransform env msg) (numBase msg.trajectory) state,
                baseColor self⟩)
            ended := true }
        base_axes_ := (baseCursor env self msg).base_axes_
        last_point_position_ := (baseCursor env self msg).last_point_position_ } := by
  obtain ⟨first, rest, htraj, hbase⟩ := wellFormed_cons msg.trajectory hwf
  obtain ⟨header, trajectory⟩ := msg
  simp only at htraj hbase
  subst htraj
  have hloop := baseLines_loop env (worldTransform env ⟨header, first :: rest⟩)
    (env.getTransform header).2 (baseColor self) (first :: rest).length first.base.length
    (first :: rest) 0
    { self with
      base_axes_ := []
      base_manual_object_ := some (ManualObject.create.start (first :: rest).length) }
    (ManualObject.create.start (first :: rest).length) hbase rfl
  unfold WholeBodyTrajectoryDisplay.processBaseTrajectory
  simp only [hmsg, hstyle, worldTransform, baseColor, baseCursor, numBase] at hloop ⊢
  rw [hloop]
  simp [ManualObject.create, ManualObject.start, ManualObject.finish]

theorem processBase_billboards (env : Env) (self : WholeBodyTrajectoryDisplay)
    (msg : WholeBodyTrajectory) (hmsg : self.msg_ = some msg)
    (hstyle : self.base_style_property_ = LineStyle.BILLBOARDS)
    (hwf : wellFormed msg.trajectory = true) :
    self.processBaseTrajectory env =
      some { self with
        base_billboard_line_ := some
          { numLines := 1, maxPointsPerLine := msg.trajectory.length
            lineWidth := self.base_line_width_property_
            points := msg.trajectory.map (fun state =>
              ⟨stepXpos (worldTransform env msg) (numBase msg.trajectory) state,
                baseColor self⟩) }
        base_axes_ := (baseCursor env self msg).base_axes_
        last_point_position_ := (baseCursor env self msg).last_point_position_ } := by
  obtain ⟨first, rest, htraj, hbase⟩ := wellFormed_cons msg.trajectory hwf
  obtain ⟨header, trajectory⟩ := msg
  simp only at htraj hbase
  subst htraj
  have hloop := baseBillboards_loop env (worldTransform env ⟨header, first :: rest⟩)
    (env.getTransform header).2 (baseColor self) (first :: rest).length first.base.length
    (first :: rest) 0
    { self with
      base_axes_ := []
      base_billboard_line_ := some
        (BillboardLine.create (first :: rest).length self.base_line_width_property_) }
    (BillboardLine.create (first :: rest).length self.base_line_width_property_) hbase rfl
  unfold WholeBodyTrajectoryDisplay.processBaseTrajectory
  simp only [hmsg, hstyle, worldTransform, baseColor, baseCursor, numBase] at hloop ⊢
  rw [hloop]
  simp [BillboardLine.create]

theorem processBase_points (env : Env) (self : WholeBodyTrajectoryDisplay)
    (msg : WholeBodyTrajectory) (hmsg : self.msg_ = some msg)
    (hstyle : self.base_style_property_ = LineStyle.POINTS)
    (hwf : wellFormed msg.trajectory = true) :
    self.processBaseTrajectory env =
      some { self with
        base_points_ := msg.trajectory.map (fun state =>
          { color := baseColor self, radius := self.base_line_width_property_
            point := sanitize (assembledPos (numBase msg.trajectory) state)
            framePosition := (env.getTransform msg.header).1
            frameOrientation := (env.getTransform msg.header).2 })
        base_axes_ := (baseCursor env self msg).base_axes_
        last_point_position_ := (baseCursor env self msg).last_point_position_ } := by
  obtain ⟨first, rest, htraj, hbase⟩ := wellFormed_cons msg.trajectory hwf
  obtain ⟨header, trajectory⟩ := msg
  simp only at htraj hbase
  subst htraj
  have hloop := basePoints_loop env (worldTransform env ⟨header, first :: rest⟩)
    (env.getTransform header).1 (env.getTransform header).2 (baseColor self)
    self.base_line_width_property_ (first :: rest).length first.base.length (first :: rest) 0
    { self with base_axes_ := [], base_points_ := [] } hbase
  unfold WholeBodyTrajectoryDisplay.processBaseTrajectory
  simp only [hmsg, hstyle, worldTransform, baseColor, baseCursor, numBase] at hloop ⊢
  rw [hloop]
  simp

/-! ## The annotation cursor -/

theorem annotatedFrom_bounds (thr : Dbl) (N : Nat) (xs : List Vector3) :
    ∀ (i : Nat) (last : Vector3) (j : Nat), j ∈ annotatedFrom thr N i xs last →
      i ≤ j ∧ j < i + xs.length := by
  induction xs with
  | nil =>
    intro i last j hj
    simp [annotatedFrom] at hj
  | cons x rest ih =>
    intro i last j hj
    unfold annotatedFrom at hj
    simp only [List.length_cons]
    split at hj
    · rcases List.mem_cons.mp hj with h | h
      · omega
      · have := ih (i + 1) x j h
        omega
    · have := ih (i + 1) last j hj
      omega

theorem annotatedFrom_sorted (thr : Dbl) (N : Nat) (xs : List Vector3) :
    ∀ (i : Nat) (last : Vector3), (annotatedFrom thr N i xs last).Pairwise (fun a b => a < b) := by
  induction xs with
  | nil =>
    intro i last
    simp [annotatedFrom]
  | cons x rest ih =>
    intro i last
    unfold annotatedFrom
    split
    · refine List.pairwise_cons.mpr ⟨?_, ih (i + 1) x⟩
      intro a ha
      have := annotatedFrom_bounds thr N rest (i + 1) x a ha
      omega
    · exact ih (i + 1) last

theorem annotatedFrom_filter_nil (thr : Dbl) (N : Nat) (xs : List Vector3) (i k : Nat)
    (last : Vector3) (hk : k ≤ i) :
    (annotatedFrom thr N i xs last).filter (fun m => decide (m < k)) = [] := by
  rw [List.filter_eq_nil_iff]
  intro m hm
  have := annotatedFrom_bounds thr N xs i last m hm
  simp only [decide_eq_true_eq]
  omega

theorem getD_append_length {α : Type} [Inhabited α] (pre : List α) (x : α) (rest : List α) :
    (pre ++ x :: rest).getD pre.length default = x := by
  induction pre with
  | nil => rfl
  | cons p pre ih => simpa using ih

theorem annotatedFrom_char (thr : Dbl) (N : Nat) (xs : List Vector3) :
    ∀ (pre : List Vector3) (last : Vector3) (j : Nat),
      pre.length ≤ j → j < pre.length + xs.length →
      (j ∈ annotatedFrom thr N pre.length xs last ↔
        (j = 0 ∨ j = N - 1 ∨
          (((pre ++ xs).getD j default).squaredDistance
            (prevPos (pre ++ xs) last
              ((annotatedFrom thr N pre.length xs last).filter
                (fun m => decide (m < j))))).ge thr = true)) := by
  induction xs with
  | nil =>
    intro pre last j h1 h2
    simp only [List.length_nil] at h2
    omega
  | cons x rest ih =>
    intro pre last j h1 h2
    simp only [List.length_cons] at h2
    have hall : pre ++ x :: rest = (pre ++ [x]) ++ rest := by simp
    by_cases hji : j = pre.length
    · subst hji
      unfold annotatedFrom
      by_cases hc : pre.length = 0 ∨ pre.length = N - 1 ∨
          (x.squaredDistance last).ge thr = true
      · rw [if_pos hc]
        simp only [List.mem_cons, true_or, true_iff]
        rw [List.filter_cons_of_neg (by simp),
          annotatedFrom_filter_nil thr N rest (pre.length + 1) pre.length x (by omega)]
        simp only [prevPos, List.foldl_nil, getD_append_length]
        exact hc
      · rw [if_neg hc]
        rw [annotatedFrom_filter_nil thr N rest (pre.length + 1) pre.length last (by omega)]
        constructor
        · intro hmem
          have := annotatedFrom_bounds thr N rest (pre.length + 1) last _ hmem
          omega
        · intro h
          simp only [prevPos, List.foldl_nil, getD_append_length] at h
          exact absurd h hc
    · have hj : pre.length + 1 ≤ j := by omega
      unfold annotatedFrom
      by_cases hc : pre.length = 0 ∨ pre.length = N - 1 ∨
          (x.squaredDistance last).ge thr = true
      · rw [if_pos hc]
        have IH := ih (pre ++ [x]) x j (by simp; omega) (by simp; omega)
        simp only [List.length_append, List.length_singleton] at IH
        rw [← hall] at IH
        rw [List.filter_cons_of_pos (by simp; omega)]
        have hprev : ∀ L : List Nat, prevPos (pre ++ x :: rest) last (pre.length :: L) =
            prevPos (pre ++ x :: rest) x L := by
          intro L
          simp only [prevPos, List.foldl_cons, getD_append_length]
        rw [hprev, ← IH]
        simp only [List.mem_cons]
        constructor
        · rintro (h | h)
          · exact absurd h hji
          · exact h
        · intro h; exact Or.inr h
      · rw [if_neg hc]
        have IH := ih (pre ++ [x]) last j (by simp; omega) (by simp; omega)
        simp only [List.length_append, List.length_singleton] at IH
        rw [← hall] at IH
        exact IH

theorem annotatedFrom_cons (thr : Dbl) (N i : Nat) (x : Vector3) (rest : List Vector3)
    (last : Vector3) :
    annotatedFrom thr N i (x :: rest) last =
      if i = 0 ∨ i = N - 1 ∨ (x.squaredDistance last).ge thr = true then
        i :: annotatedFrom thr N (i + 1) rest x
      else annotatedFrom thr N (i + 1) rest last := rfl

theorem cursorRun_axes (env : Env) (orientation : Quaternion) (scale alpha : Dbl) (N : Nat)
    (tf : Matrix4) (nb : Nat) (steps : List WholeBodyState) :
    ∀ (pre : List WholeBodyState) (c : AxisCursor),
      (cursorRun env orientation scale alpha N tf nb pre.length steps c).base_axes_ =
        c.base_axes_ ++
          (annotatedFrom ((scale.fmul scale).dmul gateFactor) N pre.length
              (steps.map (stepXpos tf nb)) c.last_point_position_).map
            (fun j => makeAxes env orientation scale alpha
              (stepXpos tf nb ((pre ++ steps).getD j default))
              (sanitize (assembledRpy nb ((pre ++ steps).getD j default)))) := by
  induction steps with
  | nil =>
    intro pre c
    simp [cursorRun, annotatedFrom]
  | cons state rest ih =>
    intro pre c
    have IH := ih (pre ++ [state])
    simp only [List.length_append, List.length_singleton, List.append_assoc,
      List.singleton_append] at IH
    simp only [cursorRun, List.map_cons]
    rw [IH, annotatedFrom_cons]
    unfold annotate
    by_cases h0 : pre.length = 0 ∨ pre.length = N - 1
    · have hc : pre.length = 0 ∨ pre.length = N - 1 ∨
          ((stepXpos tf nb state).squaredDistance c.last_point_position_).ge
            ((scale.fmul scale).dmul gateFactor) = true := by
        rcases h0 with h | h
        · exact Or.inl h
        · exact Or.inr (Or.inl h)
      rw [if_pos h0, if_pos hc]
      simp only [List.map_cons, getD_append_length, List.append_assoc, List.singleton_append]
    · by_cases hg : ((stepXpos tf nb state).squaredDistance c.last_point_position_).ge
          ((scale.fmul scale).dmul gateFactor) = true
      · have hc : pre.length = 0 ∨ pre.length = N - 1 ∨
            ((stepXpos tf nb state).squaredDistance c.last_point_position_).ge
              ((scale.fmul scale).dmul gateFactor) = true := Or.inr (Or.inr hg)
        rw [if_neg h0, if_pos hc]
        simp only [hg, if_true, List.map_cons, getD_append_length, List.append_assoc,
          List.singleton_append]
      · have hc : ¬(pre.length = 0 ∨ pre.length = N - 1 ∨
            ((stepXpos tf nb state).squaredDistance c.last_point_position_).ge
              ((scale.fmul scale).dmul gateFactor) = true) := by
          rintro (h | h | h)
          · exact h0 (Or.inl h)
          · exact h0 (Or.inr h)
          · exact hg h
        rw [if_neg h0, if_neg hc]
        simp only [hg]
        rfl

theorem prevPos_eq_getLast (all : List Vector3) (earlier : List Nat) :
    ∀ (last : Vector3), earlier ≠ [] →
      prevPos all last earlier = all.getD (earlier.getLast?.getD 0) default := by
  induction earlier with
  | nil => intro last h; exact absurd rfl h
  | cons a rest ih =>
    intro last _
    cases rest with
    | nil => simp [prevPos]
    | cons b rest' =>
      have := ih (all.getD a default) (by simp)
      simp only [prevPos, List.foldl_cons] at this ⊢
      rw [this, List.getLast?_cons_cons]

theorem getD_map_of_lt {α β : Type} [Inhabited α] [Inhabited β] (f : α → β) (l : List α)
    (j : Nat) (h : j < l.length) : (l.map f).getD j default = f (l.getD j default) := by
  simp [List.getD_eq_getElem?_getD, List.getElem?_eq_getElem h]

theorem baseCursor_axes (env : Env) (self : WholeBodyTrajectoryDisplay)
    (msg : WholeBodyTrajectory) :
    (baseCursor env self msg).base_axes_ =
      (annotatedFrom (gateThreshold self) msg.trajectory.length 0
        (msg.trajectory.map (stepXpos (worldTransform env msg) (numBase msg.trajectory)))
        self.last_point_position_).map (axesAt env self msg) := by
  have := cursorRun_axes env (env.getTransform msg.header).2 self.base_scale_property_
    self.base_alpha_property_ msg.trajectory.length (worldTransform env msg)
    (numBase msg.trajectory) msg.trajectory [] ⟨[], self.last_point_position_⟩
  simp only [List.length_nil, List.nil_append] at this
  unfold baseCursor
  rw [this]
  rfl

theorem processBase_axes (env : Env) (self : WholeBodyTrajectoryDisplay)
    (msg : WholeBodyTrajectory) (hmsg : self.msg_ = some msg)
    (hwf : wellFormed msg.trajectory = true) (style : LineStyle) :
    ∃ s, ({ self with base_style_property_ := style }).processBaseTrajectory env = some s ∧
      s.base_axes_ = (baseCursor env self msg).base_axes_ := by
  cases style with
  | LINES =>
    exact ⟨_, processBase_lines env { self with base_style_property_ := LineStyle.LINES }
      msg hmsg rfl hwf, rfl⟩
  | BILLBOARDS =>
    exact ⟨_, processBase_billboards env
      { self with base_style_property_ := LineStyle.BILLBOARDS } msg hmsg rfl hwf, rfl⟩
  | POINTS =>
    exact ⟨_, processBase_points env { self with base_style_property_ := LineStyle.POINTS }
      msg hmsg rfl hwf, rfl⟩

theorem annotated_steps_spec (env : Env) (self : WholeBodyTrajectoryDisplay)
    (msg : WholeBodyTrajectory) (hne : msg.trajectory ≠ []) :
    ∀ i, i < msg.trajectory.length →
      (i ∈ annotatedFrom (gateThreshold self) msg.trajectory.length 0
          (msg.trajectory.map (stepXpos (worldTransform env msg) (numBase msg.trajectory)))
          self.last_point_position_ ↔
        i = 0 ∨ i = msg.trajectory.length - 1 ∨
          ((xposAt env msg i).squaredDistance
            (xposAt env msg (lastBefore
              (annotatedFrom (gateThreshold self) msg.trajectory.length 0
                (msg.trajectory.map
                  (stepXpos (worldTransform env msg) (numBase msg.trajectory)))
                self.last_point_position_) i))).ge (gateThreshold self) = true) := by
  intro i hi
  have hlen : (msg.trajectory.map
      (stepXpos (worldTransform env msg) (numBase msg.trajectory))).length =
      msg.trajectory.length := List.length_map _ _
  have hchar : ∀ j, j < msg.trajectory.length → _ := fun j hj =>
    annotatedFrom_char (gateThreshold self) msg.trajectory.length
      (msg.trajectory.map (stepXpos (worldTransform env msg) (numBase msg.trajectory)))
      [] self.last_point_position_ j (Nat.zero_le _) (by simp; exact hj)
  simp only [List.length_nil, List.nil_append] at hchar
  have hpos : 0 < msg.trajectory.length := List.length_pos.mpr hne
  have h0 := (hchar 0 hpos).mpr (Or.inl rfl)
  rw [hchar i hi]
  by_cases hi0 : i = 0
  · simp [hi0]
  · have hfilter : (annotatedFrom (gateThreshold self) msg.trajectory.length 0
        (msg.trajectory.map (stepXpos (worldTransform env msg) (numBase msg.trajectory)))
        self.last_point_position_).filter (fun m => decide (m < i)) ≠ [] := by
      intro hnil
      have : 0 ∈ (annotatedFrom (gateThreshold self) msg.trajectory.length 0
          (msg.trajectory.map (stepXpos (worldTransform env msg) (numBase msg.trajectory)))
          self.last_point_position_).filter (fun m => decide (m < i)) :=
        List.mem_filter.mpr ⟨h0, by simp; omega⟩
      rw [hnil] at this
      simp at this
    rw [prevPos_eq_getLast _ _ _ hfilter]
    have hm : lastBefore (annotatedFrom (gateThreshold self) msg.trajectory.length 0
        (msg.trajectory.map (stepXpos (worldTransform env msg) (numBase msg.trajectory)))
        self.last_point_position_) i < msg.trajectory.length := by
      unfold lastBefore
      obtain ⟨m, hm⟩ := Option.isSome_iff_exists.mp (List.getLast?_isSome.mpr hfilter)
      rw [hm]
      have hmem := (List.mem_filter.mp (List.mem_of_getLast?_eq_some hm)).1
      have := annotatedFrom_bounds _ _ _ _ _ _ hmem
      simp only [List.length_map] at this
      simpa using this.2
    rw [getD_map_of_lt _ _ _ hi]
    have hm' := getD_map_of_lt (stepXpos (worldTransform env msg) (numBase msg.trajectory))
      msg.trajectory _ hm
    unfold lastBefore at hm'
    rw [hm']
    rfl

/-- C8: there is one increasing list `ann` of annotated steps, all below N, such that a step
i < N is in `ann` exactly when i = 0, or i = N - 1, or the squared distance between its
world-transformed position and that of the most recently annotated step is at least
`scale * scale * 0.0032`, positions, squared distance and gate being the values the code
computes (`float` positions and squared distance, the `float` product `scale * scale` times
the `double` 0.0032); and in each of the three styles `processBaseTrajectory` returns with
`base_axes_` holding the axes objects of exactly the steps of `ann`, in order. -/
theorem C8_axis_annotation_gate (env : Env) (self : WholeBodyTrajectoryDisplay)
    (msg : WholeBodyTrajectory) (hmsg : self.msg_ = some msg)
    (hwf : wellFormed msg.trajectory = true) :
    ∃ ann : List Nat,
      ann.Pairwise (fun a b => a < b) ∧
      (∀ j ∈ ann, j < msg.trajectory.length) ∧
      (∀ i, i < msg.trajectory.length →
        (i ∈ ann ↔ i = 0 ∨ i = msg.trajectory.length - 1 ∨
          ((xposAt env msg i).squaredDistance (xposAt env msg (lastBefore ann i))).ge
            ((self.base_scale_property_.fmul self.base_scale_property_).dmul gateFactor)
              = true)) ∧
      ∀ style : LineStyle,
        ∃ s, ({ self with base_style_property_ := style }).processBaseTrajectory env = some s ∧
          s.base_axes_ = ann.map (axesAt env self msg) := by
  obtain ⟨first, rest, htraj, _⟩ := wellFormed_cons msg.trajectory hwf
  have hne : msg.trajectory ≠ [] := by rw [htraj]; simp
  refine ⟨annotatedFrom (gateThreshold self) msg.trajectory.length 0
      (msg.trajectory.map (stepXpos (worldTransform env msg) (numBase msg.trajectory)))
      self.last_point_position_, annotatedFrom_sorted _ _ _ _ _, ?_,
    annotated_steps_spec env self msg hne, ?_⟩
  · intro j hj
    have := annotatedFrom_bounds _ _ _ _ _ _ hj
    simpa using this.2
  · intro style
    obtain ⟨s, hrun, haxes⟩ := processBase_axes env self msg hmsg hwf style
    exact ⟨s, hrun, by rw [haxes, baseCursor_axes]⟩

/-- Witness for C8: the five-step trajectory advancing by 1 along x. -/
theorem C8_axis_annotation_gate_witness :
    (displayOf nanStepTrajectory LineStyle.LINES LineStyle.LINES).msg_ = some nanStepTrajectory ∧
      wellFormed nanStepTrajectory.trajectory = true ∧
      ∃ ann : List Nat,
        ann.Pairwise (fun a b => a < b) ∧
        (∀ j ∈ ann, j < nanStepTrajectory.trajectory.length) ∧
        (∀ i, i < nanStepTrajectory.trajectory.length →
          (i ∈ ann ↔ i = 0 ∨ i = nanStepTrajectory.trajectory.length - 1 ∨
            ((xposAt exampleEnv nanStepTrajectory i).squaredDistance
              (xposAt exampleEnv nanStepTrajectory (lastBefore ann i))).ge
              (((displayOf nanStepTrajectory LineStyle.LINES
                  LineStyle.LINES).base_scale_property_.fmul
                (displayOf nanStepTrajectory LineStyle.LINES
                  LineStyle.LINES).base_scale_property_).dmul gateFactor)
                = true)) ∧
        ∀ style : LineStyle,
          ∃ s, ({ displayOf nanStepTrajectory LineStyle.LINES LineStyle.LINES with
              base_style_property_ := style }).processBaseTrajectory exampleEnv = some s ∧
            s.base_axes_ = ann.map (axesAt exampleEnv
              (displayOf nanStepTrajectory LineStyle.LINES LineStyle.LINES)
              nanStepTrajectory) :=
  ⟨rfl, rfl, C8_axis_annotation_gate exampleEnv
    (displayOf nanStepTrajectory LineStyle.LINES LineStyle.LINES) nanStepTrajectory rfl rfl⟩

theorem squaredDistance_linePoint (ax ay az : ℚ) (k : ℕ) (Vx Vy Vz : ℤ) (m since : Nat)
    (hk : k ≤ 74)
    (hb : ((since : ℤ) + 1) ^ 2 * (Vx ^ 2 + Vy ^ 2 + Vz ^ 2) < 16777216) :
    (linePoint ax ay az (Vx / 2 ^ k) (Vy / 2 ^ k) (Vz / 2 ^ k) (m + 1 + since)).squaredDistance
        (linePoint ax ay az (Vx / 2 ^ k) (Vy / 2 ^ k) (Vz / 2 ^ k) m) =
      Dbl.fin (((since : ℚ) + 1) ^ 2 *
        ((Vx / 2 ^ k) * (Vx / 2 ^ k) + (Vy / 2 ^ k) * (Vy / 2 ^ k) +
          (Vz / 2 ^ k) * (Vz / 2 ^ k))) := by
  have h2k : (2 : ℚ) ^ k ≠ 0 := pow_ne_zero _ (by norm_num)
  have hsq : ∀ z : ℤ, |z| ≤ z ^ 2 := fun z => by
    rw [← Int.natCast_natAbs]; exact Int.natAbs_le_self_sq z
  have hnn : ∀ z : ℤ, 0 ≤ z ^ 2 := fun z => sq_nonneg z
  have hsum : (((since : ℤ) + 1) * Vx) ^ 2 + (((since : ℤ) + 1) * Vy) ^ 2 +
      (((since : ℤ) + 1) * Vz) ^ 2 < 16777216 := by
    have : (((since : ℤ) + 1) * Vx) ^ 2 + (((since : ℤ) + 1) * Vy) ^ 2 +
        (((since : ℤ) + 1) * Vz) ^ 2 = ((since : ℤ) + 1) ^ 2 * (Vx ^ 2 + Vy ^ 2 + Vz ^ 2) := by
      ring
    rw [this]; exact hb
  have hx2 := hnn (((since : ℤ) + 1) * Vx)
  have hy2 := hnn (((since : ℤ) + 1) * Vy)
  have hz2 := hnn (((since : ℤ) + 1) * Vz)
  have hdiff : ∀ (a : ℚ) (V : ℤ), (((since : ℤ) + 1) * V) ^ 2 < 16777216 →
      (Dbl.fin (a + ((m + 1 + since : ℕ) : ℚ) * (V / 2 ^ k))).fsub
        (Dbl.fin (a + (m : ℚ) * (V / 2 ^ k))) =
      Dbl.fin (((((since : ℤ) + 1) * V : ℤ) : ℚ) / 2 ^ k) := by
    intro a V hV
    rw [Dbl.fsub_fin]
    have he : a + ((m + 1 + since : ℕ) : ℚ) * (V / 2 ^ k) - (a + (m : ℚ) * (V / 2 ^ k)) =
        ((((since : ℤ) + 1) * V : ℤ) : ℚ) / 2 ^ k := by
      push_cast
      field_simp
      ring
    rw [he]
    exact roundFloat_dyadic (((since : ℤ) + 1) * V) k _ rfl
      (lt_of_le_of_lt (hsq _) hV) (by omega)
  have hmul : ∀ z : ℤ, z ^ 2 < 16777216 →
      (Dbl.fin ((z : ℚ) / 2 ^ k)).fmul (Dbl.fin ((z : ℚ) / 2 ^ k)) =
      Dbl.fin (((z ^ 2 : ℤ) : ℚ) / 2 ^ (2 * k)) := by
    intro z hz
    rw [Dbl.fmul_fin]
    have he : (z : ℚ) / 2 ^ k * ((z : ℚ) / 2 ^ k) = ((z ^ 2 : ℤ) : ℚ) / 2 ^ (2 * k) := by
      push_cast
      rw [pow_mul']
      field_simp
      ring
    rw [he]
    exact roundFloat_dyadic (z ^ 2) (2 * k) _ rfl
      (by rw [abs_of_nonneg (hnn z)]; exact hz) (by omega)
  have hadd : ∀ a b : ℤ, 0 ≤ a → 0 ≤ b → a + b < 16777216 →
      (Dbl.fin ((a : ℚ) / 2 ^ (2 * k))).fadd (Dbl.fin ((b : ℚ) / 2 ^ (2 * k))) =
      Dbl.fin (((a + b : ℤ) : ℚ) / 2 ^ (2 * k)) := by
    intro a b ha hb' hab
    rw [Dbl.fadd_fin]
    have he : (a : ℚ) / 2 ^ (2 * k) + (b : ℚ) / 2 ^ (2 * k) =
        ((a + b : ℤ) : ℚ) / 2 ^ (2 * k) := by
      push_cast
      ring
    rw [he]
    exact roundFloat_dyadic (a + b) (2 * k) _ rfl
      (by rw [abs_of_nonneg (by omega)]; exact hab) (by omega)
  simp only [linePoint, Vector3.squaredDistance]
  rw [hdiff ax Vx (by omega), hdiff ay Vy (by omega), hdiff az Vz (by omega),
    hmul _ (by omega), hmul _ (by omega), hmul _ (by omega),
    hadd _ _ hx2 hy2 (by omega), hadd _ _ (by omega) hz2 (by omega)]
  congr 1
  push_cast
  rw [pow_mul']
  field_simp
  ring

theorem annotatedFrom_uniform (ax ay az : ℚ) (k : ℕ) (Vx Vy Vz : ℤ) (thr : Dbl) (N : Nat)
    (hk : k ≤ 74) (hgrid : (N : ℤ) ^ 2 * (Vx ^ 2 + Vy ^ 2 + Vz ^ 2) < 16777216)
    (xs : List Vector3) :
    ∀ (m since : Nat), (m + 1 + since) + xs.length = N → xs ≠ [] →
      (∀ i (h : i < xs.length),
        xs[i] = linePoint ax ay az (Vx / 2 ^ k) (Vy / 2 ^ k) (Vz / 2 ^ k) (m + 1 + since + i)) →
      (annotatedFrom thr N (m + 1 + since) xs
          (linePoint ax ay az (Vx / 2 ^ k) (Vy / 2 ^ k) (Vz / 2 ^ k) m)).length =
        gateCount ((Vx / 2 ^ k) * (Vx / 2 ^ k) + (Vy / 2 ^ k) * (Vy / 2 ^ k) +
          (Vz / 2 ^ k) * (Vz / 2 ^ k)) thr (xs.length - 1) since + 1 := by
  induction xs with
  | nil => intro m since _ h; exact absurd rfl h
  | cons x rest ih =>
    intro m since hN _ hxs
    have hx : x = linePoint ax ay az (Vx / 2 ^ k) (Vy / 2 ^ k) (Vz / 2 ^ k)
        (m + 1 + since) := by
      simpa using hxs 0 (by simp)
    have hrest : ∀ i (h : i < rest.length),
        rest[i] = linePoint ax ay az (Vx / 2 ^ k) (Vy / 2 ^ k) (Vz / 2 ^ k)
          (m + 1 + since + 1 + i) := by
      intro i hi
      have := hxs (i + 1) (by simp; omega)
      simp only [List.getElem_cons_succ] at this
      rw [this]
      congr 1
      omega
    simp only [List.length_cons] at hN
    have hbound : ((since : ℤ) + 1) ^ 2 * (Vx ^ 2 + Vy ^ 2 + Vz ^ 2) < 16777216 := by
      have hS : 0 ≤ Vx ^ 2 + Vy ^ 2 + Vz ^ 2 := by positivity
      have hle : ((since : ℤ) + 1) ^ 2 ≤ (N : ℤ) ^ 2 := by
        have : (since : ℤ) + 1 ≤ (N : ℤ) := by omega
        exact pow_le_pow_left₀ (by omega) this 2
      exact lt_of_le_of_lt (mul_le_mul_of_nonneg_right hle hS) hgrid
    rw [annotatedFrom_cons]
    cases rest with
    | nil =>
      have hlast : m + 1 + since = N - 1 := by simp at hN; omega
      rw [if_pos (Or.inr (Or.inl hlast))]
      simp [annotatedFrom, gateCount]
    | cons y rest' =>
      have hne0 : ¬ m + 1 + since = 0 := by omega
      have hneN : ¬ m + 1 + since = N - 1 := by simp at hN; omega
      have hgate : x.squaredDistance
          (linePoint ax ay az (Vx / 2 ^ k) (Vy / 2 ^ k) (Vz / 2 ^ k) m) =
          Dbl.fin (((since : ℚ) + 1) ^ 2 *
            ((Vx / 2 ^ k) * (Vx / 2 ^ k) + (Vy / 2 ^ k) * (Vy / 2 ^ k) +
              (Vz / 2 ^ k) * (Vz / 2 ^ k))) := by
        rw [hx, squaredDistance_linePoint ax ay az k Vx Vy Vz m since hk hbound]
      simp only [List.length_cons, Nat.add_sub_cancel]
      by_cases hc : (Dbl.fin (((since : ℚ) + 1) ^ 2 *
            ((Vx / 2 ^ k) * (Vx / 2 ^ k) + (Vy / 2 ^ k) * (Vy / 2 ^ k) +
              (Vz / 2 ^ k) * (Vz / 2 ^ k)))).ge thr = true
      · have hcond : m + 1 + since = 0 ∨ m + 1 + since = N - 1 ∨
            (x.squaredDistance
              (linePoint ax ay az (Vx / 2 ^ k) (Vy / 2 ^ k) (Vz / 2 ^ k) m)).ge thr = true := by
          right; right; rw [hgate]; exact hc
        rw [if_pos hcond, List.length_cons]
        have := ih (m + 1 + since) 0 (by simp at hN ⊢; omega) (by simp)
          (by intro i hi; simpa using hrest i hi)
        simp only [Nat.add_zero, List.length_cons, Nat.add_sub_cancel] at this
        rw [hx, this]
        simp only [gateCount, hc, if_true]
        omega
      · have hcond : ¬(m + 1 + since = 0 ∨ m + 1 + since = N - 1 ∨
            (x.squaredDistance
              (linePoint ax ay az (Vx / 2 ^ k) (Vy / 2 ^ k) (Vz / 2 ^ k) m)).ge thr = true) := by
          rintro (h | h | h)
          · exact hne0 h
          · exact hneN h
          · rw [hgate] at h; exact hc h
        rw [if_neg hcond]
        have := ih m (since + 1) (by simp at hN ⊢; omega) (by simp)
          (by intro i hi; simpa [Nat.add_assoc] using hrest i hi)
        simp only [List.length_cons, Nat.add_sub_cancel] at this
        have hidx : m + 1 + since + 1 = m + 1 + (since + 1) := rfl
        rw [hidx, this]
        simp [gateCount, hc]

theorem gateCount_all (d2 : ℚ) (thr : Dbl) (h : (Dbl.fin d2).ge thr = true) :
    ∀ n, gateCount d2 thr n 0 = n := by
  intro n
  induction n with
  | zero => rfl
  | succ j ih =>
    have hc : (Dbl.fin ((((0 : Nat) : ℚ) + 1) ^ 2 * d2)).ge thr = true := by simpa using h
    simp only [gateCount, hc, if_true, ih]
    omega

theorem base_axes_uniform (env : Env) (self : WholeBodyTrajectoryDisplay)
    (msg : WholeBodyTrajectory) (hmsg : self.msg_ = some msg)
    (hwf : wellFormed msg.trajectory = true) (ax ay az : ℚ) (k : ℕ) (Vx Vy Vz : ℤ)
    (hN : 2 ≤ msg.trajectory.length) (hk : k ≤ 74)
    (hgrid : (msg.trajectory.length : ℤ) ^ 2 * (Vx ^ 2 + Vy ^ 2 + Vz ^ 2) < 16777216)
    (hline : ∀ j, j < msg.trajectory.length →
      xposAt env msg j = linePoint ax ay az (Vx / 2 ^ k) (Vy / 2 ^ k) (Vz / 2 ^ k) j)
    (style : LineStyle) :
    ∃ s, ({ self with base_style_property_ := style }).processBaseTrajectory env = some s ∧
      s.base_axes_.length =
        2 + gateCount ((Vx / 2 ^ k) * (Vx / 2 ^ k) + (Vy / 2 ^ k) * (Vy / 2 ^ k) +
          (Vz / 2 ^ k) * (Vz / 2 ^ k)) (gateThreshold self) (msg.trajectory.length - 2) 0 := by
  obtain ⟨s, hrun, haxes⟩ := processBase_axes env self msg hmsg hwf style
  refine ⟨s, hrun, ?_⟩
  rw [haxes, baseCursor_axes, List.length_map]
  have hxs : ∀ i (h : i < (msg.trajectory.map
      (stepXpos (worldTransform env msg) (numBase msg.trajectory))).length),
      (msg.trajectory.map (stepXpos (worldTransform env msg) (numBase msg.trajectory)))[i] =
        linePoint ax ay az (Vx / 2 ^ k) (Vy / 2 ^ k) (Vz / 2 ^ k) i := by
    intro i hi
    have hi' : i < msg.trajectory.length := by simpa using hi
    rw [← hline i hi']
    simp [xposAt, List.getD_eq_getElem?_getD, List.getElem?_eq_getElem hi']
  generalize hgen : msg.trajectory.map
    (stepXpos (worldTransform env msg) (numBase msg.trajectory)) = xs at hxs
  have hlen : xs.length = msg.trajectory.length := by rw [← hgen]; simp
  cases xs with
  | nil => simp at hlen; omega
  | cons x0 rest =>
    have hx0 : x0 = linePoint ax ay az (Vx / 2 ^ k) (Vy / 2 ^ k) (Vz / 2 ^ k) 0 := by
      simpa using hxs 0 (by simp)
    rw [annotatedFrom_cons, if_pos (Or.inl rfl), List.length_cons, hx0]
    simp only [List.length_cons] at hlen
    have := annotatedFrom_uniform ax ay az k Vx Vy Vz (gateThreshold self)
      msg.trajectory.length hk hgrid rest 0 0 (by omega)
      (by intro h; rw [h] at hlen; simp at hlen; omega)
      (by
        intro i hi
        have := hxs (i + 1) (by simp; omega)
        simp only [List.getElem_cons_succ] at this
        rw [this]
        congr 1
        omega)
    simp only [Nat.zero_add, Nat.add_zero] at this
    rw [this]
    have : rest.length - 1 = msg.trajectory.length - 2 := by omega
    rw [this]
    omega

/-- The transformed position of a step with the translation (x, y, 0) under the transform of
`exampleEnv`, a shift by 1 along x, when x, y and x + 1 are `float` values. -/
theorem stepXpos_shifted (x y : ℚ) (contacts : List ContactState)
    (hx : roundFloat x = Dbl.fin x) (hy : roundFloat y = Dbl.fin y)
    (hx1 : roundFloat (x + 1) = Dbl.fin (x + 1)) :
    stepXpos ((Matrix4.ofQuaternion Quaternion.IDENTITY).setTrans ⟨1, 0, 0⟩) 6
        ⟨[⟨LX, Dbl.fin x⟩, ⟨LY, Dbl.fin y⟩, ⟨LZ, 0⟩, ⟨AX, 0⟩, ⟨AY, 0⟩, ⟨AZ, 0⟩], contacts⟩ =
      ⟨Dbl.fin (x + 1), Dbl.fin y, Dbl.fin 0⟩ := by
  simp [stepXpos, assembledPos, assignBase, sanitize, LX, LY, LZ, AX, AY, AZ,
    Matrix4.ofQuaternion, Matrix4.setTrans, Matrix4.mulVec, Quaternion.IDENTITY,
    Quaternion.ToRotationMatrix, Vector3.ZERO, hx, hy, hx1]

theorem eighthTrajectory_line : ∀ j, j < eighthTrajectory.trajectory.length →
    xposAt exampleEnv eighthTrajectory j =
      linePoint 1 0 0 ((1 : ℤ) / 2 ^ 3) ((0 : ℤ) / 2 ^ 3) ((0 : ℤ) / 2 ^ 3) j := by
  intro j hj
  have hj : j < 4 := hj
  have h0 := stepXpos_shifted 0 0 [] roundFloat_zero roundFloat_zero
    (roundFloat_dyadic 1 0 _ (by norm_num) (by norm_num) (by norm_num))
  have h1 := stepXpos_shifted (1 / 8) 0 []
    (roundFloat_dyadic 1 3 _ (by norm_num) (by norm_num) (by norm_num)) roundFloat_zero
    (roundFloat_dyadic 9 3 _ (by norm_num) (by norm_num) (by norm_num))
  have h2 := stepXpos_shifted (2 / 8) 0 []
    (roundFloat_dyadic 2 3 _ (by norm_num) (by norm_num) (by norm_num)) roundFloat_zero
    (roundFloat_dyadic 10 3 _ (by norm_num) (by norm_num) (by norm_num))
  have h3 := stepXpos_shifted (3 / 8) 0 []
    (roundFloat_dyadic 3 3 _ (by norm_num) (by norm_num) (by norm_num)) roundFloat_zero
    (roundFloat_dyadic 11 3 _ (by norm_num) (by norm_num) (by norm_num))
  interval_cases j
  · exact (show xposAt exampleEnv eighthTrajectory 0 = _ from h0).trans
      (by simp [linePoint])
  · exact (show xposAt exampleEnv eighthTrajectory 1 = _ from h1).trans
      (by simp [linePoint]; norm_num)
  · exact (show xposAt exampleEnv eighthTrajectory 2 = _ from h2).trans
      (by simp [linePoint]; norm_num)
  · exact (show xposAt exampleEnv eighthTrajectory 3 = _ from h3).trans
      (by simp [linePoint]; norm_num)

theorem denseTrajectory_line : ∀ j, j < denseTrajectory.trajectory.length →
    xposAt exampleEnv denseTrajectory j =
      linePoint 1 0 0 ((1 : ℤ) / 2 ^ 6) ((0 : ℤ) / 2 ^ 6) ((0 : ℤ) / 2 ^ 6) j := by
  intro j hj
  have hj : j < 3 := hj
  have h0 := stepXpos_shifted 0 0 [] roundFloat_zero roundFloat_zero
    (roundFloat_dyadic 1 0 _ (by norm_num) (by norm_num) (by norm_num))
  have h1 := stepXpos_shifted (1 / 64) 0 []
    (roundFloat_dyadic 1 6 _ (by norm_num) (by norm_num) (by norm_num)) roundFloat_zero
    (roundFloat_dyadic 65 6 _ (by norm_num) (by norm_num) (by norm_num))
  have h2 := stepXpos_shifted (2 / 64) 0 []
    (roundFloat_dyadic 2 6 _ (by norm_num) (by norm_num) (by norm_num)) roundFloat_zero
    (roundFloat_dyadic 66 6 _ (by norm_num) (by norm_num) (by norm_num))
  interval_cases j
  · exact (show xposAt exampleEnv denseTrajectory 0 = _ from h0).trans
      (by simp [linePoint])
  · exact (show xposAt exampleEnv denseTrajectory 1 = _ from h1).trans
      (by simp [linePoint]; norm_num)
  · exact (show xposAt exampleEnv denseTrajectory 2 = _ from h2).trans
      (by simp [linePoint]; norm_num)

theorem standingTrajectory_line : ∀ j, j < standingTrajectory.trajectory.length →
    xposAt exampleEnv standingTrajectory j =
      linePoint 1 0 0 ((0 : ℤ) / 2 ^ 0) ((0 : ℤ) / 2 ^ 0) ((0 : ℤ) / 2 ^ 0) j := by
  intro j hj
  have hj : j < 3 := hj
  have h0 := stepXpos_shifted 0 0 [] roundFloat_zero roundFloat_zero
    (roundFloat_dyadic 1 0 _ (by norm_num) (by norm_num) (by norm_num))
  interval_cases j
  · exact (show xposAt exampleEnv standingTrajectory 0 = _ from h0).trans
      (by simp [linePoint])
  · exact (show xposAt exampleEnv standingTrajectory 1 = _ from h0).trans
      (by simp [linePoint])
  · exact (show xposAt exampleEnv standingTrajectory 2 = _ from h0).trans
      (by simp [linePoint])

/-- The transformed positions of `boundaryTrajectory`: the points 0, 1 and 2 of the straight
line through (1, 0, 0) with step (11/1024, 14908697/2^28, 0). -/
theorem boundaryTrajectory_line : ∀ j, j < boundaryTrajectory.trajectory.length →
    xposAt exampleEnv boundaryTrajectory j =
      linePoint 1 0 0 (11 / 1024) (14908697 / 268435456) 0 j := by
  intro j hj
  have hj : j < 3 := hj
  have h0 := stepXpos_shifted 0 0 [] roundFloat_zero roundFloat_zero
    (roundFloat_dyadic 1 0 _ (by norm_num) (by norm_num) (by norm_num))
  have h1 := stepXpos_shifted (11 / 1024) (14908697 / 268435456) []
    (roundFloat_dyadic 11 10 _ (by norm_num) (by norm_num) (by norm_num))
    (roundFloat_dyadic 14908697 28 _ (by norm_num) (by norm_num) (by norm_num))
    (roundFloat_dyadic 1035 10 _ (by norm_num) (by norm_num) (by norm_num))
  have h2 := stepXpos_shifted (22 / 1024) (29817394 / 268435456) []
    (roundFloat_dyadic 11 9 _ (by norm_num) (by norm_num) (by norm_num))
    (roundFloat_dyadic 14908697 27 _ (by norm_num) (by norm_num) (by norm_num))
    (roundFloat_dyadic 523 9 _ (by norm_num) (by norm_num) (by norm_num))
  interval_cases j
  · exact (show xposAt exampleEnv boundaryTrajectory 0 = _ from h0).trans
      (by simp [linePoint])
  · exact (show xposAt exampleEnv boundaryTrajectory 1 = _ from h1).trans
      (by simp [linePoint]; norm_num)
  · exact (show xposAt exampleEnv boundaryTrajectory 2 = _ from h2).trans
      (by simp [linePoint]; norm_num)

/-- The squared distance between the first two points of `boundaryTrajectory` as the code
computes it in `float`: the square of the y difference is rounded down, and the sum
13743895/2^32 stays below the `double` 0.0032. -/
theorem boundary_squaredDistance :
    (linePoint 1 0 0 (11 / 1024) (14908697 / 268435456) 0 1).squaredDistance
        (linePoint 1 0 0 (11 / 1024) (14908697 / 268435456) 0 0) =
      Dbl.fin (13743895 / 4294967296) := by
  have hdx : roundFloat (1 + ((1 : ℕ) : ℚ) * (11 / 1024) - (1 + ((0 : ℕ) : ℚ) * (11 / 1024))) =
      Dbl.fin (11 / 1024) := by
    have := roundFloat_dyadic 11 10 (11 / 1024) (by norm_num) (by norm_num) (by norm_num)
    norm_num
    exact this
  have hdy : roundFloat (0 + ((1 : ℕ) : ℚ) * (14908697 / 268435456) -
      (0 + ((0 : ℕ) : ℚ) * (14908697 / 268435456))) = Dbl.fin (14908697 / 268435456) := by
    have := roundFloat_dyadic 14908697 28 (14908697 / 268435456) (by norm_num) (by norm_num)
      (by norm_num)
    norm_num
    exact this
  have hdz : roundFloat (0 + ((1 : ℕ) : ℚ) * 0 - (0 + ((0 : ℕ) : ℚ) * 0)) = Dbl.fin 0 := by
    norm_num
  have hxx : roundFloat (11 / 1024 * (11 / 1024)) = Dbl.fin (121 / 1048576) := by
    have := roundFloat_dyadic 121 20 (121 / 1048576) (by norm_num) (by norm_num) (by norm_num)
    norm_num
    exact this
  have hyy : roundFloat (14908697 / 268435456 * (14908697 / 268435456)) =
      Dbl.fin (13248279 / 4294967296) := by
    have := roundBinary_eval 24 (-126) 127
      (14908697 / 268435456 * (14908697 / 268435456)) (-9) 13248279
      (by rw [abs_of_pos (by norm_num)]; norm_num [zpow_neg])
      (by rw [abs_of_pos (by norm_num)]; norm_num [zpow_neg])
      (by norm_num)
      (by norm_num [zpow_neg]; rw [abs_lt]; constructor <;> norm_num)
      (by norm_num [zpow_neg]; rw [abs_of_pos (by norm_num)]; norm_num)
    rw [roundFloat, this]
    norm_num [zpow_neg]
  have hzz : roundFloat (0 * 0) = Dbl.fin 0 := by norm_num
  have hs1 : roundFloat (121 / 1048576 + 13248279 / 4294967296) =
      Dbl.fin (13743895 / 4294967296) := by
    have := roundFloat_dyadic 13743895 32 (13743895 / 4294967296) (by norm_num) (by norm_num)
      (by norm_num)
    norm_num
    exact this
  have hs2 : roundFloat (13743895 / 4294967296 + 0) = Dbl.fin (13743895 / 4294967296) := by
    have := roundFloat_dyadic 13743895 32 (13743895 / 4294967296) (by norm_num) (by norm_num)
      (by norm_num)
    norm_num
    exact this
  simp only [linePoint, Vector3.squaredDistance, Dbl.fsub_fin]
  rw [hdx, hdy, hdz]
  simp only [Dbl.fmul_fin]
  rw [hxx, hyy, hzz]
  rw [Dbl.fadd_fin, hs1, Dbl.fadd_fin, hs2]

/-- The gate for an axes scale of 1 or -1 is the `double` 0.0032. -/
theorem gateThreshold_unit (self : WholeBodyTrajectoryDisplay) (sc : ℚ)
    (h : self.base_scale_property_ = Dbl.fin sc) (hsc : sc * sc = 1) :
    gateThreshold self = Dbl.fin (7378697629483821 / 2305843009213693952) := by
  rw [gateThreshold, h, gateFactor_eq, Dbl.fmul_fin, hsc, roundFloat_one, Dbl.dmul_fin,
    one_mul, roundDouble_gateFactor]

/-- The gate for the axes scale 0 is 0. -/
theorem gateThreshold_zero (self : WholeBodyTrajectoryDisplay)
    (h : self.base_scale_property_ = Dbl.fin 0) : gateThreshold self = Dbl.fin 0 := by
  rw [gateThreshold, h, gateFactor_eq, Dbl.fmul_fin, mul_zero, roundFloat_zero, Dbl.dmul_fin,
    zero_mul, roundDouble_zero]

/-- The axes objects are those of the steps the gate lets through, run over the transformed
positions of the steps. -/
theorem base_axes_positions (env : Env) (self : WholeBodyTrajectoryDisplay)
    (msg : WholeBodyTrajectory) (hmsg : self.msg_ = some msg)
    (hwf : wellFormed msg.trajectory = true) (xs : List Vector3)
    (hxs : msg.trajectory.map (stepXpos (worldTransform env msg) (numBase msg.trajectory)) = xs)
    (style : LineStyle) :
    ∃ s, ({ self with base_style_property_ := style }).processBaseTrajectory env = some s ∧
      s.base_axes_ = (annotatedFrom (gateThreshold self) msg.trajectory.length 0 xs
        self.last_point_position_).map (axesAt env self msg) := by
  obtain ⟨s, hrun, haxes⟩ := processBase_axes env self msg hmsg hwf style
  refine ⟨s, hrun, ?_⟩
  rw [haxes, baseCursor_axes, hxs]

/-- The code creates two axes objects for `boundaryTrajectory` with the axes scale 1. -/
theorem boundary_axes_count :
    ∃ s, (displayOf boundaryTrajectory LineStyle.LINES LineStyle.LINES).processBaseTrajectory
        exampleEnv = some s ∧ s.base_axes_.length = 2 := by
  have e0 := boundaryTrajectory_line 0 (by decide)
  have e1 := boundaryTrajectory_line 1 (by decide)
  have e2 := boundaryTrajectory_line 2 (by decide)
  have hxs : boundaryTrajectory.trajectory.map (stepXpos
      (worldTransform exampleEnv boundaryTrajectory) (numBase boundaryTrajectory.trajectory)) =
      [linePoint 1 0 0 (11 / 1024) (14908697 / 268435456) 0 0,
       linePoint 1 0 0 (11 / 1024) (14908697 / 268435456) 0 1,
       linePoint 1 0 0 (11 / 1024) (14908697 / 268435456) 0 2] := by
    rw [← e0, ← e1, ← e2]
    rfl
  obtain ⟨s, hrun, hlen⟩ := base_axes_positions exampleEnv
    (displayOf boundaryTrajectory LineStyle.LINES LineStyle.LINES) boundaryTrajectory rfl rfl
    _ hxs LineStyle.LINES
  refine ⟨s, hrun, ?_⟩
  rw [hlen, List.length_map, gateThreshold_unit _ 1 rfl (by norm_num)]
  have hN : boundaryTrajectory.trajectory.length = 3 := rfl
  rw [hN, annotatedFrom_cons, if_pos (Or.inl rfl), annotatedFrom_cons, if_neg, annotatedFrom_cons,
    if_pos (Or.inr (Or.inl rfl))]
  · rfl
  · rintro (h | h | h)
    · exact absurd h (by decide)
    · exact absurd h (by decide)
    · rw [boundary_squaredDistance, Dbl.ge_fin] at h
      norm_num at h

/-- The transformed position of a step with the translation (x, y, 0) of the message, under
the transform of `exampleEnv`: `fx` and `fy` are the `float` values of x and y. -/
theorem stepXpos_narrowed (x y : Dbl) (fx fy : ℚ) (contacts : List ContactState)
    (hx : x.toFloat = Dbl.fin fx) (hy : y.toFloat = Dbl.fin fy)
    (hfx : roundFloat fx = Dbl.fin fx) (hfy : roundFloat fy = Dbl.fin fy)
    (hx1 : roundFloat (fx + 1) = Dbl.fin (fx + 1)) :
    stepXpos ((Matrix4.ofQuaternion Quaternion.IDENTITY).setTrans ⟨1, 0, 0⟩) 6
        ⟨[⟨LX, x⟩, ⟨LY, y⟩, ⟨LZ, 0⟩, ⟨AX, 0⟩, ⟨AY, 0⟩, ⟨AZ, 0⟩], contacts⟩ =
      ⟨Dbl.fin (fx + 1), Dbl.fin fy, Dbl.fin 0⟩ := by
  simp [stepXpos, assembledPos, assignBase, sanitize, LX, LY, LZ, AX, AY, AZ,
    Matrix4.ofQuaternion, Matrix4.setTrans, Matrix4.mulVec, Quaternion.IDENTITY,
    Quaternion.ToRotationMatrix, Vector3.ZERO, hx, hy, hfx, hfy, hx1]

/-- Narrowing at the offset 4.5e6, where two neighbouring `float` values are 0.5 apart: a
value within 1/4 of `n / 2` becomes `n / 2`. -/
theorem roundFloat_offset (q : ℚ) (n : ℤ) (hlo : 4500000 ≤ q) (hhi : q < 4500002)
    (hn : |q * 2 - n| < 1 / 2) : roundFloat q = Dbl.fin ((n : ℚ) / 2) := by
  have hq : |q| = q := abs_of_pos (by linarith)
  have hn1 : n < 9000005 := by
    rw [abs_lt] at hn
    have : (n : ℚ) < ((9000005 : ℤ) : ℚ) := by push_cast; linarith
    exact_mod_cast this
  have hn0 : -1 < n := by
    rw [abs_lt] at hn
    have : ((-1 : ℤ) : ℚ) < (n : ℚ) := by push_cast; linarith
    exact_mod_cast this
  have hnq : (n : ℚ) < 9000005 := by exact_mod_cast hn1
  have hnq0 : (-1 : ℚ) < n := by exact_mod_cast hn0
  rw [roundFloat, roundBinary_eval 24 (-126) 127 q 22 n
    (by rw [hq]; norm_num; linarith)
    (by rw [hq]; norm_num; linarith)
    (by norm_num)
    (by norm_num [zpow_neg]; rw [show q / (1 / 2) = q * 2 by ring]; exact hn)
    (by
      norm_num [zpow_neg]
      rw [abs_lt]
      constructor <;> linarith)]
  norm_num [zpow_neg]
  ring

/-- The squared distance of two points that differ by `δ` in y only, `δ` and its square being
`float` values. -/
theorem squaredDistance_along_y (a b δ : ℚ) (h : a - b = δ) (hδ : roundFloat δ = Dbl.fin δ)
    (hδ2 : roundFloat (δ * δ) = Dbl.fin (δ * δ)) :
    (⟨Dbl.fin 1, Dbl.fin a, Dbl.fin 0⟩ : Vector3).squaredDistance
        ⟨Dbl.fin 1, Dbl.fin b, Dbl.fin 0⟩ = Dbl.fin (δ * δ) := by
  simp [Vector3.squaredDistance, h, hδ, hδ2]

/-- The transformed positions of `offsetTrajectory`: y is 4500000 at the steps 0 to 2,
4500000.5 at the steps 3 to 7 and 4500001 at the steps 8 to 11. -/
theorem offsetTrajectory_positions :
    offsetTrajectory.trajectory.map (stepXpos (worldTransform exampleEnv offsetTrajectory)
        (numBase offsetTrajectory.trajectory)) =
      [⟨Dbl.fin 1, Dbl.fin 4500000, Dbl.fin 0⟩,
       ⟨Dbl.fin 1, Dbl.fin 4500000, Dbl.fin 0⟩,
       ⟨Dbl.fin 1, Dbl.fin 4500000, Dbl.fin 0⟩,
       ⟨Dbl.fin 1, Dbl.fin (9000001 / 2), Dbl.fin 0⟩,
       ⟨Dbl.fin 1, Dbl.fin (9000001 / 2), Dbl.fin 0⟩,
       ⟨Dbl.fin 1, Dbl.fin (9000001 / 2), Dbl.fin 0⟩,
       ⟨Dbl.fin 1, Dbl.fin (9000001 / 2), Dbl.fin 0⟩,
       ⟨Dbl.fin 1, Dbl.fin (9000001 / 2), Dbl.fin 0⟩,
       ⟨Dbl.fin 1, Dbl.fin 4500001, Dbl.fin 0⟩,
       ⟨Dbl.fin 1, Dbl.fin 4500001, Dbl.fin 0⟩,
       ⟨Dbl.fin 1, Dbl.fin 4500001, Dbl.fin 0⟩,
       ⟨Dbl.fin 1, Dbl.fin 4500001, Dbl.fin 0⟩] := by
  have hone : roundFloat (0 + 1) = Dbl.fin (0 + 1) :=
    roundFloat_dyadic 1 0 _ (by norm_num) (by norm_num) (by norm_num)
  have hgrid : ∀ n : ℤ, |n| < 16777216 → roundFloat ((n : ℚ) / 2) = Dbl.fin ((n : ℚ) / 2) :=
    fun n hn => roundFloat_dyadic n 1 _ (by norm_num) hn (by norm_num)
  have hstep : ∀ (j : ℕ) (n : ℤ), (j : ℚ) < 12 → |n| < 16777216 →
      |(4500000 + (j : ℚ) / 10) * 2 - n| < 1 / 2 →
      stepXpos ((Matrix4.ofQuaternion Quaternion.IDENTITY).setTrans ⟨1, 0, 0⟩) 6
          ⟨[⟨LX, 0⟩, ⟨LY, Dbl.fin (4500000 + (j : ℚ) / 10)⟩, ⟨LZ, 0⟩, ⟨AX, 0⟩, ⟨AY, 0⟩,
            ⟨AZ, 0⟩], []⟩ = ⟨Dbl.fin (0 + 1), Dbl.fin ((n : ℚ) / 2), Dbl.fin 0⟩ := by
    intro j n hj hn hnear
    have hj0 : (0 : ℚ) ≤ j := Nat.cast_nonneg j
    exact stepXpos_narrowed 0 _ 0 _ [] (by simp)
      (by rw [Dbl.toFloat_fin]
          exact roundFloat_offset _ n (by linarith) (by linarith) hnear)
      roundFloat_zero (hgrid n hn) hone
  have h0 := hstep 0 9000000 (by norm_num) (by norm_num) (by norm_num)
  have h1 := hstep 1 9000000 (by norm_num) (by norm_num)
    (by rw [abs_lt]; constructor <;> norm_num)
  have h2 := hstep 2 9000000 (by norm_num) (by norm_num)
    (by rw [abs_lt]; constructor <;> norm_num)
  have h3 := hstep 3 9000001 (by norm_num) (by norm_num)
    (by rw [abs_lt]; constructor <;> norm_num)
  have h4 := hstep 4 9000001 (by norm_num) (by norm_num)
    (by rw [abs_lt]; constructor <;> norm_num)
  have h5 := hstep 5 9000001 (by norm_num) (by norm_num)
    (by rw [abs_lt]; constructor <;> norm_num)
  have h6 := hstep 6 9000001 (by norm_num) (by norm_num)
    (by rw [abs_lt]; constructor <;> norm_num)
  have h7 := hstep 7 9000001 (by norm_num) (by norm_num)
    (by rw [abs_lt]; constructor <;> norm_num)
  have h8 := hstep 8 9000002 (by norm_num) (by norm_num)
    (by rw [abs_lt]; constructor <;> norm_num)
  have h9 := hstep 9 9000002 (by norm_num) (by norm_num)
    (by rw [abs_lt]; constructor <;> norm_num)
  have h10 := hstep 10 9000002 (by norm_num) (by norm_num)
    (by rw [abs_lt]; constructor <;> norm_num)
  have h11 := hstep 11 9000002 (by norm_num) (by norm_num)
    (by rw [abs_lt]; constructor <;> norm_num)
  have hlist : offsetTrajectory.trajectory.map (stepXpos
      (worldTransform exampleEnv offsetTrajectory) (numBase offsetTrajectory.trajectory)) =
      [stepXpos ((Matrix4.ofQuaternion Quaternion.IDENTITY).setTrans ⟨1, 0, 0⟩) 6
        ⟨[⟨LX, 0⟩, ⟨LY, Dbl.fin (4500000 + ((0 : ℕ) : ℚ) / 10)⟩, ⟨LZ, 0⟩, ⟨AX, 0⟩, ⟨AY, 0⟩,
          ⟨AZ, 0⟩], []⟩,
       stepXpos ((Matrix4.ofQuaternion Quaternion.IDENTITY).setTrans ⟨1, 0, 0⟩) 6
        ⟨[⟨LX, 0⟩, ⟨LY, Dbl.fin (4500000 + ((1 : ℕ) : ℚ) / 10)⟩, ⟨LZ, 0⟩, ⟨AX, 0⟩, ⟨AY, 0⟩,
          ⟨AZ, 0⟩], []⟩,
       stepXpos ((Matrix4.ofQuaternion Quaternion.IDENTITY).setTrans ⟨1, 0, 0⟩) 6
        ⟨[⟨LX, 0⟩, ⟨LY, Dbl.fin (4500000 + ((2 : ℕ) : ℚ) / 10)⟩, ⟨LZ, 0⟩, ⟨AX, 0⟩, ⟨AY, 0⟩,
          ⟨AZ, 0⟩], []⟩,
       stepXpos ((Matrix4.ofQuaternion Quaternion.IDENTITY).setTrans ⟨1, 0, 0⟩) 6
        ⟨[⟨LX, 0⟩, ⟨LY, Dbl.fin (4500000 + ((3 : ℕ) : ℚ) / 10)⟩, ⟨LZ, 0⟩, ⟨AX, 0⟩, ⟨AY, 0⟩,
          ⟨AZ, 0⟩], []⟩,
       stepXpos ((Matrix4.ofQuaternion Quaternion.IDENTITY).setTrans ⟨1, 0, 0⟩) 6
        ⟨[⟨LX, 0⟩, ⟨LY, Dbl.fin (4500000 + ((4 : ℕ) : ℚ) / 10)⟩, ⟨LZ, 0⟩, ⟨AX, 0⟩, ⟨AY, 0⟩,
          ⟨AZ, 0⟩], []⟩,
       stepXpos ((Matrix4.ofQuaternion Quaternion.IDENTITY).setTrans ⟨1, 0, 0⟩) 6
        ⟨[⟨LX, 0⟩, ⟨LY, Dbl.fin (4500000 + ((5 : ℕ) : ℚ) / 10)⟩, ⟨LZ, 0⟩, ⟨AX, 0⟩, ⟨AY, 0⟩,
          ⟨AZ, 0⟩], []⟩,
       stepXpos ((Matrix4.ofQuaternion Quaternion.IDENTITY).setTrans ⟨1, 0, 0⟩) 6
        ⟨[⟨LX, 0⟩, ⟨LY, Dbl.fin (4500000 + ((6 : ℕ) : ℚ) / 10)⟩, ⟨LZ, 0⟩, ⟨AX, 0⟩, ⟨AY, 0⟩,
          ⟨AZ, 0⟩], []⟩,
       stepXpos ((Matrix4.ofQuaternion Quaternion.IDENTITY).setTrans ⟨1, 0, 0⟩) 6
        ⟨[⟨LX, 0⟩, ⟨LY, Dbl.fin (4500000 + ((7 : ℕ) : ℚ) / 10)⟩, ⟨LZ, 0⟩, ⟨AX, 0⟩, ⟨AY, 0⟩,
          ⟨AZ, 0⟩], []⟩,
       stepXpos ((Matrix4.ofQuaternion Quaternion.IDENTITY).setTrans ⟨1, 0, 0⟩) 6
        ⟨[⟨LX, 0⟩, ⟨LY, Dbl.fin (4500000 + ((8 : ℕ) : ℚ) / 10)⟩, ⟨LZ, 0⟩, ⟨AX, 0⟩, ⟨AY, 0⟩,
          ⟨AZ, 0⟩], []⟩,
       stepXpos ((Matrix4.ofQuaternion Quaternion.IDENTITY).setTrans ⟨1, 0, 0⟩) 6
        ⟨[⟨LX, 0⟩, ⟨LY, Dbl.fin (4500000 + ((9 : ℕ) : ℚ) / 10)⟩, ⟨LZ, 0⟩, ⟨AX, 0⟩, ⟨AY, 0⟩,
          ⟨AZ, 0⟩], []⟩,
       stepXpos ((Matrix4.ofQuaternion Quaternion.IDENTITY).setTrans ⟨1, 0, 0⟩) 6
        ⟨[⟨LX, 0⟩, ⟨LY, Dbl.fin (4500000 + ((10 : ℕ) : ℚ) / 10)⟩, ⟨LZ, 0⟩, ⟨AX, 0⟩, ⟨AY, 0⟩,
          ⟨AZ, 0⟩], []⟩,
       stepXpos ((Matrix4.ofQuaternion Quaternion.IDENTITY).setTrans ⟨1, 0, 0⟩) 6
        ⟨[⟨LX, 0⟩, ⟨LY, Dbl.fin (4500000 + ((11 : ℕ) : ℚ) / 10)⟩, ⟨LZ, 0⟩, ⟨AX, 0⟩, ⟨AY, 0⟩,
          ⟨AZ, 0⟩], []⟩] := rfl
  rw [hlist, h0, h1, h2, h3, h4, h5, h6, h7, h8, h9, h10, h11]
  norm_num

/-- The code creates four axes objects for the twelve steps of `offsetTrajectory` with the
axes scale 1, at the steps 0, 3, 8 and 11: between them the `float` positions do not move. -/
theorem offset_axes_count :
    offsetTrajectory.trajectory.length = 12 ∧
      ∃ s, (displayOf offsetTrajectory LineStyle.LINES LineStyle.LINES).processBaseTrajectory
          exampleEnv = some s ∧
        s.base_axes_ = [0, 3, 8, 11].map (axesAt exampleEnv
          (displayOf offsetTrajectory LineStyle.LINES LineStyle.LINES) offsetTrajectory) ∧
        s.base_axes_.length = 4 := by
  refine ⟨rfl, ?_⟩
  obtain ⟨s, hrun, hlen⟩ := base_axes_positions exampleEnv
    (displayOf offsetTrajectory LineStyle.LINES LineStyle.LINES) offsetTrajectory rfl rfl
    _ offsetTrajectory_positions LineStyle.LINES
  have hquarter : roundFloat (1 / 2 * (1 / 2)) = Dbl.fin (1 / 2 * (1 / 2)) :=
    roundFloat_dyadic 1 2 _ (by norm_num) (by norm_num) (by norm_num)
  have hhalf : roundFloat (1 / 2) = Dbl.fin (1 / 2) :=
    roundFloat_dyadic 1 1 _ (by norm_num) (by norm_num) (by norm_num)
  have hskip : ∀ (i : ℕ) (a : ℚ), i ≠ 0 → i ≠ 11 →
      ¬(i = 0 ∨ i = 12 - 1 ∨
        ((⟨Dbl.fin 1, Dbl.fin a, Dbl.fin 0⟩ : Vector3).squaredDistance
          ⟨Dbl.fin 1, Dbl.fin a, Dbl.fin 0⟩).ge
          (Dbl.fin (7378697629483821 / 2305843009213693952)) = true) := by
    intro i a h0 h11
    rw [squaredDistance_along_y a a 0 (sub_self a) roundFloat_zero (by simp), Dbl.ge_fin]
    rintro (h | h | h)
    · exact h0 h
    · exact h11 h
    · norm_num at h
  have htake : ∀ (i : ℕ) (a b : ℚ), a - b = 1 / 2 →
      (i = 0 ∨ i = 12 - 1 ∨
        ((⟨Dbl.fin 1, Dbl.fin a, Dbl.fin 0⟩ : Vector3).squaredDistance
          ⟨Dbl.fin 1, Dbl.fin b, Dbl.fin 0⟩).ge
          (Dbl.fin (7378697629483821 / 2305843009213693952)) = true) := by
    intro i a b hab
    right; right
    rw [squaredDistance_along_y a b (1 / 2) hab hhalf hquarter, Dbl.ge_fin]
    norm_num
  have hann : annotatedFrom (gateThreshold
      (displayOf offsetTrajectory LineStyle.LINES LineStyle.LINES))
      offsetTrajectory.trajectory.length 0
      [⟨Dbl.fin 1, Dbl.fin 4500000, Dbl.fin 0⟩, ⟨Dbl.fin 1, Dbl.fin 4500000, Dbl.fin 0⟩,
       ⟨Dbl.fin 1, Dbl.fin 4500000, Dbl.fin 0⟩, ⟨Dbl.fin 1, Dbl.fin (9000001 / 2), Dbl.fin 0⟩,
       ⟨Dbl.fin 1, Dbl.fin (9000001 / 2), Dbl.fin 0⟩,
       ⟨Dbl.fin 1, Dbl.fin (9000001 / 2), Dbl.fin 0⟩,
       ⟨Dbl.fin 1, Dbl.fin (9000001 / 2), Dbl.fin 0⟩,
       ⟨Dbl.fin 1, Dbl.fin (9000001 / 2), Dbl.fin 0⟩,
       ⟨Dbl.fin 1, Dbl.fin 4500001, Dbl.fin 0⟩, ⟨Dbl.fin 1, Dbl.fin 4500001, Dbl.fin 0⟩,
       ⟨Dbl.fin 1, Dbl.fin 4500001, Dbl.fin 0⟩, ⟨Dbl.fin 1, Dbl.fin 4500001, Dbl.fin 0⟩]
      (displayOf offsetTrajectory LineStyle.LINES LineStyle.LINES).last_point_position_ =
      [0, 3, 8, 11] := by
    rw [gateThreshold_unit _ 1 rfl (by norm_num),
      show offsetTrajectory.trajectory.length = 12 from rfl,
      annotatedFrom_cons, if_pos (Or.inl rfl),
      annotatedFrom_cons, if_neg (hskip _ _ (by decide) (by decide)),
      annotatedFrom_cons, if_neg (hskip _ _ (by decide) (by decide)),
      annotatedFrom_cons, if_pos (htake _ _ _ (by norm_num)),
      annotatedFrom_cons, if_neg (hskip _ _ (by decide) (by decide)),
      annotatedFrom_cons, if_neg (hskip _ _ (by decide) (by decide)),
      annotatedFrom_cons, if_neg (hskip _ _ (by decide) (by decide)),
      annotatedFrom_cons, if_neg (hskip _ _ (by decide) (by decide)),
      annotatedFrom_cons, if_pos (htake _ _ _ (by norm_num)),
      annotatedFrom_cons, if_neg (hskip _ _ (by decide) (by decide)),
      annotatedFrom_cons, if_neg (hskip _ _ (by decide) (by decide)),
      annotatedFrom_cons, if_pos (Or.inr (Or.inl rfl))]
    rfl
  rw [hann] at hlen
  exact ⟨s, hrun, hlen, by rw [hlen]; rfl⟩

/-! ## Properties of the base pass -/

theorem sanitize_eq (v : Vector3) : sanitize v = zeroUnlessFinite v := by
  unfold sanitize zeroUnlessFinite Vector3.allFinite
  cases v.x.isfinite && v.y.isfinite && v.z.isfinite <;> rfl

/-- C10: for a trajectory of N steps, `processBaseTrajectory` returns in each style and
produces N base vertices (Lines), N billboard points (Billboards) or N markers (Points); the
position of each step is the world transform applied to its assembled translation (the
values of the message narrowed to `float`) when that is finite and to (0, 0, 0) when it has a
non-finite component, so a malformed step is zeroed before the transform and no other step
is affected.  In Points style the marker holds the
untransformed position and carries the world transform as its frame. -/
theorem C10_nonfinite_translation_zeroed (env : Env) (self : WholeBodyTrajectoryDisplay)
    (msg : WholeBodyTrajectory) (hmsg : self.msg_ = some msg)
    (hwf : wellFormed msg.trajectory = true) :
    (∃ s mo, ({ self with base_style_property_ := LineStyle.LINES }).processBaseTrajectory env
          = some s ∧ s.base_manual_object_ = some mo ∧
        mo.vertices.length = msg.trajectory.length ∧
        mo.vertices.map (fun v => v.position) = msg.trajectory.map (fun state =>
          (worldTransform env msg).mulVec
            (zeroUnlessFinite (assembledPos (numBase msg.trajectory) state)))) ∧
      (∃ s bl, ({ self with base_style_property_ :=
            LineStyle.BILLBOARDS }).processBaseTrajectory env = some s ∧
        s.base_billboard_line_ = some bl ∧
        bl.points.length = msg.trajectory.length ∧
        bl.points.map (fun v => v.position) = msg.trajectory.map (fun state =>
          (worldTransform env msg).mulVec
            (zeroUnlessFinite (assembledPos (numBase msg.trajectory) state)))) ∧
      (∃ s, ({ self with base_style_property_ := LineStyle.POINTS }).processBaseTrajectory env
          = some s ∧
        s.base_points_.length = msg.trajectory.length ∧
        s.base_points_.map (fun p => p.point) = msg.trajectory.map (fun state =>
          zeroUnlessFinite (assembledPos (numBase msg.trajectory) state)) ∧
        ∀ p ∈ s.base_points_, p.framePosition = (env.getTransform msg.header).1 ∧
          p.frameOrientation = (env.getTransform msg.header).2) := by
  refine ⟨?_, ?_, ?_⟩
  · refine ⟨_, _, processBase_lines env { self with base_style_property_ := LineStyle.LINES }
      msg hmsg rfl hwf, rfl, by simp, ?_⟩
    simp [stepXpos, sanitize_eq, Function.comp_def]
  · refine ⟨_, _, processBase_billboards env
      { self with base_style_property_ := LineStyle.BILLBOARDS } msg hmsg rfl hwf, rfl,
      by simp, ?_⟩
    simp [stepXpos, sanitize_eq, Function.comp_def]
  · refine ⟨_, processBase_points env { self with base_style_property_ := LineStyle.POINTS }
      msg hmsg rfl hwf, by simp, ?_, ?_⟩
    · simp [sanitize_eq, Function.comp_def]
    · intro p hp
      simp only [List.mem_map] at hp
      obtain ⟨state, _, rfl⟩ := hp
      exact ⟨rfl, rfl⟩

/-- Witness for C10: five steps, the z translation of step 3 being NaN. -/
theorem C10_nonfinite_translation_zeroed_witness :
    (displayOf nanStepTrajectory LineStyle.LINES LineStyle.LINES).msg_ = some nanStepTrajectory ∧
      wellFormed nanStepTrajectory.trajectory = true ∧
      (nanStepTrajectory.trajectory.map (fun state =>
        (assembledPos (numBase nanStepTrajectory.trajectory) state).allFinite)) =
        [true, true, true, false, true] ∧
      (∃ s mo, ({ displayOf nanStepTrajectory LineStyle.LINES LineStyle.LINES with
            base_style_property_ := LineStyle.LINES }).processBaseTrajectory exampleEnv
          = some s ∧ s.base_manual_object_ = some mo ∧
        mo.vertices.length = nanStepTrajectory.trajectory.length ∧
        mo.vertices.map (fun v => v.position) = nanStepTrajectory.trajectory.map (fun state =>
          (worldTransform exampleEnv nanStepTrajectory).mulVec
            (zeroUnlessFinite (assembledPos (numBase nanStepTrajectory.trajectory) state)))) :=
  ⟨rfl, rfl,
    by simp [nanStepTrajectory, numBase, assembledPos, assignBase, Vector3.allFinite, LX, LY,
      LZ, AX, AY, AZ, Dbl.isfinite],
    (C10_nonfinite_translation_zeroed exampleEnv
      (displayOf nanStepTrajectory LineStyle.LINES LineStyle.LINES) nanStepTrajectory rfl rfl).1⟩

/-- C9, as stated, fails in three places.  (1) Three steps on the straight line through
(1, 0, 0) with step (11/1024, 14908697/2^28, 0), all coordinates `float` values, are shown with
axes scale 1: the spacing exceeds `sqrt(0.0032)`, so the stated count is 2 + 1 = 3, but the
squared distance the code computes in `float` is 13743895/2^32, below the `double` 0.0032, and
the code creates 2 annotations.  (2) Three steps spaced 1/64 are shown with axes scale -1:
the spacing exceeds `scale * sqrt(0.0032)`, a negative number, so the stated count is 3, and
the code, which compares squared values, creates 2.  (3) Three steps at one place are shown
with axes scale 0: the spacing 0 does not exceed `scale * sqrt(0.0032)`, which is 0, so the
stated count is 2, and the code, whose comparison is `>=`, creates 3. -/
theorem C9_stated_count_differs :
    (boundaryTrajectory.trajectory.length = 3 ∧
      (displayOf boundaryTrajectory LineStyle.LINES LineStyle.LINES).base_scale_property_
        = Dbl.fin 1 ∧
      (∀ j, j < boundaryTrajectory.trajectory.length →
        xposAt exampleEnv boundaryTrajectory j =
          linePoint 1 0 0 (11 / 1024) (14908697 / 268435456) 0 j) ∧
      ((1 : ℝ) * Real.sqrt (32 / 10000) <
        Real.sqrt ((11 / 1024) ^ 2 + (14908697 / 268435456) ^ 2 + 0 ^ 2)) ∧
      ∃ s, (displayOf boundaryTrajectory LineStyle.LINES LineStyle.LINES).processBaseTrajectory
          exampleEnv = some s ∧ s.base_axes_.length = 2) ∧
    (denseTrajectory.trajectory.length = 3 ∧
      negativeScaleDisplay.base_scale_property_ = Dbl.fin (-1) ∧
      (∀ j, j < denseTrajectory.trajectory.length →
        xposAt exampleEnv denseTrajectory j = linePoint 1 0 0 (1 / 64) 0 0 j) ∧
      ((-1 : ℝ) * Real.sqrt (32 / 10000) < 1 / 64) ∧
      ∃ s, negativeScaleDisplay.processBaseTrajectory exampleEnv = some s ∧
        s.base_axes_.length = 2) ∧
    (standingTrajectory.trajectory.length = 3 ∧
      zeroScaleDisplay.base_scale_property_ = Dbl.fin 0 ∧
      (∀ j, j < standingTrajectory.trajectory.length →
        xposAt exampleEnv standingTrajectory j = linePoint 1 0 0 0 0 0 j) ∧
      ¬ ((0 : ℝ) * Real.sqrt (32 / 10000) < 0) ∧
      ∃ s, zeroScaleDisplay.processBaseTrajectory exampleEnv = some s ∧
        s.base_axes_.length = 3) := by
  refine ⟨⟨rfl, rfl, boundaryTrajectory_line, ?_, boundary_axes_count⟩,
    ⟨rfl, rfl, ?_, ?_, ?_⟩, ⟨rfl, rfl, ?_, ?_, ?_⟩⟩
  · rw [one_mul]
    exact Real.sqrt_lt_sqrt (by norm_num) (by norm_num)
  · intro j hj
    rw [denseTrajectory_line j hj]
    norm_num
  · have := Real.sqrt_nonneg (32 / 10000)
    linarith
  · obtain ⟨s, hrun, hlen⟩ := base_axes_uniform exampleEnv negativeScaleDisplay
      denseTrajectory rfl rfl 1 0 0 6 1 0 0 (by decide) (by norm_num)
      (by rw [show denseTrajectory.trajectory.length = 3 from rfl]; norm_num)
      denseTrajectory_line LineStyle.LINES
    refine ⟨s, hrun, ?_⟩
    rw [hlen, gateThreshold_unit negativeScaleDisplay (-1) rfl (by norm_num)]
    have : denseTrajectory.trajectory.length - 2 = 1 := rfl
    rw [this]
    simp [gateCount]
    norm_num
  · intro j hj
    rw [standingTrajectory_line j hj]
    norm_num
  · simp
  · obtain ⟨s, hrun, hlen⟩ := base_axes_uniform exampleEnv zeroScaleDisplay
      standingTrajectory rfl rfl 1 0 0 0 0 0 0 (by decide) (by norm_num)
      (by rw [show standingTrajectory.trajectory.length = 3 from rfl]; norm_num)
      standingTrajectory_line LineStyle.LINES
    refine ⟨s, hrun, ?_⟩
    rw [hlen, gateThreshold_zero zeroScaleDisplay rfl]
    have : standingTrajectory.trajectory.length - 2 = 1 := rfl
    rw [this]
    simp [gateCount]

/-- C9, amended: for a base trajectory of N >= 2 steps whose transformed positions lie on a
straight line with the uniform step (Vx, Vy, Vz) / 2^k, for integers Vx, Vy, Vz with
N^2 * (Vx^2 + Vy^2 + Vz^2) < 2^24 and k <= 74 (so that every difference, square and sum the
code forms in `float` is exact), the number of axis annotations is, in each style, 2 plus
the number of interior steps at which the squared cumulative spacing since the last
annotation first reaches the gate, the `float` product `scale * scale` times the `double`
0.0032.  With the axes scale 1 and a squared spacing of at least that `double`
(7378697629483821 / 2^61), every interior step counts and the number is N. -/
theorem C9_uniform_line_annotation_count (env : Env) (self : WholeBodyTrajectoryDisplay)
    (msg : WholeBodyTrajectory) (hmsg : self.msg_ = some msg)
    (hwf : wellFormed msg.trajectory = true) (ax ay az : ℚ) (k : ℕ) (Vx Vy Vz : ℤ)
    (hN : 2 ≤ msg.trajectory.length) (hk : k ≤ 74)
    (hgrid : (msg.trajectory.length : ℤ) ^ 2 * (Vx ^ 2 + Vy ^ 2 + Vz ^ 2) < 16777216)
    (hline : ∀ j, j < msg.trajectory.length →
      xposAt env msg j = linePoint ax ay az (Vx / 2 ^ k) (Vy / 2 ^ k) (Vz / 2 ^ k) j)
    (style : LineStyle) :
    ∃ s, ({ self with base_style_property_ := style }).processBaseTrajectory env = some s ∧
      s.base_axes_.length =
        2 + gateCount ((Vx / 2 ^ k) * (Vx / 2 ^ k) + (Vy / 2 ^ k) * (Vy / 2 ^ k) +
            (Vz / 2 ^ k) * (Vz / 2 ^ k))
          ((self.base_scale_property_.fmul self.base_scale_property_).dmul gateFactor)
          (msg.trajectory.length - 2) 0 ∧
      (self.base_scale_property_ = Dbl.fin 1 →
        (7378697629483821 / 2305843009213693952 : ℚ) ≤
          (Vx / 2 ^ k) * (Vx / 2 ^ k) + (Vy / 2 ^ k) * (Vy / 2 ^ k) +
            (Vz / 2 ^ k) * (Vz / 2 ^ k) →
        s.base_axes_.length = msg.trajectory.length) := by
  obtain ⟨s, hrun, hlen⟩ := base_axes_uniform env self msg hmsg hwf ax ay az k Vx Vy Vz hN hk
    hgrid hline style
  refine ⟨s, hrun, hlen, ?_⟩
  intro hsc hd2
  rw [hlen, gateThreshold_unit self 1 hsc (by norm_num),
    gateCount_all _ _ (by rw [Dbl.ge_fin]; exact decide_eq_true hd2)]
  omega

/-- Witness for C9: four steps spaced 0.125 along x with axes scale 1 get four
annotations. -/
theorem C9_uniform_line_annotation_count_witness :
    (displayOf eighthTrajectory LineStyle.LINES LineStyle.LINES).msg_ = some eighthTrajectory ∧
      wellFormed eighthTrajectory.trajectory = true ∧
      2 ≤ eighthTrajectory.trajectory.length ∧
      (3 : ℕ) ≤ 74 ∧
      ((eighthTrajectory.trajectory.length : ℤ) ^ 2 * ((1 : ℤ) ^ 2 + (0 : ℤ) ^ 2 + (0 : ℤ) ^ 2)
        < 16777216) ∧
      (∀ j, j < eighthTrajectory.trajectory.length →
        xposAt exampleEnv eighthTrajectory j =
          linePoint 1 0 0 ((1 : ℤ) / 2 ^ 3) ((0 : ℤ) / 2 ^ 3) ((0 : ℤ) / 2 ^ 3) j) ∧
      ∃ s, ({ displayOf eighthTrajectory LineStyle.LINES LineStyle.LINES with
            base_style_property_ := LineStyle.BILLBOARDS }).processBaseTrajectory exampleEnv
          = some s ∧
        s.base_axes_.length = eighthTrajectory.trajectory.length := by
  have hgrid : (eighthTrajectory.trajectory.length : ℤ) ^ 2 *
      ((1 : ℤ) ^ 2 + (0 : ℤ) ^ 2 + (0 : ℤ) ^ 2) < 16777216 := by
    rw [show eighthTrajectory.trajectory.length = 4 from rfl]
    norm_num
  obtain ⟨s, hrun, _, hall⟩ := C9_uniform_line_annotation_count exampleEnv
    (displayOf eighthTrajectory LineStyle.LINES LineStyle.LINES) eighthTrajectory rfl rfl
    1 0 0 3 1 0 0 (by decide) (by norm_num) hgrid eighthTrajectory_line LineStyle.BILLBOARDS
  exact ⟨rfl, rfl, by decide, by norm_num, hgrid, eighthTrajectory_line, s, hrun,
    hall rfl (by norm_num)⟩

/-! ## Further properties of DisplayInterface -/

/-- C16, the failing input: for a TEXT request the emitted marker has green, blue and alpha
of the request but red 0, the value of a new marker, whatever the red of the request. -/
theorem C16_text_marker_red_not_copied (time : Time) (d : DisplayData) :
    (DisplayInterface.buildMarkers time [{ d with type := DisplayType.TEXT }]).map
        (fun m => (m.color.r, m.color.g, m.color.b, m.color.a)) =
      [(0, d.color.g, d.color.b, d.color.a)] := by
  simp [DisplayInterface.buildMarkers, DisplayInterface.publishLoop,
    DisplayInterface.publishStep, Marker.fresh]

/-- C17: a draw call whose scale and assigned end points/position are all finite appends
exactly its request at the end of `display_stack_`, the earlier entries staying as they
were; the request of `drawLine` has type LINE, the two given end points, scale (width, 0, 0)
and the given colour and frame. -/
theorem C17_finite_request_appended (dcm : Quaternion → Matrix3) (self : DisplayInterface)
    (data0 : DisplayData) (c : DrawCall) (h : c.geometryFinite dcm data0 = true) :
    (c.run dcm self data0).display_stack_ = self.display_stack_ ++ [c.request dcm data0] ∧
      ∀ (p q : Vector3) (w : Dbl) (col : Color) (f : String),
        c = DrawCall.line p q w col f →
          (c.request dcm data0).type = DisplayType.LINE ∧
          (c.request dcm data0).p1 = p ∧ (c.request dcm data0).p2 = q ∧
          (c.request dcm data0).scale = ⟨w, 0, 0⟩ ∧
          (c.request dcm data0).color = col ∧ (c.request dcm data0).frame = f := by
  constructor
  · cases c <;>
      simp only [DrawCall.geometryFinite, DrawCall.request, DrawCall.setsP2, Bool.not_true,
        Bool.not_false, Bool.false_or, Bool.true_or, Bool.and_true] at h <;>
      simp [DrawCall.run, DrawCall.request, DisplayInterface.drawLine,
        DisplayInterface.drawSphere, DisplayInterface.drawArrow, DisplayInterface.drawCone,
        DisplayInterface.drawText, DisplayInterface.finite3, DisplayInterface.finite2,
        DisplayInterface.push, h]
  · intro p q w col f hc
    subst hc
    simp [DrawCall.request, DisplayInterface.lineData]

/-- Witness for C17: `drawLine` between (0, 0, 0) and (1, 0, 0) of width 1 on a stack of one
request. -/
theorem C17_finite_request_appended_witness :
    (DrawCall.line ⟨0, 0, 0⟩ ⟨1, 0, 0⟩ 1 ⟨0, 0, 0, 1⟩ "world").geometryFinite unitDcm default
        = true ∧
      ((DrawCall.line ⟨0, 0, 0⟩ ⟨1, 0, 0⟩ 1 ⟨0, 0, 0, 1⟩ "world").run unitDcm
          ⟨[default], []⟩ default).display_stack_ =
        [default] ++ [(DrawCall.line ⟨0, 0, 0⟩ ⟨1, 0, 0⟩ 1 ⟨0, 0, 0, 1⟩ "world").request
          unitDcm default] :=
  ⟨rfl, (C17_finite_request_appended unitDcm ⟨[default], []⟩ default
    (DrawCall.line ⟨0, 0, 0⟩ ⟨1, 0, 0⟩ 1 ⟨0, 0, 0, 1⟩ "world") rfl).1⟩

/-! ## Base style changes -/

theorem updateBaseStyle_lines (env : Env) (self : WholeBodyTrajectoryDisplay)
    (msg : WholeBodyTrajectory) (hinfo : self.is_info_ = true) (hmsg : self.msg_ = some msg)
    (hstyle : self.base_style_property_ = LineStyle.LINES)
    (hwf : wellFormed msg.trajectory = true) :
    self.updateBaseStyle env =
      some { self with
        base_billboard_line_ := none
        base_points_ := []
        base_manual_object_ := some
          { dynamic := true, vertexEstimate := msg.trajectory.length, begun := true
            vertices := msg.trajectory.map (fun state =>
              ⟨stepXpos (worldTransform env msg) (numBase msg.trajectory) state,
                baseColor self⟩)
            ended := true }
        base_axes_ := (baseCursor env self msg).base_axes_
        last_point_position_ := (baseCursor env self msg).last_point_position_ } := by
  cases self
  simp only at hinfo hmsg hstyle
  subst hinfo hmsg hstyle
  simp only [WholeBodyTrajectoryDisplay.updateBaseStyle, if_true]
  refine (processBase_lines env _ msg ?_ ?_ hwf).trans ?_ <;> rfl

theorem updateBaseStyle_billboards (env : Env) (self : WholeBodyTrajectoryDisplay)
    (msg : WholeBodyTrajectory) (hinfo : self.is_info_ = true) (hmsg : self.msg_ = some msg)
    (hstyle : self.base_style_property_ = LineStyle.BILLBOARDS)
    (hwf : wellFormed msg.trajectory = true) :
    self.updateBaseStyle env =
      some { self with
        base_manual_object_ := none
        base_points_ := []
        base_billboard_line_ := some
          { numLines := 1, maxPointsPerLine := msg.trajectory.length
            lineWidth := self.base_line_width_property_
            points := msg.trajectory.map (fun state =>
              ⟨stepXpos (worldTransform env msg) (numBase msg.trajectory) state,
                baseColor self⟩) }
        base_axes_ := (baseCursor env self msg).base_axes_
        last_point_position_ := (baseCursor env self msg).last_point_position_ } := by
  cases self
  simp only at hinfo hmsg hstyle
  subst hinfo hmsg hstyle
  simp only [WholeBodyTrajectoryDisplay.updateBaseStyle, if_true]
  refine (processBase_billboards env _ msg ?_ ?_ hwf).trans ?_ <;> rfl

theorem updateBaseStyle_points (env : Env) (self : WholeBodyTrajectoryDisplay)
    (msg : WholeBodyTrajectory) (hinfo : self.is_info_ = true) (hmsg : self.msg_ = some msg)
    (hstyle : self.base_style_property_ = LineStyle.POINTS)
    (hwf : wellFormed msg.trajectory = true) :
    self.updateBaseStyle env =
      some { self with
        base_manual_object_ := none
        base_billboard_line_ := none
        base_points_ := msg.trajectory.map (fun state =>
          { color := baseColor self, radius := self.base_line_width_property_
            point := sanitize (assembledPos (numBase msg.trajectory) state)
            framePosition := (env.getTransform msg.header).1
            frameOrientation := (env.getTransform msg.header).2 })
        base_axes_ := (baseCursor env self msg).base_axes_
        last_point_position_ := (baseCursor env self msg).last_point_position_ } := by
  cases self
  simp only at hinfo hmsg hstyle
  subst hinfo hmsg hstyle
  simp only [WholeBodyTrajectoryDisplay.updateBaseStyle, if_true]
  refine (processBase_points env _ msg ?_ ?_ hwf).trans ?_ <;> rfl

/-- C12: with a trajectory loaded, take the Lines pass, switch the base style to Billboards
and back to Lines (`updateBaseStyle` twice): every step returns, the manual object is gone in
between, and the final manual object is the one of the original Lines pass, vertex for
vertex. -/
theorem C12_lines_billboards_lines (env : Env) (self : WholeBodyTrajectoryDisplay)
    (msg : WholeBodyTrajectory) (hinfo : self.is_info_ = true) (hmsg : self.msg_ = some msg)
    (hwf : wellFormed msg.trajectory = true) :
    ∃ s1 s2 s3 mo,
      ({ self with base_style_property_ := LineStyle.LINES }).processBaseTrajectory env
        = some s1 ∧
      ({ s1 with base_style_property_ := LineStyle.BILLBOARDS }).updateBaseStyle env
        = some s2 ∧
      ({ s2 with base_style_property_ := LineStyle.LINES }).updateBaseStyle env = some s3 ∧
      s1.base_manual_object_ = some mo ∧ s2.base_manual_object_ = none ∧
      s3.base_manual_object_ = some mo ∧
      mo.vertices.map (fun v => v.position) =
        msg.trajectory.map (stepXpos (worldTransform env msg) (numBase msg.trajectory)) := by
  refine ⟨_, _, _, _,
    processBase_lines env { self with base_style_property_ := LineStyle.LINES } msg hmsg rfl
      hwf,
    updateBaseStyle_billboards env _ msg hinfo hmsg rfl hwf,
    updateBaseStyle_lines env _ msg hinfo hmsg rfl hwf, rfl, rfl, rfl, ?_⟩
  simp [Function.comp_def]

/-- Witness for C12: the five-step trajectory. -/
theorem C12_lines_billboards_lines_witness :
    (displayOf nanStepTrajectory LineStyle.LINES LineStyle.LINES).is_info_ = true ∧
      (displayOf nanStepTrajectory LineStyle.LINES LineStyle.LINES).msg_
        = some nanStepTrajectory ∧
      wellFormed nanStepTrajectory.trajectory = true ∧
      ∃ s1 s2 s3 mo,
        ({ displayOf nanStepTrajectory LineStyle.LINES LineStyle.LINES with
            base_style_property_ := LineStyle.LINES }).processBaseTrajectory exampleEnv
          = some s1 ∧
        ({ s1 with base_style_property_ := LineStyle.BILLBOARDS }).updateBaseStyle exampleEnv
          = some s2 ∧
        ({ s2 with base_style_property_ := LineStyle.LINES }).updateBaseStyle exampleEnv
          = some s3 ∧
        s1.base_manual_object_ = some mo ∧ s2.base_manual_object_ = none ∧
        s3.base_manual_object_ = some mo ∧
        mo.vertices.map (fun v => v.position) =
          nanStepTrajectory.trajectory.map
            (stepXpos (worldTransform exampleEnv nanStepTrajectory)
              (numBase nanStepTrajectory.trajectory)) :=
  ⟨rfl, rfl, rfl, C12_lines_billboards_lines exampleEnv
    (displayOf nanStepTrajectory LineStyle.LINES LineStyle.LINES) nanStepTrajectory rfl rfl rfl⟩

/-- C13: the points added to the base billboard line in Billboards style are, element by
element and in the same order, the vertices written to the base manual object in Lines
style: one per step, at the step's transformed position, in the base colour. -/
theorem C13_billboard_points_eq_line_vertices (env : Env) (self : WholeBodyTrajectoryDisplay)
    (msg : WholeBodyTrajectory) (hmsg : self.msg_ = some msg)
    (hwf : wellFormed msg.trajectory = true) :
    ∃ sl sb mo bl,
      ({ self with base_style_property_ := LineStyle.LINES }).processBaseTrajectory env
        = some sl ∧
      ({ self with base_style_property_ := LineStyle.BILLBOARDS }).processBaseTrajectory env
        = some sb ∧
      sl.base_manual_object_ = some mo ∧ sb.base_billboard_line_ = some bl ∧
      bl.points = mo.vertices ∧ mo.vertices.length = msg.trajectory.length := by
  refine ⟨_, _, _, _,
    processBase_lines env { self with base_style_property_ := LineStyle.LINES } msg hmsg rfl
      hwf,
    processBase_billboards env { self with base_style_property_ := LineStyle.BILLBOARDS } msg
      hmsg rfl hwf, rfl, rfl, rfl, ?_⟩
  simp

/-- Witness for C13: the five-step trajectory. -/
theorem C13_billboard_points_eq_line_vertices_witness :
    (displayOf nanStepTrajectory LineStyle.POINTS LineStyle.POINTS).msg_
        = some nanStepTrajectory ∧
      wellFormed nanStepTrajectory.trajectory = true ∧
      ∃ sl sb mo bl,
        ({ displayOf nanStepTrajectory LineStyle.POINTS LineStyle.POINTS with
            base_style_property_ := LineStyle.LINES }).processBaseTrajectory exampleEnv
          = some sl ∧
        ({ displayOf nanStepTrajectory LineStyle.POINTS LineStyle.POINTS with
            base_style_property_ := LineStyle.BILLBOARDS }).processBaseTrajectory exampleEnv
          = some sb ∧
        sl.base_manual_object_ = some mo ∧ sb.base_billboard_line_ = some bl ∧
        bl.points = mo.vertices ∧ mo.vertices.length = nanStepTrajectory.trajectory.length :=
  ⟨rfl, rfl, C13_billboard_points_eq_line_vertices exampleEnv
    (displayOf nanStepTrajectory LineStyle.POINTS LineStyle.POINTS) nanStepTrajectory rfl rfl⟩

/-- C18: with a trajectory loaded, whatever the display held before, `updateBaseStyle`
returns for each newly selected style with the object of that style alone: under Lines a
manual object of N vertices, no billboard line and no point marker; under Billboards a
billboard line of N points, no manual object and no point marker; under Points N point
markers, no manual object and no billboard line. -/
theorem C18_base_style_objects (env : Env) (self : WholeBodyTrajectoryDisplay)
    (msg : WholeBodyTrajectory) (hinfo : self.is_info_ = true) (hmsg : self.msg_ = some msg)
    (hwf : wellFormed msg.trajectory = true) :
    (∃ s mo, ({ self with base_style_property_ := LineStyle.LINES }).updateBaseStyle env
        = some s ∧
      s.base_manual_object_ = some mo ∧ mo.vertices.length = msg.trajectory.length ∧
      s.base_billboard_line_ = none ∧ s.base_points_ = []) ∧
    (∃ s bl, ({ self with base_style_property_ := LineStyle.BILLBOARDS }).updateBaseStyle env
        = some s ∧
      s.base_billboard_line_ = some bl ∧ bl.points.length = msg.trajectory.length ∧
      s.base_manual_object_ = none ∧ s.base_points_ = []) ∧
    (∃ s, ({ self with base_style_property_ := LineStyle.POINTS }).updateBaseStyle env
        = some s ∧
      s.base_points_.length = msg.trajectory.length ∧
      s.base_manual_object_ = none ∧ s.base_billboard_line_ = none) := by
  refine ⟨⟨_, _, updateBaseStyle_lines env _ msg hinfo hmsg rfl hwf, rfl, ?_, rfl, rfl⟩,
    ⟨_, _, updateBaseStyle_billboards env _ msg hinfo hmsg rfl hwf, rfl, ?_, rfl, rfl⟩,
    ⟨_, updateBaseStyle_points env _ msg hinfo hmsg rfl hwf, ?_, rfl, rfl⟩⟩ <;> simp

/-- Witness for C18: a display that holds all three kinds of base object before the change. -/
theorem C18_base_style_objects_witness :
    ({ displayOf nanStepTrajectory LineStyle.POINTS LineStyle.POINTS with
        base_manual_object_ := some ManualObject.create
        base_billboard_line_ := some (BillboardLine.create 1 1)
        base_points_ := [default] }).is_info_ = true ∧
      ({ displayOf nanStepTrajectory LineStyle.POINTS LineStyle.POINTS with
        base_manual_object_ := some ManualObject.create
        base_billboard_line_ := some (BillboardLine.create 1 1)
        base_points_ := [default] }).msg_ = some nanStepTrajectory ∧
      wellFormed nanStepTrajectory.trajectory = true ∧
      ∃ s mo, ({ ({ displayOf nanStepTrajectory LineStyle.POINTS LineStyle.POINTS with
          base_manual_object_ := some ManualObject.create
          base_billboard_line_ := some (BillboardLine.create 1 1)
          base_points_ := [default] } : WholeBodyTrajectoryDisplay) with
          base_style_property_ := LineStyle.LINES }).updateBaseStyle exampleEnv = some s ∧
        s.base_manual_object_ = some mo ∧
        mo.vertices.length = nanStepTrajectory.trajectory.length ∧
        s.base_billboard_line_ = none ∧ s.base_points_ = [] :=
  ⟨rfl, rfl, rfl, (C18_base_style_objects exampleEnv
    { displayOf nanStepTrajectory LineStyle.POINTS LineStyle.POINTS with
      base_manual_object_ := some ManualObject.create
      base_billboard_line_ := some (BillboardLine.create 1 1)
      base_points_ := [default] } nanStepTrajectory rfl rfl rfl).1⟩

/-! ## Assembly of the base pose -/

theorem assignBase_comm (z : Vector3 × Vector3) (x y : BaseState)
    (hx : isAxisTag x.id = true) (hy : isAxisTag y.id = true) (hne : x.id ≠ y.id) :
    assignBase (assignBase z x) y = assignBase (assignBase z y) x := by
  simp only [isAxisTag, Bool.or_eq_true, beq_iff_eq] at hx hy
  rcases hx with ((((hx | hx) | hx) | hx) | hx) | hx <;>
    rcases hy with ((((hy | hy) | hy) | hy) | hy) | hy <;>
    first
    | exact absurd (hx.trans hy.symm) hne
    | simp [assignBase, hx, hy, AX, AY, AZ, LX, LY, LZ]

theorem assignBase_foldl_perm (base base' : List BaseState) (init : Vector3 × Vector3)
    (hperm : base.Perm base') (htags : base.all (fun b => isAxisTag b.id) = true)
    (hdistinct : (base.map (fun b => b.id)).Nodup) :
    base.foldl assignBase init = base'.foldl assignBase init := by
  apply List.Perm.foldl_eq' hperm
  intro x hx y hy z
  by_cases hxy : x.id = y.id
  · have : x = y := List.inj_on_of_nodup_map hdistinct hx hy hxy
    rw [this]
  · simp only [List.all_eq_true] at htags
    exact assignBase_comm z x y (htags x hx) (htags y hy) hxy

theorem assignBase_selected (z : Vector3 × Vector3) (b : BaseState) :
    (b.id = LX → (assignBase z b).1.x = b.position.toFloat) ∧
      (b.id = LY → (assignBase z b).1.y = b.position.toFloat) ∧
      (b.id = LZ → (assignBase z b).1.z = b.position.toFloat) ∧
      (b.id = AX → (assignBase z b).2.x = b.position) ∧
      (b.id = AY → (assignBase z b).2.y = b.position) ∧
      (b.id = AZ → (assignBase z b).2.z = b.position) := by
  refine ⟨?_, ?_, ?_, ?_, ?_, ?_⟩ <;> intro h <;>
    simp [assignBase, h, AX, AY, AZ, LX, LY, LZ]

theorem assembled_selected_by_tag (base : List BaseState) (init : Vector3 × Vector3)
    (htags : base.all (fun b => isAxisTag b.id) = true)
    (hdistinct : (base.map (fun b => b.id)).Nodup) (b : BaseState) (hb : b ∈ base) :
    (b.id = LX → (base.foldl assignBase init).1.x = b.position.toFloat) ∧
      (b.id = LY → (base.foldl assignBase init).1.y = b.position.toFloat) ∧
      (b.id = LZ → (base.foldl assignBase init).1.z = b.position.toFloat) ∧
      (b.id = AX → (base.foldl assignBase init).2.x = b.position) ∧
      (b.id = AY → (base.foldl assignBase init).2.y = b.position) ∧
      (b.id = AZ → (base.foldl assignBase init).2.z = b.position) := by
  have hperm : base.Perm (base.erase b ++ [b]) :=
    (List.perm_cons_erase hb).trans (List.perm_append_singleton b (base.erase b)).symm
  rw [assignBase_foldl_perm base _ init hperm htags hdistinct, List.foldl_append]
  exact assignBase_selected _ b

/-- C19, as stated, fails for a step with more base entries than the first step: the loop
reads the first `num_base` entries only, so a reordering changes which entries are read.  In
the two-step trajectory whose first step has the three translation entries, the second step
carries six pairwise distinct axis tags; with its entries in the order LX, LY, LZ, AX, AY, AZ
the pose assembled at `num_base = 3` is position (1, 2, 3) with zero angles, with the same
entries reversed it is position (0, 0, 0) with angles (4, 5, 6). -/
theorem C19_reordering_changes_pose :
    wellFormed raggedTrajectory.trajectory = true ∧
      numBase raggedTrajectory.trajectory = 3 ∧
      raggedTrajectory.trajectory.map (fun state => state.base.length) = [3, 6] ∧
      (raggedTrajectory.trajectory.getD 1 default).base = tiltedBase ∧
      (tiltedBase.map (fun b => b.id)).Nodup ∧
      tiltedBase.all (fun b => isAxisTag b.id) = true ∧
      tiltedBase.reverse.Perm tiltedBase ∧
      assembleBase 3 tiltedBase ⟨0, 0, 0⟩ ⟨0, 0, 0⟩ = some (⟨1, 2, 3⟩, ⟨0, 0, 0⟩) ∧
      assembleBase 3 tiltedBase.reverse ⟨0, 0, 0⟩ ⟨0, 0, 0⟩ = some (⟨0, 0, 0⟩, ⟨4, 5, 6⟩) := by
  refine ⟨rfl, rfl, rfl, rfl, by decide, by decide, List.reverse_perm tiltedBase, ?_, ?_⟩
  · simp [assembleBase, tiltedBase, assignBase, AX, AY, AZ, LX, LY, LZ]
  · simp [assembleBase, tiltedBase, assignBase, AX, AY, AZ, LX, LY, LZ]

/-- C19, amended: for a step that has exactly the `num_base` entries that are read, as many
as the first step, with pairwise distinct tags among the six axis tags, the assembly returns,
gives the same position and roll-pitch-yaw for every reordering of the entries, and each
component is the value of the entry that bears its tag (narrowed to `float` for the
translation); this holds for the start values of the base pass and of the contact pass
alike. -/
theorem C19_assembly_order_independent (num_base : Nat) (base base' : List BaseState)
    (pos rpy : Vector3) (hperm : base.Perm base') (hlen : base.length = num_base)
    (htags : base.all (fun b => isAxisTag b.id) = true)
    (hdistinct : (base.map (fun b => b.id)).Nodup) :
    ∃ r, assembleBase num_base base pos rpy = some r ∧
      assembleBase num_base base' pos rpy = some r ∧
      ∀ b ∈ base,
        (b.id = LX → r.1.x = b.position.toFloat) ∧ (b.id = LY → r.1.y = b.position.toFloat) ∧
        (b.id = LZ → r.1.z = b.position.toFloat) ∧ (b.id = AX → r.2.x = b.position) ∧
        (b.id = AY → r.2.y = b.position) ∧ (b.id = AZ → r.2.z = b.position) := by
  have hlen' : base'.length = num_base := by rw [← hperm.length_eq, hlen]
  refine ⟨base.foldl assignBase (pos, rpy), ?_, ?_, ?_⟩
  · rw [assembleBase_ok num_base base pos rpy (by omega), ← hlen, List.take_length]
  · rw [assembleBase_ok num_base base' pos rpy (by omega), ← hlen', List.take_length,
      assignBase_foldl_perm base base' (pos, rpy) hperm htags hdistinct]
  · intro b hb
    exact assembled_selected_by_tag base (pos, rpy) htags hdistinct b hb

/-- Witness for C19: six entries tagged LX, LY, LZ, AX, AY, AZ and the same entries in
reverse order. -/
theorem C19_assembly_order_independent_witness :
    tiltedBase.reverse.Perm tiltedBase ∧ tiltedBase.reverse.length = 6 ∧
      tiltedBase.reverse.all (fun b => isAxisTag b.id) = true ∧
      (tiltedBase.reverse.map (fun b => b.id)).Nodup ∧
      ∃ r, assembleBase 6 tiltedBase.reverse ⟨0, 0, 0⟩ ⟨0, 0, 0⟩ = some r ∧
        assembleBase 6 tiltedBase ⟨0, 0, 0⟩ ⟨0, 0, 0⟩ = some r ∧
        ∀ b ∈ tiltedBase.reverse,
          (b.id = LX → r.1.x = b.position.toFloat) ∧ (b.id = LY → r.1.y = b.position.toFloat) ∧
          (b.id = LZ → r.1.z = b.position.toFloat) ∧ (b.id = AX → r.2.x = b.position) ∧
          (b.id = AY → r.2.y = b.position) ∧ (b.id = AZ → r.2.z = b.position) :=
  ⟨List.reverse_perm tiltedBase, rfl, by decide, by decide,
    C19_assembly_order_independent 6 tiltedBase.reverse tiltedBase ⟨0, 0, 0⟩ ⟨0, 0, 0⟩
      (List.reverse_perm tiltedBase) rfl (by decide) (by decide)⟩

/-! ## Trajectories without base entries or without contacts -/

theorem wellFormed_of_bare (trajectory : List WholeBodyState) (hne : trajectory ≠ [])
    (hbare : ∀ state ∈ trajectory, state.base = []) :
    wellFormed trajectory = true ∧ numBase trajectory = 0 := by
  cases trajectory with
  | nil => exact absurd rfl hne
  | cons first rest =>
    have hfirst : first.base = [] := hbare first (List.mem_cons_self _ _)
    constructor
    · simp only [wellFormed, List.all_eq_true, decide_eq_true_eq]
      intro state _
      rw [hfirst]
      exact Nat.zero_le _
    · simp [numBase, hfirst]

theorem stepXpos_zero_base (tf : Matrix4) (state : WholeBodyState) :
    stepXpos tf 0 state = tf.mulVec ⟨0, 0, 0⟩ := by
  simp [stepXpos, assembledPos, sanitize]

theorem baseCursor_axes_pos (env : Env) (self : WholeBodyTrajectoryDisplay)
    (msg : WholeBodyTrajectory) (hne : msg.trajectory ≠ []) :
    1 ≤ (baseCursor env self msg).base_axes_.length := by
  rw [baseCursor_axes, List.length_map]
  cases htraj : msg.trajectory with
  | nil => exact absurd htraj hne
  | cons first rest =>
    rw [List.map_cons, annotatedFrom_cons, if_pos (Or.inl rfl), List.length_cons]
    omega

/-- C15, as stated, fails.  For a trajectory with no steps both passes read `trajectory[0]`
out of range (the embedding returns `none`).  For a one-step trajectory without base entries
both passes complete and draw: the base manual object gets one vertex, one axis annotation is
created and the contact gets its manual object. -/
theorem C15_not_a_noop :
    (displayOf emptyTrajectory LineStyle.LINES LineStyle.LINES).processBaseTrajectory
        exampleEnv = none ∧
      (displayOf emptyTrajectory LineStyle.LINES LineStyle.LINES).processContactTrajectory
        exampleEnv = none ∧
      ((displayOf bareTrajectory LineStyle.LINES LineStyle.LINES).processBaseTrajectory
          exampleEnv).map
        (fun s => (s.base_manual_object_.map (fun o => o.vertices.length), s.base_axes_.length))
        = some (some 1, 1) ∧
      ((displayOf bareTrajectory LineStyle.LINES LineStyle.LINES).processContactTrajectory
          exampleEnv).map
        (fun s => s.contact_manual_object_.map (Option.map (fun o => o.vertices.length)))
        = some [some 1] :=
  ⟨rfl, rfl, rfl, rfl⟩

/-- C15, amended: for a trajectory with at least one step whose steps have no base entries,
`processBaseTrajectory` completes in every style and produces one vertex (Lines), point
(Billboards) or marker (Points) per step, each at the world transform of (0, 0, 0) (the
marker: at (0, 0, 0) in its frame), with at least one axis annotation; and
`processContactTrajectory` completes in Lines and Billboards style with one object per
distinct contact name. -/
theorem C15_no_base_entries (env : Env) (self : WholeBodyTrajectoryDisplay)
    (msg : WholeBodyTrajectory) (hmsg : self.msg_ = some msg) (hne : msg.trajectory ≠ [])
    (hbare : ∀ state ∈ msg.trajectory, state.base = []) :
    (∃ s mo, ({ self with base_style_property_ := LineStyle.LINES }).processBaseTrajectory env
        = some s ∧ s.base_manual_object_ = some mo ∧
      mo.vertices.map (fun v => v.position) =
        msg.trajectory.map (fun _ => (worldTransform env msg).mulVec ⟨0, 0, 0⟩) ∧
      1 ≤ s.base_axes_.length) ∧
    (∃ s bl, ({ self with base_style_property_ :=
          LineStyle.BILLBOARDS }).processBaseTrajectory env = some s ∧
      s.base_billboard_line_ = some bl ∧
      bl.points.map (fun v => v.position) =
        msg.trajectory.map (fun _ => (worldTransform env msg).mulVec ⟨0, 0, 0⟩) ∧
      1 ≤ s.base_axes_.length) ∧
    (∃ s, ({ self with base_style_property_ := LineStyle.POINTS }).processBaseTrajectory env
        = some s ∧
      s.base_points_.map (fun p => p.point) = msg.trajectory.map (fun _ => ⟨0, 0, 0⟩) ∧
      1 ≤ s.base_axes_.length) ∧
    (∃ s, ({ self with contact_style_property_ := LineStyle.LINES }).processContactTrajectory
        env = some s ∧
      s.contact_manual_object_.length = (contactNames msg.trajectory).toFinset.card) ∧
    (∃ s, ({ self with contact_style_property_ :=
          LineStyle.BILLBOARDS }).processContactTrajectory env = some s ∧
      s.contact_billboard_line_.length = (contactNames msg.trajectory).toFinset.card) := by
  obtain ⟨hwf, hnb⟩ := wellFormed_of_bare msg.trajectory hne hbare
  have hcard : (prescan msg.trajectory).2 = (contactNames msg.trajectory).toFinset.card :=
    (prescan_scanInv msg.trajectory).1
  refine ⟨?_, ?_, ?_, ?_, ?_⟩
  · refine ⟨_, _, processBase_lines env { self with base_style_property_ := LineStyle.LINES }
      msg hmsg rfl hwf, rfl, ?_, baseCursor_axes_pos env _ msg hne⟩
    simp [hnb, stepXpos_zero_base, Function.comp_def]
  · refine ⟨_, _, processBase_billboards env
      { self with base_style_property_ := LineStyle.BILLBOARDS } msg hmsg rfl hwf, rfl, ?_,
      baseCursor_axes_pos env _ msg hne⟩
    simp [hnb, stepXpos_zero_base, Function.comp_def]
  · refine ⟨_, processBase_points env { self with base_style_property_ := LineStyle.POINTS }
      msg hmsg rfl hwf, ?_, baseCursor_axes_pos env _ msg hne⟩
    simp [hnb, assembledPos, sanitize, Function.comp_def]
  · obtain ⟨objs, hrun, hlen⟩ := contact_lines_total env
      { self with contact_style_property_ := LineStyle.LINES } msg hmsg rfl hwf
    exact ⟨_, hrun, by rw [← hcard, ← hlen]⟩
  · obtain ⟨objs, hrun, hlen⟩ := contact_billboards_total env
      { self with contact_style_property_ := LineStyle.BILLBOARDS } msg hmsg rfl hwf
    exact ⟨_, hrun, by rw [← hcard, ← hlen]⟩

/-- Witness for C15: one step without base entries. -/
theorem C15_no_base_entries_witness :
    (displayOf bareTrajectory LineStyle.LINES LineStyle.LINES).msg_ = some bareTrajectory ∧
      bareTrajectory.trajectory ≠ [] ∧
      (∀ state ∈ bareTrajectory.trajectory, state.base = []) ∧
      ∃ s mo, ({ displayOf bareTrajectory LineStyle.LINES LineStyle.LINES with
          base_style_property_ := LineStyle.LINES }).processBaseTrajectory exampleEnv
          = some s ∧ s.base_manual_object_ = some mo ∧
        mo.vertices.map (fun v => v.position) =
          bareTrajectory.trajectory.map
            (fun _ => (worldTransform exampleEnv bareTrajectory).mulVec ⟨0, 0, 0⟩) ∧
        1 ≤ s.base_axes_.length :=
  ⟨rfl, by decide, by decide,
    (C15_no_base_entries exampleEnv (displayOf bareTrajectory LineStyle.LINES LineStyle.LINES)
      bareTrajectory rfl (by decide) (by decide)).1⟩

theorem allContacts_nil (trajectory : List WholeBodyState)
    (h : ∀ state ∈ trajectory, state.contacts = []) : allContacts trajectory = [] := by
  induction trajectory with
  | nil => rfl
  | cons state rest ih =>
    simp only [allContacts, h state (List.mem_cons_self _ _), List.nil_append]
    exact ih (fun s hs => h s (List.mem_cons_of_mem _ hs))

theorem prescan_no_contacts (trajectory : List WholeBodyState)
    (h : ∀ state ∈ trajectory, state.contacts = []) : prescan trajectory = ([], 0) := by
  rw [prescan_eq, allContacts_nil trajectory h]
  rfl

theorem set_nil_of_all_nil {α : Type} (rows : List (List α)) (i : Nat)
    (h : ∀ r ∈ rows, r = []) : rows.set i [] = rows := by
  induction rows generalizing i with
  | nil => rfl
  | cons r rest ih =>
    cases i with
    | zero => simp [h r (List.mem_cons_self _ _)]
    | succ k =>
      simp only [List.set_cons_succ]
      rw [ih k (fun r' hr => h r' (List.mem_cons_of_mem _ hr))]

theorem pointsLoop_no_contacts (visual : Vector3 → PointVisual) (env : Env) (num_base : Nat)
    (steps : List WholeBodyState) :
    ∀ (i : Nat) (rows : List (List (Option PointVisual))),
      (∀ state ∈ steps, state.contacts = []) →
      (∀ state ∈ steps, num_base ≤ state.base.length) →
      i + steps.length ≤ rows.length → (∀ r ∈ rows, r = []) →
      pointsLoop visual env num_base i steps SlotIds.start rows = some (SlotIds.start, rows) := by
  induction steps with
  | nil => intro i rows _ _ _ _; rfl
  | cons state rest ih =>
    intro i rows hnc hbase hlen hrows
    have hc : state.contacts = [] := hnc state (List.mem_cons_self _ _)
    have hb := assembleBase_ok num_base state.base ⟨0, 0, 0⟩ (env.base_rpy_init i)
      (hbase state (List.mem_cons_self _ _))
    have hi : i < rows.length := by simp only [List.length_cons] at hlen; omega
    simp only [pointsLoop, hc, pointsInner, hi, if_true, contactBase, hb, SlotIds.start,
      pointsEmit, List.length_nil, List.replicate_zero]
    rw [set_nil_of_all_nil rows i hrows]
    exact ih (i + 1) rows (fun s hs => hnc s (List.mem_cons_of_mem _ hs))
      (fun s hs => hbase s (List.mem_cons_of_mem _ hs))
      (by simp only [List.length_cons] at hlen; omega) hrows

theorem contact_points_no_contacts (env : Env) (self : WholeBodyTrajectoryDisplay)
    (msg : WholeBodyTrajectory) (hmsg : self.msg_ = some msg)
    (hstyle : self.contact_style_property_ = LineStyle.POINTS)
    (hwf : wellFormed msg.trajectory = true)
    (hnc : ∀ state ∈ msg.trajectory, state.contacts = []) :
    self.processContactTrajectory env =
      some { self with contact_points_ := List.replicate msg.trajectory.length [] } := by
  obtain ⟨first, rest, htraj, hbase⟩ := wellFormed_cons msg.trajectory hwf
  have hloop := pointsLoop_no_contacts
    (fun xpos =>
      { color := ⟨self.contact_color_property_.r, self.contact_color_property_.g,
          self.contact_color_property_.b, self.contact_alpha_property_⟩
        radius := self.contact_line_width_property_, point := xpos
        framePosition := (env.getTransform msg.header).1
        frameOrientation := (env.getTransform msg.header).2 })
    env first.base.length msg.trajectory 0 (List.replicate msg.trajectory.length []) hnc hbase
    (by simp) (by intro r hr; exact (List.mem_replicate.mp hr).2)
  unfold WholeBodyTrajectoryDisplay.processContactTrajectory
  simp only [hmsg, hstyle]
  rw [htraj] at hloop ⊢
  simp only [hloop]

theorem length_zero_nil {α : Type} (l : List α) (h : l.length = 0) : l = [] :=
  List.length_eq_zero.mp h

theorem contact_no_contacts (env : Env) (self : WholeBodyTrajectoryDisplay)
    (msg : WholeBodyTrajectory) (hmsg : self.msg_ = some msg)
    (hwf : wellFormed msg.trajectory = true)
    (hnc : ∀ state ∈ msg.trajectory, state.contacts = [])
    (h1 : self.contact_manual_object_ = []) (h2 : self.contact_billboard_line_ = [])
    (h3 : ∀ row ∈ self.contact_points_, row = []) :
    ∃ s, self.processContactTrajectory env = some s ∧
      s.contact_manual_object_ = [] ∧ s.contact_billboard_line_ = [] ∧
      (∀ row ∈ s.contact_points_, row = []) ∧
      s.base_manual_object_ = self.base_manual_object_ ∧
      s.base_billboard_line_ = self.base_billboard_line_ ∧
      s.base_points_ = self.base_points_ ∧ s.base_axes_ = self.base_axes_ := by
  have hzero : (prescan msg.trajectory).2 = 0 := by rw [prescan_no_contacts _ hnc]
  cases hstyle : self.contact_style_property_ with
  | LINES =>
    obtain ⟨objs, hrun, hlen⟩ := contact_lines_total env self msg hmsg hstyle hwf
    rw [hzero] at hlen
    exact ⟨_, hrun, length_zero_nil objs hlen, h2, h3, rfl, rfl, rfl, rfl⟩
  | BILLBOARDS =>
    obtain ⟨objs, hrun, hlen⟩ := contact_billboards_total env self msg hmsg hstyle hwf
    rw [hzero] at hlen
    exact ⟨_, hrun, h1, length_zero_nil objs hlen, h3, rfl, rfl, rfl, rfl⟩
  | POINTS =>
    refine ⟨_, contact_points_no_contacts env self msg hmsg hstyle hwf hnc, h1, h2, ?_, rfl,
      rfl, rfl, rfl⟩
    intro row hrow
    exact (List.mem_replicate.mp hrow).2

theorem processBase_frame (env : Env) (self : WholeBodyTrajectoryDisplay)
    (msg : WholeBodyTrajectory) (hmsg : self.msg_ = some msg)
    (hwf : wellFormed msg.trajectory = true) :
    ∃ s, self.processBaseTrajectory env = some s ∧ s.msg_ = self.msg_ ∧
      s.contact_manual_object_ = self.contact_manual_object_ ∧
      s.contact_billboard_line_ = self.contact_billboard_line_ ∧
      s.contact_points_ = self.contact_points_ ∧
      (self.base_style_property_ = LineStyle.LINES →
        ∃ mo, s.base_manual_object_ = some mo ∧
          mo.vertices.length = msg.trajectory.length) ∧
      (self.base_style_property_ = LineStyle.BILLBOARDS →
        ∃ bl, s.base_billboard_line_ = some bl ∧
          bl.points.length = msg.trajectory.length) ∧
      (self.base_style_property_ = LineStyle.POINTS →
        s.base_points_.length = msg.trajectory.length) := by
  cases hstyle : self.base_style_property_ with
  | LINES =>
    exact ⟨_, processBase_lines env self msg hmsg hstyle hwf, rfl, rfl, rfl, rfl,
      fun _ => ⟨_, rfl, by simp⟩, (fun h => by cases h), (fun h => by cases h)⟩
  | BILLBOARDS =>
    exact ⟨_, processBase_billboards env self msg hmsg hstyle hwf, rfl, rfl, rfl, rfl,
      (fun h => by cases h), fun _ => ⟨_, rfl, by simp⟩, (fun h => by cases h)⟩
  | POINTS =>
    exact ⟨_, processBase_points env self msg hmsg hstyle hwf, rfl, rfl, rfl, rfl,
      (fun h => by cases h), (fun h => by cases h), (fun _ => by simp)⟩

/-- C14: for a non-empty trajectory none of whose steps has a contact, `processMessage`
returns, whatever the display held and whatever the two styles; the pre-scan counts zero
slots, no contact manual object, billboard line or point marker exists afterwards, and the
base geometry of the selected base style has one vertex, point or marker per step. -/
theorem C14_no_contacts_no_contact_geometry (env : Env) (self : WholeBodyTrajectoryDisplay)
    (msg : WholeBodyTrajectory) (hwf : wellFormed msg.trajectory = true)
    (hnc : ∀ state ∈ msg.trajectory, state.contacts = []) :
    (prescan msg.trajectory).2 = 0 ∧
    ∃ s, self.processMessage env msg = some s ∧
      s.contact_manual_object_ = [] ∧ s.contact_billboard_line_ = [] ∧
      (∀ row ∈ s.contact_points_, row = []) ∧
      (self.base_style_property_ = LineStyle.LINES →
        ∃ mo, s.base_manual_object_ = some mo ∧
          mo.vertices.length = msg.trajectory.length) ∧
      (self.base_style_property_ = LineStyle.BILLBOARDS →
        ∃ bl, s.base_billboard_line_ = some bl ∧
          bl.points.length = msg.trajectory.length) ∧
      (self.base_style_property_ = LineStyle.POINTS →
        s.base_points_.length = msg.trajectory.length) := by
  refine ⟨by rw [prescan_no_contacts _ hnc], ?_⟩
  obtain ⟨s1, hbase, hmsg1, hc1, hc2, hc3, hl, hb, hp⟩ := processBase_frame env
    ({ self with msg_ := some msg, is_info_ := true }).destroyObjects msg rfl hwf
  obtain ⟨s2, hcontact, g1, g2, g3, e1, e2, e3, _⟩ := contact_no_contacts env s1 msg
    (by rw [hmsg1]; rfl) hwf hnc (by rw [hc1]; rfl) (by rw [hc2]; rfl)
    (by rw [hc3]; intro row hrow; cases hrow)
  refine ⟨s2, ?_, g1, g2, g3, ?_, ?_, ?_⟩
  · unfold WholeBodyTrajectoryDisplay.processMessage
    simp only [hbase]
    exact hcontact
  · intro h; rw [e1]; exact hl h
  · intro h; rw [e2]; exact hb h
  · intro h; rw [e3]; exact hp h

/-- Witness for C14: three steps without contacts given to a new display. -/
theorem C14_no_contacts_no_contact_geometry_witness :
    wellFormed flightTrajectory.trajectory = true ∧
      (∀ state ∈ flightTrajectory.trajectory, state.contacts = []) ∧
      ∃ s, freshDisplay.processMessage exampleEnv flightTrajectory = some s ∧
        s.contact_manual_object_ = [] ∧ s.contact_billboard_line_ = [] ∧
        (∀ row ∈ s.contact_points_, row = []) ∧
        s.base_points_.length = flightTrajectory.trajectory.length := by
  obtain ⟨s, hrun, h1, h2, h3, _, _, hp⟩ := (C14_no_contacts_no_contact_geometry exampleEnv
    freshDisplay flightTrajectory rfl (by decide)).2
  exact ⟨rfl, by decide, s, hrun, h1, h2, h3, hp rfl⟩

/-- C11 fails on the transition Lines to Billboards.  A new display set to the Lines contact
style receives a one-step trajectory with one contact; the contact style is then set to
Billboards and `updateContactStyle` runs.  Its reset loop over `contact_manual_object_` is
bounded by the size of `contact_billboard_line_`, which is 0, so the manual object of the
Lines style stays alive next to the new billboard line. -/
theorem C11_manual_object_survives_billboards :
    ∃ s1 s2,
      ({ freshDisplay with contact_style_property_ := LineStyle.LINES }).processMessage
          exampleEnv singleContactTrajectory = some s1 ∧
        ({ s1 with contact_style_property_ := LineStyle.BILLBOARDS }).updateContactStyle
          exampleEnv = some s2 ∧
        s1.contact_manual_object_.map Option.isSome = [true] ∧
        s1.contact_billboard_line_ = [] ∧
        s2.contact_style_property_ = LineStyle.BILLBOARDS ∧
        s2.contact_manual_object_.map Option.isSome = [true] ∧
        s2.contact_manual_object_ = s1.contact_manual_object_ ∧
        s2.contact_billboard_line_.map Option.isSome = [true] :=
  ⟨_, _, rfl, rfl, rfl, rfl, rfl, rfl, rfl, rfl⟩

/-! ## The clamp of the contact pass -/

theorem contactPoint_eq (base_pos : Vector3) (tf : Matrix4) (contact : ContactState) :
    contactPoint base_pos tf contact =
      zeroUnlessFinite (composedPosition base_pos tf contact) := by
  rw [contactPoint, sanitize_eq, composedPosition]

theorem slotInner_pts {α : Type} (pts : α → List Vector3) (P : Vector3 → Prop) (create : α)
    (hcreate : pts create = []) (cs : List ContactState) :
    ∀ (k : Nat) (ids : SlotIds) (objs : List (Option α)) (ids' : SlotIds)
      (objs' : List (Option α)), slotInner create k cs ids objs = some (ids', objs') →
      (∀ o, some o ∈ objs → ∀ p ∈ pts o, P p) → ∀ o, some o ∈ objs' → ∀ p ∈ pts o, P p := by
  induction cs with
  | nil =>
    intro k ids objs ids' objs' h hP
    simp only [slotInner, Option.some.injEq, Prod.mk.injEq] at h
    rw [← h.2]
    exact hP
  | cons c rest ih =>
    intro k ids objs ids' objs' h hP
    simp only [slotInner] at h
    cases hu : ids.update k c.name with
    | none => simp [hu] at h
    | some r =>
      obtain ⟨ids1, created⟩ := r
      cases created with
      | none =>
        simp only [hu] at h
        exact ih _ _ _ _ _ h hP
      | some slot =>
        simp only [hu] at h
        by_cases hlt : slot < objs.length
        · simp only [hlt, if_true] at h
          refine ih _ _ _ _ _ h ?_
          intro o ho p hp
          rcases List.mem_or_eq_of_mem_set ho with ho | ho
          · exact hP o ho p hp
          · cases ho
            rw [hcreate] at hp
            cases hp
        · simp [hlt] at h

theorem slotEmit_pts {α : Type} (pts : α → List Vector3) (P : Vector3 → Prop)
    (emit : α → Vector3 → α) (hemit : ∀ o p, pts (emit o p) = pts o ++ [p])
    (contacts : List ContactState) (base_pos : Vector3) (tf : Matrix4)
    (vec_id : List (Nat × Nat)) (hc : ∀ c ∈ contacts, P (contactPoint base_pos tf c)) :
    ∀ (es : List (String × Nat)) (objs objs' : List (Option α)),
      slotEmit emit contacts base_pos tf vec_id es objs = some objs' →
      (∀ o, some o ∈ objs → ∀ p ∈ pts o, P p) → ∀ o, some o ∈ objs' → ∀ p ∈ pts o, P p := by
  intro es
  induction es with
  | nil =>
    intro objs objs' h hP
    simp only [slotEmit, Option.some.injEq] at h
    rw [← h]
    exact hP
  | cons e rest ih =>
    intro objs objs' h hP
    obtain ⟨name, slot⟩ := e
    simp only [slotEmit] at h
    cases hf : StdMap.find vec_id slot with
    | none => simp [hf] at h
    | some id =>
      simp only [hf] at h
      by_cases hlt : id < contacts.length
      · simp only [hlt, dite_true] at h
        cases ho : objs[slot]? with
        | none => simp [ho] at h
        | some x =>
          cases x with
          | none => simp [ho] at h
          | some o0 =>
            simp only [ho] at h
            refine ih _ _ h ?_
            intro o hmem p hp
            rcases List.mem_or_eq_of_mem_set hmem with hmem | hmem
            · exact hP o hmem p hp
            · cases hmem
              rw [hemit, List.mem_append, List.mem_singleton] at hp
              rcases hp with hp | hp
              · exact hP o0 (List.getElem?_mem ho) p hp
              · rw [hp]
                exact hc _ (List.getElem_mem _)
      · simp only [hlt, dite_false] at h
        exact ih _ _ h hP

theorem slotLoop_pts {α : Type} (pts : α → List Vector3) (P : Vector3 → Prop) (create : α)
    (hcreate : pts create = []) (emit : α → Vector3 → α)
    (hemit : ∀ o p, pts (emit o p) = pts o ++ [p]) (env : Env) (num_base : Nat)
    (steps : List WholeBodyState) :
    ∀ (i : Nat) (ids : SlotIds) (objs : List (Option α)) (ids' : SlotIds)
      (objs' : List (Option α)),
      slotLoop create emit env num_base i steps ids objs = some (ids', objs') →
      (∀ k state, steps[k]? = some state → ∀ b tf,
        contactBase env num_base (i + k) state = some (b, tf) →
        ∀ c ∈ state.contacts, P (contactPoint b tf c)) →
      (∀ o, some o ∈ objs → ∀ p ∈ pts o, P p) → ∀ o, some o ∈ objs' → ∀ p ∈ pts o, P p := by
  induction steps with
  | nil =>
    intro i ids objs ids' objs' h _ hP
    simp only [slotLoop, Option.some.injEq, Prod.mk.injEq] at h
    rw [← h.2]
    exact hP
  | cons state rest ih =>
    intro i ids objs ids' objs' h hsteps hP
    simp only [slotLoop, slotStep] at h
    cases hin : slotInner create 0 state.contacts ids objs with
    | none => simp [hin] at h
    | some r1 =>
      obtain ⟨ids1, objs1⟩ := r1
      simp only [hin] at h
      cases hb : contactBase env num_base i state with
      | none => simp [hb] at h
      | some r2 =>
        obtain ⟨base_pos, tf⟩ := r2
        simp only [hb] at h
        cases hem : slotEmit emit state.contacts base_pos tf ids1.contact_vec_id
            ids1.contact_traj_id objs1 with
        | none => simp [hem] at h
        | some objs2 =>
          simp only [hem] at h
          have h1 := slotInner_pts pts P create hcreate state.contacts 0 ids objs ids1 objs1
            hin hP
          have h2 := slotEmit_pts pts P emit hemit state.contacts base_pos tf
            ids1.contact_vec_id (hsteps 0 state (List.getElem?_cons_zero ..) base_pos tf hb) ids1.contact_traj_id
            objs1 objs2 hem h1
          refine ih (i + 1) ids1 objs2 ids' objs' h ?_ h2
          intro k st hk b tf2 hb2 c hcmem
          refine hsteps (k + 1) st (by rw [List.getElem?_cons_succ]; exact hk) b tf2 ?_ c hcmem
          rw [show i + (k + 1) = i + 1 + k by omega]
          exact hb2

theorem finishSlots_pts (P : Vector3 → Prop) :
    ∀ (n : Nat) (objs objs' : List (Option ManualObject)), finishSlots n objs = some objs' →
      (∀ o, some o ∈ objs → ∀ v ∈ o.vertices, P v.position) →
      ∀ o, some o ∈ objs' → ∀ v ∈ o.vertices, P v.position := by
  intro n
  induction n with
  | zero =>
    intro objs objs' h hP
    simp only [finishSlots, Option.some.injEq] at h
    rw [← h]
    exact hP
  | succ m ih =>
    intro objs objs' h hP
    simp only [finishSlots] at h
    cases hm : finishSlots m objs with
    | none => simp [hm] at h
    | some objs1 =>
      simp only [hm] at h
      have h1 := ih objs objs1 hm hP
      cases ho : objs1[m]? with
      | none => simp [ho] at h
      | some x =>
        cases x with
        | none => simp [ho] at h
        | some o0 =>
          simp only [ho, Option.some.injEq] at h
          rw [← h]
          intro o hmem v hv
          rcases List.mem_or_eq_of_mem_set hmem with hmem | hmem
          · exact h1 o hmem v hv
          · cases hmem
            exact h1 o0 (List.getElem?_mem ho) v hv

theorem pointsEmit_pts (P : Vector3 → Prop) (visual : Vector3 → PointVisual)
    (hvis : ∀ p, (visual p).point = p) (contacts : List ContactState) (base_pos : Vector3)
    (tf : Matrix4) (vec_id : List (Nat × Nat))
    (hc : ∀ c ∈ contacts, P (contactPoint base_pos tf c)) :
    ∀ (es : List (String × Nat)) (contact_idx : Nat) (row row' : List (Option PointVisual)),
      pointsEmit visual contacts base_pos tf vec_id es contact_idx row = some row' →
      (∀ pv, some pv ∈ row → P pv.point) → ∀ pv, some pv ∈ row' → P pv.point := by
  intro es
  induction es with
  | nil =>
    intro contact_idx row row' h hP
    simp only [pointsEmit, Option.some.injEq] at h
    rw [← h]
    exact hP
  | cons e rest ih =>
    intro contact_idx row row' h hP
    obtain ⟨name, slot⟩ := e
    simp only [pointsEmit] at h
    cases hf : StdMap.find vec_id slot with
    | none => simp [hf] at h
    | some id =>
      simp only [hf] at h
      by_cases hlt : id < contacts.length
      · simp only [hlt, dite_true] at h
        by_cases hidx : contact_idx < row.length
        · simp only [hidx, if_true] at h
          refine ih _ _ _ h ?_
          intro pv hmem
          rcases List.mem_or_eq_of_mem_set hmem with hmem | hmem
          · exact hP pv hmem
          · cases hmem
            rw [hvis]
            exact hc _ (List.getElem_mem _)
        · simp [hidx] at h
      · simp only [hlt, dite_false] at h
        exact ih _ _ _ h hP

theorem pointsLoop_pts (P : Vector3 → Prop) (visual : Vector3 → PointVisual)
    (hvis : ∀ p, (visual p).point = p) (env : Env) (num_base : Nat)
    (steps : List WholeBodyState) :
    ∀ (i : Nat) (ids : SlotIds) (rows : List (List (Option PointVisual))) (ids' : SlotIds)
      (rows' : List (List (Option PointVisual))),
      pointsLoop visual env num_base i steps ids rows = some (ids', rows') →
      (∀ k state, steps[k]? = some state → ∀ b tf,
        contactBase env num_base (i + k) state = some (b, tf) →
        ∀ c ∈ state.contacts, P (contactPoint b tf c)) →
      (∀ row ∈ rows, ∀ pv, some pv ∈ row → P pv.point) →
      ∀ row ∈ rows', ∀ pv, some pv ∈ row → P pv.point := by
  induction steps with
  | nil =>
    intro i ids rows ids' rows' h _ hP
    simp only [pointsLoop, Option.some.injEq, Prod.mk.injEq] at h
    rw [← h.2]
    exact hP
  | cons state rest ih =>
    intro i ids rows ids' rows' h hsteps hP
    simp only [pointsLoop] at h
    cases hin : pointsInner 0 state.contacts ids with
    | none => simp [hin] at h
    | some ids1 =>
      simp only [hin] at h
      by_cases hi : i < rows.length
      · simp only [hi, if_true] at h
        cases hb : contactBase env num_base i state with
        | none => simp [hb] at h
        | some r2 =>
          obtain ⟨base_pos, tf⟩ := r2
          simp only [hb] at h
          cases hem : pointsEmit visual state.contacts base_pos tf ids1.contact_vec_id
              ids1.contact_traj_id 0 (List.replicate state.contacts.length none) with
          | none => simp [hem] at h
          | some row2 =>
            simp only [hem] at h
            have h2 := pointsEmit_pts P visual hvis state.contacts base_pos tf
              ids1.contact_vec_id (hsteps 0 state (List.getElem?_cons_zero ..) base_pos tf hb) ids1.contact_traj_id 0
              (List.replicate state.contacts.length none) row2 hem
              (by intro pv hmem; cases (List.mem_replicate.mp hmem).2)
            refine ih (i + 1) ids1 _ ids' rows' h ?_ ?_
            · intro k st hk b tf2 hb2 c hcmem
              refine hsteps (k + 1) st (by rw [List.getElem?_cons_succ]; exact hk) b tf2 ?_ c hcmem
              rw [show i + (k + 1) = i + 1 + k by omega]
              exact hb2
            · intro row hmem
              rcases List.mem_or_eq_of_mem_set hmem with hmem | hmem
              · exact hP row hmem
              · rw [hmem]
                exact h2
      · simp [hi] at h

theorem clamped_of_step (env : Env) (first : WholeBodyState) (rest : List WholeBodyState)
    (k : Nat) (state : WholeBodyState) (hk : (first :: rest)[k]? = some state)
    (b : Vector3) (tf : Matrix4)
    (hb : contactBase env first.base.length (0 + k) state = some (b, tf))
    (c : ContactState) (hc : c ∈ state.contacts) :
    ClampedContact env (first :: rest) (contactPoint b tf c) := by
  rw [Nat.zero_add] at hb
  exact ⟨k, state, c, b, tf, hk, hc, hb, contactPoint_eq b tf c⟩

theorem contact_lines_clamped (env : Env) (self s : WholeBodyTrajectoryDisplay)
    (msg : WholeBodyTrajectory) (hmsg : self.msg_ = some msg)
    (hstyle : self.contact_style_property_ = LineStyle.LINES)
    (hrun : self.processContactTrajectory env = some s) :
    ∀ o, some o ∈ s.contact_manual_object_ → ∀ v ∈ o.vertices,
      ClampedContact env msg.trajectory v.position := by
  unfold WholeBodyTrajectoryDisplay.processContactTrajectory at hrun
  simp only [hmsg, hstyle] at hrun
  cases htraj : msg.trajectory with
  | nil => simp [htraj] at hrun
  | cons first rest =>
    rw [htraj] at hrun
    simp only at hrun
    split at hrun
    · cases hrun
    · rename_i ids objs hloop
      split at hrun
      · cases hrun
      · rename_i objs' hfin
        cases hrun
        have h1 := slotLoop_pts (fun (o : ManualObject) => o.vertices.map (fun v => v.position))
          (ClampedContact env (first :: rest)) _ (by rfl) _
          (by intro o p; simp [ManualObject.addVertex]) env _ _ 0 _ _ ids objs hloop
          (clamped_of_step env first rest)
          (by intro o hmem; cases (List.mem_replicate.mp hmem).2)
        refine finishSlots_pts (ClampedContact env (first :: rest)) _ objs objs' hfin ?_
        intro o hmem v hv
        exact h1 o hmem v.position (List.mem_map_of_mem _ hv)

theorem contact_billboards_clamped (env : Env) (self s : WholeBodyTrajectoryDisplay)
    (msg : WholeBodyTrajectory) (hmsg : self.msg_ = some msg)
    (hstyle : self.contact_style_property_ = LineStyle.BILLBOARDS)
    (hrun : self.processContactTrajectory env = some s) :
    ∀ o, some o ∈ s.contact_billboard_line_ → ∀ v ∈ o.points,
      ClampedContact env msg.trajectory v.position := by
  unfold WholeBodyTrajectoryDisplay.processContactTrajectory at hrun
  simp only [hmsg, hstyle] at hrun
  cases htraj : msg.trajectory with
  | nil => simp [htraj] at hrun
  | cons first rest =>
    rw [htraj] at hrun
    simp only at hrun
    split at hrun
    · cases hrun
    · rename_i ids objs hloop
      cases hrun
      have h1 := slotLoop_pts (fun (o : BillboardLine) => o.points.map (fun v => v.position))
        (ClampedContact env (first :: rest)) _ (by rfl) _
        (by intro o p; simp [BillboardLine.addPoint]) env _ _ 0 _ _ ids objs hloop
        (clamped_of_step env first rest)
        (by intro o hmem; cases (List.mem_replicate.mp hmem).2)
      intro o hmem v hv
      exact h1 o hmem v.position (List.mem_map_of_mem _ hv)

theorem contact_points_clamped (env : Env) (self s : WholeBodyTrajectoryDisplay)
    (msg : WholeBodyTrajectory) (hmsg : self.msg_ = some msg)
    (hstyle : self.contact_style_property_ = LineStyle.POINTS)
    (hrun : self.processContactTrajectory env = some s) :
    ∀ row ∈ s.contact_points_, ∀ pv, some pv ∈ row →
      ClampedContact env msg.trajectory pv.point := by
  unfold WholeBodyTrajectoryDisplay.processContactTrajectory at hrun
  simp only [hmsg, hstyle] at hrun
  cases htraj : msg.trajectory with
  | nil => simp [htraj] at hrun
  | cons first rest =>
    rw [htraj] at hrun
    simp only at hrun
    split at hrun
    · cases hrun
    · rename_i ids rows hloop
      cases hrun
      exact pointsLoop_pts (ClampedContact env (first :: rest)) _ (fun _ => rfl) env _ _ 0 _ _
        ids rows hloop (clamped_of_step env first rest)
        (by intro row hmem; rw [(List.mem_replicate.mp hmem).2]; intro pv hpv; cases hpv)

/-- C20: the point the contact pass emits for a contact is (0, 0, 0) when the composed
position (base position plus base orientation applied to the local contact position) has a
non-finite component, and the composed position itself when all its components are finite.
The emission neither skips the slot nor stops the loop: the clamped point is appended to the
slot's object (Lines, Billboards) or written as the next marker of the step (Points) and the
loop goes on with the remaining slots.  For a trajectory of any values, finite or not, the
Lines and the Billboards pass run to completion, and every vertex of every contact object is
the clamped composed position of a contact of some step; so is every marker of a completed
Points pass. -/
theorem C20_nonfinite_contact_point_zeroed (env : Env) (self : WholeBodyTrajectoryDisplay)
    (msg : WholeBodyTrajectory) (hmsg : self.msg_ = some msg)
    (hwf : wellFormed msg.trajectory = true) :
    (∀ b tf c, (composedPosition b tf c).allFinite = false → contactPoint b tf c = ⟨0, 0, 0⟩) ∧
    (∀ b tf c, (composedPosition b tf c).allFinite = true →
      contactPoint b tf c = composedPosition b tf c) ∧
    (∀ (emit : ManualObject → Vector3 → ManualObject) (contacts : List ContactState)
      (b : Vector3) (tf : Matrix4) (vec_id : List (Nat × Nat)) (name : String) (slot id : Nat)
      (rest : List (String × Nat)) (objs : List (Option ManualObject)) (o : ManualObject)
      (hid : id < contacts.length), StdMap.find vec_id slot = some id →
      objs[slot]? = some (some o) →
      slotEmit emit contacts b tf vec_id ((name, slot) :: rest) objs =
        slotEmit emit contacts b tf vec_id rest
          (objs.set slot (some (emit o (zeroUnlessFinite (composedPosition b tf
            (contacts.get ⟨id, hid⟩))))))) ∧
    (∀ (visual : Vector3 → PointVisual) (contacts : List ContactState)
      (b : Vector3) (tf : Matrix4) (vec_id : List (Nat × Nat)) (name : String)
      (slot id contact_idx : Nat) (rest : List (String × Nat))
      (row : List (Option PointVisual)) (hid : id < contacts.length),
      StdMap.find vec_id slot = some id → contact_idx < row.length →
      pointsEmit visual contacts b tf vec_id ((name, slot) :: rest) contact_idx row =
        pointsEmit visual contacts b tf vec_id rest (contact_idx + 1)
          (row.set contact_idx (some (visual (zeroUnlessFinite (composedPosition b tf
            (contacts.get ⟨id, hid⟩))))))) ∧
    (∃ s, ({ self with contact_style_property_ := LineStyle.LINES }).processContactTrajectory
        env = some s ∧
      ∀ o, some o ∈ s.contact_manual_object_ → ∀ v ∈ o.vertices,
        ClampedContact env msg.trajectory v.position) ∧
    (∃ s, ({ self with contact_style_property_ :=
          LineStyle.BILLBOARDS }).processContactTrajectory env = some s ∧
      ∀ o, some o ∈ s.contact_billboard_line_ → ∀ v ∈ o.points,
        ClampedContact env msg.trajectory v.position) ∧
    (∀ s, ({ self with contact_style_property_ := LineStyle.POINTS }).processContactTrajectory
        env = some s →
      ∀ row ∈ s.contact_points_, ∀ pv, some pv ∈ row →
        ClampedContact env msg.trajectory pv.point) := by
  refine ⟨?_, ?_, ?_, ?_, ?_, ?_, ?_⟩
  · intro b tf c h
    rw [contactPoint_eq, zeroUnlessFinite, h]
    rfl
  · intro b tf c h
    rw [contactPoint_eq, zeroUnlessFinite, h]
    rfl
  · intro emit contacts b tf vec_id name slot id rest objs o hid hfind hobj
    simp only [slotEmit, hfind, hid, dite_true, hobj, contactPoint_eq, List.get_eq_getElem]
  · intro visual contacts b tf vec_id name slot id contact_idx rest row hid hfind hidx
    simp only [pointsEmit, hfind, hid, dite_true, hidx, if_true, contactPoint_eq,
      List.get_eq_getElem]
  · obtain ⟨objs, hrun, _⟩ := contact_lines_total env
      { self with contact_style_property_ := LineStyle.LINES } msg hmsg rfl hwf
    exact ⟨_, hrun, contact_lines_clamped env
      { self with contact_style_property_ := LineStyle.LINES } _ msg hmsg rfl hrun⟩
  · obtain ⟨objs, hrun, _⟩ := contact_billboards_total env
      { self with contact_style_property_ := LineStyle.BILLBOARDS } msg hmsg rfl hwf
    exact ⟨_, hrun, contact_billboards_clamped env
      { self with contact_style_property_ := LineStyle.BILLBOARDS } _ msg hmsg rfl hrun⟩
  · intro s hrun
    exact contact_points_clamped env
      { self with contact_style_property_ := LineStyle.POINTS } s msg hmsg rfl hrun

/-- Witness for C20: three steps of one contact, the x coordinate of the contact of step 1
being NaN.  The composed positions are finite, non-finite, finite; in each style the pass
completes and the object of the contact holds (1, 0, 0), (0, 0, 0), (3, 0, 0). -/
theorem C20_nonfinite_contact_point_zeroed_witness :
    (displayOf nanContactTrajectory LineStyle.LINES LineStyle.LINES).msg_ =
        some nanContactTrajectory ∧
      wellFormed nanContactTrajectory.trajectory = true ∧
      (∃ s, ({ displayOf nanContactTrajectory LineStyle.LINES LineStyle.LINES with
          contact_style_property_ := LineStyle.LINES }).processContactTrajectory
          exampleEnv = some s ∧
        ∀ o, some o ∈ s.contact_manual_object_ → ∀ v ∈ o.vertices,
          ClampedContact exampleEnv nanContactTrajectory.trajectory v.position) ∧
      nanContactTrajectory.trajectory.map (fun state => state.contacts.map (fun c =>
          (composedPosition ⟨0, 0, 0⟩ (Matrix4.ofQuaternion Quaternion.IDENTITY) c).allFinite))
        = [[true], [false], [true]] ∧
      ((displayOf nanContactTrajectory LineStyle.LINES
          LineStyle.LINES).processContactTrajectory exampleEnv).map
          (fun s => s.contact_manual_object_.map
            (Option.map (fun o => o.vertices.map (fun v => v.position)))) =
        some [some [⟨1, 0, 0⟩, ⟨0, 0, 0⟩, ⟨3, 0, 0⟩]] ∧
      ((displayOf nanContactTrajectory LineStyle.LINES
          LineStyle.BILLBOARDS).processContactTrajectory exampleEnv).map
          (fun s => s.contact_billboard_line_.map
            (Option.map (fun o => o.points.map (fun v => v.position)))) =
        some [some [⟨1, 0, 0⟩, ⟨0, 0, 0⟩, ⟨3, 0, 0⟩]] ∧
      ((displayOf nanContactTrajectory LineStyle.LINES
          LineStyle.POINTS).processContactTrajectory exampleEnv).map
          (fun s => s.contact_points_.map (List.map (Option.map (fun pv => pv.point)))) =
        some [[some ⟨1, 0, 0⟩], [some ⟨0, 0, 0⟩], [some ⟨3, 0, 0⟩]] := by
  have h1 : contactPoint ⟨(0 : Dbl).toFloat, (0 : Dbl).toFloat, (0 : Dbl).toFloat⟩
          (Matrix4.ofQuaternion Quaternion.IDENTITY.toFloat)
      ⟨"lf_foot", ⟨1, 0, 0⟩⟩ = ⟨1, 0, 0⟩ := by
    simp [contactPoint, sanitize, Vector3.fadd, Quaternion.toFloat, Matrix4.ofQuaternion,
      Matrix4.mulVec, Quaternion.IDENTITY, Quaternion.ToRotationMatrix, Vector3.ZERO]
  have h2 : contactPoint ⟨(0 : Dbl).toFloat, (0 : Dbl).toFloat, (0 : Dbl).toFloat⟩
          (Matrix4.ofQuaternion Quaternion.IDENTITY.toFloat)
      ⟨"lf_foot", ⟨Dbl.nan, 0, 0⟩⟩ = ⟨0, 0, 0⟩ := by
    simp [contactPoint, sanitize, Vector3.fadd, Quaternion.toFloat, Matrix4.ofQuaternion,
      Matrix4.mulVec, Quaternion.IDENTITY, Quaternion.ToRotationMatrix, Vector3.ZERO,
      Dbl.isfinite]
  have h3 : contactPoint ⟨(0 : Dbl).toFloat, (0 : Dbl).toFloat, (0 : Dbl).toFloat⟩
          (Matrix4.ofQuaternion Quaternion.IDENTITY.toFloat)
      ⟨"lf_foot", ⟨3, 0, 0⟩⟩ = ⟨3, 0, 0⟩ := by
    simp [contactPoint, sanitize, Vector3.fadd, Quaternion.toFloat, Matrix4.ofQuaternion,
      Matrix4.mulVec, Quaternion.IDENTITY, Quaternion.ToRotationMatrix, Vector3.ZERO]
  have hlines : ((displayOf nanContactTrajectory LineStyle.LINES
        LineStyle.LINES).processContactTrajectory exampleEnv).map
        (fun s => s.contact_manual_object_.map
          (Option.map (fun o => o.vertices.map (fun v => v.position)))) =
      some [some [contactPoint ⟨(0 : Dbl).toFloat, (0 : Dbl).toFloat, (0 : Dbl).toFloat⟩
          (Matrix4.ofQuaternion Quaternion.IDENTITY.toFloat)
          ⟨"lf_foot", ⟨1, 0, 0⟩⟩,
        contactPoint ⟨(0 : Dbl).toFloat, (0 : Dbl).toFloat, (0 : Dbl).toFloat⟩
          (Matrix4.ofQuaternion Quaternion.IDENTITY.toFloat)
          ⟨"lf_foot", ⟨Dbl.nan, 0, 0⟩⟩,
        contactPoint ⟨(0 : Dbl).toFloat, (0 : Dbl).toFloat, (0 : Dbl).toFloat⟩
          (Matrix4.ofQuaternion Quaternion.IDENTITY.toFloat)
          ⟨"lf_foot", ⟨3, 0, 0⟩⟩]] := rfl
  have hbill : ((displayOf nanContactTrajectory LineStyle.LINES
        LineStyle.BILLBOARDS).processContactTrajectory exampleEnv).map
        (fun s => s.contact_billboard_line_.map
          (Option.map (fun o => o.points.map (fun v => v.position)))) =
      some [some [contactPoint ⟨(0 : Dbl).toFloat, (0 : Dbl).toFloat, (0 : Dbl).toFloat⟩
          (Matrix4.ofQuaternion Quaternion.IDENTITY.toFloat)
          ⟨"lf_foot", ⟨1, 0, 0⟩⟩,
        contactPoint ⟨(0 : Dbl).toFloat, (0 : Dbl).toFloat, (0 : Dbl).toFloat⟩
          (Matrix4.ofQuaternion Quaternion.IDENTITY.toFloat)
          ⟨"lf_foot", ⟨Dbl.nan, 0, 0⟩⟩,
        contactPoint ⟨(0 : Dbl).toFloat, (0 : Dbl).toFloat, (0 : Dbl).toFloat⟩
          (Matrix4.ofQuaternion Quaternion.IDENTITY.toFloat)
          ⟨"lf_foot", ⟨3, 0, 0⟩⟩]] := rfl
  have hpts : ((displayOf nanContactTrajectory LineStyle.LINES
        LineStyle.POINTS).processContactTrajectory exampleEnv).map
        (fun s => s.contact_points_.map (List.map (Option.map (fun pv => pv.point)))) =
      some [[some (contactPoint ⟨(0 : Dbl).toFloat, (0 : Dbl).toFloat, (0 : Dbl).toFloat⟩
          (Matrix4.ofQuaternion Quaternion.IDENTITY.toFloat)
          ⟨"lf_foot", ⟨1, 0, 0⟩⟩)],
        [some (contactPoint ⟨(0 : Dbl).toFloat, (0 : Dbl).toFloat, (0 : Dbl).toFloat⟩
          (Matrix4.ofQuaternion Quaternion.IDENTITY.toFloat)
          ⟨"lf_foot", ⟨Dbl.nan, 0, 0⟩⟩)],
        [some (contactPoint ⟨(0 : Dbl).toFloat, (0 : Dbl).toFloat, (0 : Dbl).toFloat⟩
          (Matrix4.ofQuaternion Quaternion.IDENTITY.toFloat)
          ⟨"lf_foot", ⟨3, 0, 0⟩⟩)]] := rfl
  have f1 : (composedPosition ⟨0, 0, 0⟩ (Matrix4.ofQuaternion Quaternion.IDENTITY)
      ⟨"lf_foot", ⟨1, 0, 0⟩⟩).allFinite = true := by
    simp [composedPosition, Vector3.allFinite, Vector3.fadd, Matrix4.ofQuaternion,
      Matrix4.mulVec, Quaternion.IDENTITY, Quaternion.ToRotationMatrix, Vector3.ZERO]
  have f2 : (composedPosition ⟨0, 0, 0⟩ (Matrix4.ofQuaternion Quaternion.IDENTITY)
      ⟨"lf_foot", ⟨Dbl.nan, 0, 0⟩⟩).allFinite = false := by
    simp [composedPosition, Vector3.allFinite, Vector3.fadd, Matrix4.ofQuaternion,
      Matrix4.mulVec, Quaternion.IDENTITY, Quaternion.ToRotationMatrix, Vector3.ZERO,
      Dbl.isfinite]
  have f3 : (composedPosition ⟨0, 0, 0⟩ (Matrix4.ofQuaternion Quaternion.IDENTITY)
      ⟨"lf_foot", ⟨3, 0, 0⟩⟩).allFinite = true := by
    simp [composedPosition, Vector3.allFinite, Vector3.fadd, Matrix4.ofQuaternion,
      Matrix4.mulVec, Quaternion.IDENTITY, Quaternion.ToRotationMatrix, Vector3.ZERO]
  have hfin : nanContactTrajectory.trajectory.map (fun state => state.contacts.map (fun c =>
      (composedPosition ⟨0, 0, 0⟩ (Matrix4.ofQuaternion Quaternion.IDENTITY) c).allFinite)) =
      [[(composedPosition ⟨0, 0, 0⟩ (Matrix4.ofQuaternion Quaternion.IDENTITY)
          ⟨"lf_foot", ⟨1, 0, 0⟩⟩).allFinite],
        [(composedPosition ⟨0, 0, 0⟩ (Matrix4.ofQuaternion Quaternion.IDENTITY)
          ⟨"lf_foot", ⟨Dbl.nan, 0, 0⟩⟩).allFinite],
        [(composedPosition ⟨0, 0, 0⟩ (Matrix4.ofQuaternion Quaternion.IDENTITY)
          ⟨"lf_foot", ⟨3, 0, 0⟩⟩).allFinite]] := rfl
  refine ⟨rfl, rfl, (C20_nonfinite_contact_point_zeroed exampleEnv
    (displayOf nanContactTrajectory LineStyle.LINES LineStyle.LINES) nanContactTrajectory
    rfl rfl).2.2.2.2.1, by rw [hfin, f1, f2, f3], by rw [hlines, h1, h2, h3],
    by rw [hbill, h1, h2, h3], by rw [hpts, h1, h2, h3]⟩

/-! ## Bounds of the marker rows and of the style reset -/

/-- C21 fails on a contact that lifts off.  Step 0 lists "lf_foot" and "rf_foot", step 1
lists "rf_foot" alone.  After the bookkeeping of step 1 both slots record list index 0, so
with `num_contacts = 1` both pass the guard `id < num_contacts`: the row of step 1, sized 1,
is written at index 0 and then at index 1, out of range (the pass of the embedding returns
`none`).  Given a row of size 2 the loop writes two markers, one more than the step has
contacts.  The first step alone completes with two markers. -/
theorem C21_marker_written_past_row :
    (displayOf liftOffTrajectory LineStyle.LINES LineStyle.POINTS).processContactTrajectory
        exampleEnv = none ∧
      ((displayOf { liftOffTrajectory with trajectory := liftOffTrajectory.trajectory.take 1 }
          LineStyle.LINES LineStyle.POINTS).processContactTrajectory exampleEnv).map
          (fun s => s.contact_points_.map (List.map Option.isSome)) = some [[true, true]] ∧
      pointsInner 0 [⟨"lf_foot", ⟨1, 0, 0⟩⟩, ⟨"rf_foot", ⟨2, 0, 0⟩⟩] SlotIds.start =
        some ⟨[("lf_foot", 0), ("rf_foot", 1)], [(0, 0), (1, 1)], 2⟩ ∧
      pointsInner 0 [⟨"rf_foot", ⟨3, 0, 0⟩⟩]
          ⟨[("lf_foot", 0), ("rf_foot", 1)], [(0, 0), (1, 1)], 2⟩ =
        some ⟨[("lf_foot", 0), ("rf_foot", 1)], [(0, 0), (1, 0)], 2⟩ ∧
      pointsEmit (contactVisual exampleEnv
          (displayOf liftOffTrajectory LineStyle.LINES LineStyle.POINTS) liftOffTrajectory)
          [⟨"rf_foot", ⟨3, 0, 0⟩⟩] ⟨0, 0, 0⟩ (Matrix4.ofQuaternion Quaternion.IDENTITY)
          [(0, 0), (1, 0)] [("lf_foot", 0), ("rf_foot", 1)] 0 (List.replicate 1 none) = none ∧
      (pointsEmit (contactVisual exampleEnv
          (displayOf liftOffTrajectory LineStyle.LINES LineStyle.POINTS) liftOffTrajectory)
          [⟨"rf_foot", ⟨3, 0, 0⟩⟩] ⟨0, 0, 0⟩ (Matrix4.ofQuaternion Quaternion.IDENTITY)
          [(0, 0), (1, 0)] [("lf_foot", 0), ("rf_foot", 1)] 0 (List.replicate 2 none)).map
          (List.map Option.isSome) = some [true, true] :=
  ⟨rfl, rfl, rfl, rfl, rfl, rfl⟩

/-- C22 fails after a Billboards pass.  A new display set to the Billboards contact style
(a style change that is in range, the vectors being empty) receives a one-step trajectory
with one contact: `contact_billboard_line_` then has size 1
and `contact_manual_object_`, cleared by `destroyObjects`, size 0.  When the style is set to
Points (or to Billboards anew) `updateContactStyle` runs its loop `i < num_contact` with
`num_contact` the size of `contact_billboard_line_` and reads `contact_manual_object_[0]`,
out of range (the embedding returns `none`).  Selecting Lines, which indexes
`contact_billboard_line_` alone, is in range. -/
theorem C22_reset_reads_past_manual_objects :
    ({ freshDisplay with contact_style_property_ := LineStyle.BILLBOARDS }).updateContactStyle
        exampleEnv = some { freshDisplay with contact_style_property_ := LineStyle.BILLBOARDS } ∧
    ∃ s1, ({ freshDisplay with contact_style_property_ := LineStyle.BILLBOARDS }).processMessage
          exampleEnv singleContactTrajectory = some s1 ∧
      s1.contact_billboard_line_.length = 1 ∧ s1.contact_manual_object_.length = 0 ∧
      ({ s1 with contact_style_property_ := LineStyle.POINTS }).resetContactStyle = none ∧
      ({ s1 with contact_style_property_ := LineStyle.POINTS }).updateContactStyle exampleEnv
        = none ∧
      ({ s1 with contact_style_property_ := LineStyle.BILLBOARDS }).updateContactStyle
        exampleEnv = none ∧
      (({ s1 with contact_style_property_ := LineStyle.LINES }).updateContactStyle
        exampleEnv).isSome = true :=
  ⟨rfl, _, rfl, rfl, rfl, rfl, rfl, rfl, rfl⟩

/-! ## Slot accesses of the LINES and BILLBOARDS contact pass -/

theorem slotInner_objs {α : Type} (Q : α → Prop) (create : α) (hcreate : Q create)
    (cs : List ContactState) :
    ∀ (k : Nat) (ids : SlotIds) (objs : List (Option α)) (ids' : SlotIds)
      (objs' : List (Option α)), slotInner create k cs ids objs = some (ids', objs') →
      (∀ o, some o ∈ objs → Q o) → ∀ o, some o ∈ objs' → Q o := by
  induction cs with
  | nil =>
    intro k ids objs ids' objs' h hQ
    simp only [slotInner, Option.some.injEq, Prod.mk.injEq] at h
    rw [← h.2]
    exact hQ
  | cons c rest ih =>
    intro k ids objs ids' objs' h hQ
    simp only [slotInner] at h
    cases hu : ids.update k c.name with
    | none => simp [hu] at h
    | some r =>
      obtain ⟨ids1, created⟩ := r
      cases created with
      | none =>
        simp only [hu] at h
        exact ih _ _ _ _ _ h hQ
      | some slot =>
        simp only [hu] at h
        by_cases hlt : slot < objs.length
        · simp only [hlt, if_true] at h
          refine ih _ _ _ _ _ h ?_
          intro o ho
          rcases List.mem_or_eq_of_mem_set ho with ho | ho
          · exact hQ o ho
          · cases ho
            exact hcreate
        · simp [hlt] at h

theorem slotEmit_objs {α : Type} (Q : α → Prop) (emit : α → Vector3 → α)
    (hemit : ∀ o p, Q o → Q (emit o p)) (contacts : List ContactState) (base_pos : Vector3)
    (tf : Matrix4) (vec_id : List (Nat × Nat)) :
    ∀ (es : List (String × Nat)) (objs objs' : List (Option α)),
      slotEmit emit contacts base_pos tf vec_id es objs = some objs' →
      (∀ o, some o ∈ objs → Q o) → ∀ o, some o ∈ objs' → Q o := by
  intro es
  induction es with
  | nil =>
    intro objs objs' h hQ
    simp only [slotEmit, Option.some.injEq] at h
    rw [← h]
    exact hQ
  | cons e rest ih =>
    intro objs objs' h hQ
    obtain ⟨name, slot⟩ := e
    simp only [slotEmit] at h
    cases hf : StdMap.find vec_id slot with
    | none => simp [hf] at h
    | some id =>
      simp only [hf] at h
      by_cases hlt : id < contacts.length
      · simp only [hlt, dite_true] at h
        cases ho : objs[slot]? with
        | none => simp [ho] at h
        | some x =>
          cases x with
          | none => simp [ho] at h
          | some o0 =>
            simp only [ho] at h
            refine ih _ _ h ?_
            intro o hmem
            rcases List.mem_or_eq_of_mem_set hmem with hmem | hmem
            · exact hQ o hmem
            · cases hmem
              exact hemit o0 _ (hQ o0 (List.getElem?_mem ho))
      · simp only [hlt, dite_false] at h
        exact ih _ _ h hQ

theorem slotLoop_objs {α : Type} (Q : α → Prop) (create : α) (hcreate : Q create)
    (emit : α → Vector3 → α) (hemit : ∀ o p, Q o → Q (emit o p)) (env : Env) (num_base : Nat)
    (steps : List WholeBodyState) :
    ∀ (i : Nat) (ids : SlotIds) (objs : List (Option α)) (ids' : SlotIds)
      (objs' : List (Option α)),
      slotLoop create emit env num_base i steps ids objs = some (ids', objs') →
      (∀ o, some o ∈ objs → Q o) → ∀ o, some o ∈ objs' → Q o := by
  induction steps with
  | nil =>
    intro i ids objs ids' objs' h hQ
    simp only [slotLoop, Option.some.injEq, Prod.mk.injEq] at h
    rw [← h.2]
    exact hQ
  | cons state rest ih =>
    intro i ids objs ids' objs' h hQ
    simp only [slotLoop, slotStep] at h
    cases hin : slotInner create 0 state.contacts ids objs with
    | none => simp [hin] at h
    | some r1 =>
      obtain ⟨ids1, objs1⟩ := r1
      simp only [hin] at h
      cases hb : contactBase env num_base i state with
      | none => simp [hb] at h
      | some r2 =>
        obtain ⟨base_pos, tf⟩ := r2
        simp only [hb] at h
        cases hem : slotEmit emit state.contacts base_pos tf ids1.contact_vec_id
            ids1.contact_traj_id objs1 with
        | none => simp [hem] at h
        | some objs2 =>
          simp only [hem] at h
          exact ih (i + 1) ids1 objs2 ids' objs' h
            (slotEmit_objs Q emit hemit state.contacts base_pos tf ids1.contact_vec_id
              ids1.contact_traj_id objs1 objs2 hem
              (slotInner_objs Q create hcreate state.contacts 0 ids objs ids1 objs1 hin hQ))

theorem finishSlots_get :
    ∀ (n : Nat) (objs objs' : List (Option ManualObject)), finishSlots n objs = some objs' →
      ∀ j, objs'[j]? =
        if j < n then (objs[j]?).map (Option.map ManualObject.finish) else objs[j]? := by
  intro n
  induction n with
  | zero =>
    intro objs objs' h j
    simp only [finishSlots, Option.some.injEq] at h
    rw [← h]
    simp
  | succ m ih =>
    intro objs objs' h j
    simp only [finishSlots] at h
    cases hm : finishSlots m objs with
    | none => simp [hm] at h
    | some objs1 =>
      simp only [hm] at h
      have h1 := ih objs objs1 hm
      cases ho : objs1[m]? with
      | none => simp [ho] at h
      | some x =>
        cases x with
        | none => simp [ho] at h
        | some o0 =>
          simp only [ho, Option.some.injEq] at h
          rw [← h]
          have hm1 := h1 m
          rw [ho, if_neg (Nat.lt_irrefl m)] at hm1
          by_cases hjm : j = m
          · subst hjm
            have hlt : j < objs1.length := (List.getElem?_eq_some.mp ho).1
            rw [List.getElem?_set_self hlt, if_pos (Nat.lt_succ_self j), ← hm1]
            rfl
          · rw [List.getElem?_set_ne (Ne.symm hjm), h1 j]
            by_cases hlt : j < m
            · rw [if_pos hlt, if_pos (by omega)]
            · rw [if_neg hlt, if_neg (by omega)]

theorem contact_lines_slots (env : Env) (self : WholeBodyTrajectoryDisplay)
    (msg : WholeBodyTrajectory) (hmsg : self.msg_ = some msg)
    (hstyle : self.contact_style_property_ = LineStyle.LINES)
    (hwf : wellFormed msg.trajectory = true) :
    ∃ objs, self.processContactTrajectory env = some { self with contact_manual_object_ := objs }
      ∧ objs.length = (prescan msg.trajectory).2 ∧
      ∀ j, j < objs.length → ∃ o, objs[j]? = some (some o) ∧ o.dynamic = true ∧
        o.vertexEstimate = msg.trajectory.length ∧ o.begun = true ∧ o.ended = true := by
  obtain ⟨first, rest, htraj, hbase⟩ := wellFormed_cons msg.trajectory hwf
  obtain ⟨ids, objs, hrun, hinv, heq⟩ :=
    slotLoop_spec (ManualObject.create.start msg.trajectory.length)
      (fun (o : ManualObject) xpos =>
        o.addVertex xpos { self.contact_color_property_ with a := self.contact_alpha_property_ })
      env first.base.length msg.trajectory 0 SlotIds.start
      (List.replicate (prescan msg.trajectory).2 none) hbase (slotInv_start msg.trajectory)
  have hlen := slotInv_final_length ids objs hinv
  obtain ⟨objs', hfin, hlen', _⟩ := finishSlots_spec ids.traj_id objs ids.traj_id
    (Nat.le_refl _) hinv.2.2.1
  have hcount : ids.traj_id = (prescan msg.trajectory).2 := by
    have := congrArg Prod.snd heq
    simpa [SlotIds.start, prescan_eq] using this
  have hQ := slotLoop_objs
    (fun (o : ManualObject) => o.dynamic = true ∧ o.vertexEstimate = msg.trajectory.length ∧
      o.begun = true)
    (ManualObject.create.start msg.trajectory.length) ⟨rfl, rfl, rfl⟩
    (fun (o : ManualObject) xpos =>
      o.addVertex xpos { self.contact_color_property_ with a := self.contact_alpha_property_ })
    (fun o p h => h) env first.base.length msg.trajectory 0 SlotIds.start
    (List.replicate (prescan msg.trajectory).2 none) ids objs hrun
    (by intro o hmem; cases (List.mem_replicate.mp hmem).2)
  refine ⟨objs', ?_, by rw [hlen', hlen, hcount], ?_⟩
  · unfold WholeBodyTrajectoryDisplay.processContactTrajectory
    simp only [hmsg, hstyle]
    rw [htraj] at hrun ⊢
    simp only [hrun, hfin]
  · intro j hj
    have hj' : j < ids.traj_id := by rw [hlen', hlen] at hj; exact hj
    obtain ⟨o, ho⟩ := hinv.2.2.1 j hj'
    obtain ⟨q1, q2, q3⟩ := hQ o (List.getElem?_mem ho)
    refine ⟨o.finish, ?_, q1, q2, q3, rfl⟩
    rw [finishSlots_get ids.traj_id objs objs' hfin j, if_pos hj', ho]
    rfl

theorem contact_billboards_slots (env : Env) (self : WholeBodyTrajectoryDisplay)
    (msg : WholeBodyTrajectory) (hmsg : self.msg_ = some msg)
    (hstyle : self.contact_style_property_ = LineStyle.BILLBOARDS)
    (hwf : wellFormed msg.trajectory = true) :
    ∃ objs, self.processContactTrajectory env = some { self with contact_billboard_line_ := objs }
      ∧ objs.length = (prescan msg.trajectory).2 ∧
      ∀ j, j < objs.length → ∃ o, objs[j]? = some (some o) ∧ o.numLines = 1 ∧
        o.maxPointsPerLine = msg.trajectory.length ∧
        o.lineWidth = self.contact_line_width_property_ := by
  obtain ⟨first, rest, htraj, hbase⟩ := wellFormed_cons msg.trajectory hwf
  obtain ⟨ids, objs, hrun, hinv, heq⟩ :=
    slotLoop_spec
      (BillboardLine.create msg.trajectory.length self.contact_line_width_property_)
      (fun (o : BillboardLine) xpos =>
        o.addPoint xpos { self.contact_color_property_ with a := self.contact_alpha_property_ })
      env first.base.length msg.trajectory 0 SlotIds.start
      (List.replicate (prescan msg.trajectory).2 none) hbase (slotInv_start msg.trajectory)
  have hlen := slotInv_final_length ids objs hinv
  have hcount : ids.traj_id = (prescan msg.trajectory).2 := by
    have := congrArg Prod.snd heq
    simpa [SlotIds.start, prescan_eq] using this
  have hQ := slotLoop_objs
    (fun (o : BillboardLine) => o.numLines = 1 ∧ o.maxPointsPerLine = msg.trajectory.length ∧
      o.lineWidth = self.contact_line_width_property_)
    (BillboardLine.create msg.trajectory.length self.contact_line_width_property_)
    ⟨rfl, rfl, rfl⟩
    (fun (o : BillboardLine) xpos =>
      o.addPoint xpos { self.contact_color_property_ with a := self.contact_alpha_property_ })
    (fun o p h => h) env first.base.length msg.trajectory 0 SlotIds.start
    (List.replicate (prescan msg.trajectory).2 none) ids objs hrun
    (by intro o hmem; cases (List.mem_replicate.mp hmem).2)
  refine ⟨objs, ?_, by rw [hlen, hcount], ?_⟩
  · unfold WholeBodyTrajectoryDisplay.processContactTrajectory
    simp only [hmsg, hstyle]
    rw [htraj] at hrun ⊢
    simp only [hrun]
  · intro j hj
    obtain ⟨o, ho⟩ := hinv.2.2.1 j (by rw [hlen] at hj; exact hj)
    exact ⟨o, ho, hQ o (List.getElem?_mem ho)⟩

/-- C23: in Lines and in Billboards style the contact pass runs to completion on every
trajectory (non-empty, each step with the base entries that are read), which in the embedding
means that no slot index fell outside the object vector, no point was written to a slot
without an object, no lookup of a slot's list index returned `end()` and (Lines) no `end()` was
called on a missing object.  The vector has the size the pre-scan computed and every one of
its slots holds an object that was created and begun with the trajectory length as estimate
(Billboards: created with that maximum of points and the line width); in Lines style every
one of them has been ended. -/
theorem C23_slot_accesses_in_range (env : Env) (self : WholeBodyTrajectoryDisplay)
    (msg : WholeBodyTrajectory) (hmsg : self.msg_ = some msg)
    (hwf : wellFormed msg.trajectory = true) :
    (∃ objs, ({ self with contact_style_property_ := LineStyle.LINES }).processContactTrajectory
        env = some { self with
          contact_style_property_ := LineStyle.LINES, contact_manual_object_ := objs } ∧
      objs.length = (prescan msg.trajectory).2 ∧
      ∀ j, j < objs.length → ∃ o, objs[j]? = some (some o) ∧ o.dynamic = true ∧
        o.vertexEstimate = msg.trajectory.length ∧ o.begun = true ∧ o.ended = true) ∧
    (∃ objs, ({ self with contact_style_property_ :=
          LineStyle.BILLBOARDS }).processContactTrajectory env = some { self with
          contact_style_property_ := LineStyle.BILLBOARDS, contact_billboard_line_ := objs } ∧
      objs.length = (prescan msg.trajectory).2 ∧
      ∀ j, j < objs.length → ∃ o, objs[j]? = some (some o) ∧ o.numLines = 1 ∧
        o.maxPointsPerLine = msg.trajectory.length ∧
        o.lineWidth = self.contact_line_width_property_) :=
  ⟨contact_lines_slots env { self with contact_style_property_ := LineStyle.LINES } msg hmsg
      rfl hwf,
    contact_billboards_slots env { self with contact_style_property_ := LineStyle.BILLBOARDS }
      msg hmsg rfl hwf⟩

/-- Witness for C23: two steps, the contact "lf_foot" being absent from the second; the
pre-scan counts two slots. -/
theorem C23_slot_accesses_in_range_witness :
    (displayOf liftOffTrajectory LineStyle.LINES LineStyle.LINES).msg_ = some liftOffTrajectory ∧
      wellFormed liftOffTrajectory.trajectory = true ∧
      (prescan liftOffTrajectory.trajectory).2 = 2 ∧
      ∃ objs, ({ displayOf liftOffTrajectory LineStyle.LINES LineStyle.LINES with
          contact_style_property_ := LineStyle.LINES }).processContactTrajectory exampleEnv =
          some { displayOf liftOffTrajectory LineStyle.LINES LineStyle.LINES with
            contact_style_property_ := LineStyle.LINES, contact_manual_object_ := objs } ∧
        objs.length = (prescan liftOffTrajectory.trajectory).2 ∧
        ∀ j, j < objs.length → ∃ o, objs[j]? = some (some o) ∧ o.dynamic = true ∧
          o.vertexEstimate = liftOffTrajectory.trajectory.length ∧ o.begun = true ∧
          o.ended = true :=
  ⟨rfl, rfl, rfl, (C23_slot_accesses_in_range exampleEnv
    (displayOf liftOffTrajectory LineStyle.LINES LineStyle.LINES) liftOffTrajectory rfl rfl).1⟩

/-! ## Identifiers of the published markers -/

theorem toInt32_of_lt (i : Nat) (h : i < 2147483648) : toInt32 i = (i : Int) := by
  unfold toInt32
  omega

theorem publishStep_fields (time : Time) (i : Nat) (d : DisplayData) (markers : List Marker) :
    (DisplayInterface.publishStep time i d markers).map (fun m => (m.id, m.ns, m.frame_id)) =
      markers.map (fun m => (m.id, m.ns, m.frame_id)) ++
        (pushedFrom i [d]).map (fun p => (toInt32 p.1, "dls", p.2.frame)) := by
  cases hd : d.type <;>
    simp [DisplayInterface.publishStep, pushedFrom, hd]

theorem pushedFrom_cons (i : Nat) (d : DisplayData) (rest : List DisplayData) :
    pushedFrom i (d :: rest) = pushedFrom i [d] ++ pushedFrom (i + 1) rest := by
  simp only [pushedFrom, List.enumFrom_cons, List.enumFrom_nil]
  rw [← List.filter_append]
  rfl

theorem publishLoop_fields (time : Time) (stack : List DisplayData) :
    ∀ (i : Nat) (markers : List Marker),
      (DisplayInterface.publishLoop time i stack markers).map
          (fun m => (m.id, m.ns, m.frame_id)) =
        markers.map (fun m => (m.id, m.ns, m.frame_id)) ++
          (pushedFrom i stack).map (fun p => (toInt32 p.1, "dls", p.2.frame)) := by
  induction stack with
  | nil =>
    intro i markers
    simp [DisplayInterface.publishLoop, pushedFrom]
  | cons d rest ih =>
    intro i markers
    rw [DisplayInterface.publishLoop, ih, publishStep_fields, List.append_assoc,
      ← List.map_append, ← pushedFrom_cons]

theorem pushedFrom_zero_fst_nodup (stack : List DisplayData) :
    ((pushedFrom 0 stack).map Prod.fst).Nodup := by
  have hsub : ((pushedFrom 0 stack).map Prod.fst).Sublist (stack.enum.map Prod.fst) :=
    List.Sublist.map Prod.fst (List.filter_sublist _)
  rw [List.enum_map_fst] at hsub
  exact List.Nodup.sublist hsub (List.nodup_range _)

theorem pushedFrom_zero_mem (stack : List DisplayData) (p : Nat × DisplayData)
    (h : p ∈ pushedFrom 0 stack) :
    stack[p.1]? = some p.2 ∧ p.2.type ≠ DisplayType.POINT := by
  simp only [pushedFrom, List.mem_filter, bne_iff_ne, ne_eq] at h
  exact ⟨List.mem_enum_iff_getElem?.mp h.1, h.2⟩

/-- C24: for a stack of at most 2^31 requests, the batch that `publishMarkerArray` builds
holds one marker for each request that is not of type POINT, in stack order; the id of each
marker is the index of its request in `display_stack_` (the marker carries the frame of the
request at that index), so the ids are pairwise distinct, and every marker has the namespace
"dls". -/
theorem C24_marker_ids_are_stack_indices (time : Time) (stack : List DisplayData)
    (hlen : stack.length ≤ 2147483648) :
    (DisplayInterface.buildMarkers time stack).map (fun m => (m.id, m.frame_id)) =
        (pushedFrom 0 stack).map (fun p => ((p.1 : Int), p.2.frame)) ∧
      (∀ p ∈ pushedFrom 0 stack, stack[p.1]? = some p.2 ∧ p.2.type ≠ DisplayType.POINT) ∧
      ((DisplayInterface.buildMarkers time stack).map (fun m => m.id)).Nodup ∧
      ∀ m ∈ DisplayInterface.buildMarkers time stack, m.ns = "dls" := by
  have hfields := publishLoop_fields time stack 0 []
  rw [List.map_nil, List.nil_append] at hfields
  have hidx : ∀ p ∈ pushedFrom 0 stack, toInt32 p.1 = (p.1 : Int) := by
    intro p hp
    have hget := (pushedFrom_zero_mem stack p hp).1
    have hlt : p.1 < stack.length := (List.getElem?_eq_some.mp hget).1
    exact toInt32_of_lt p.1 (by omega)
  have hids : (DisplayInterface.buildMarkers time stack).map (fun m => m.id) =
      (pushedFrom 0 stack).map (fun p => (p.1 : Int)) := by
    have := congrArg (List.map (fun (t : Int × String × String) => t.1)) hfields
    simp only [List.map_map, Function.comp_def] at this
    rw [DisplayInterface.buildMarkers, this]
    exact List.map_congr_left hidx
  refine ⟨?_, pushedFrom_zero_mem stack, ?_, ?_⟩
  · have := congrArg (List.map (fun (t : Int × String × String) => (t.1, t.2.2))) hfields
    simp only [List.map_map, Function.comp_def] at this
    rw [DisplayInterface.buildMarkers, this]
    exact List.map_congr_left (fun p hp => by rw [hidx p hp])
  · rw [hids]
    have hcast : (pushedFrom 0 stack).map (fun p => (p.1 : Int)) =
        ((pushedFrom 0 stack).map Prod.fst).map (fun (n : Nat) => (n : Int)) := by
      rw [List.map_map]
      rfl
    rw [hcast]
    exact List.Nodup.map (fun a b hab => Int.ofNat.inj hab) (pushedFrom_zero_fst_nodup stack)
  · intro m hm
    have := congrArg (List.map (fun (t : Int × String × String) => t.2.1)) hfields
    simp only [List.map_map, Function.comp_def] at this
    have hmem : m.ns ∈ (DisplayInterface.buildMarkers time stack).map (fun m => m.ns) :=
      List.mem_map_of_mem _ hm
    rw [DisplayInterface.buildMarkers, this] at hmem
    simp only [List.mem_map] at hmem
    obtain ⟨_, _, h⟩ := hmem
    exact h.symm

/-- Witness for C24: a line, a point, a text and a sphere; the three markers have the ids
0, 2 and 3 and the frames of the requests at these indices. -/
theorem C24_marker_ids_are_stack_indices_witness :
    mixedStack.length ≤ 2147483648 ∧
      (DisplayInterface.buildMarkers ⟨0, 0⟩ mixedStack).map (fun m => (m.id, m.frame_id)) =
        [(0, "a"), (2, "c"), (3, "d")] ∧
      ((DisplayInterface.buildMarkers ⟨0, 0⟩ mixedStack).map (fun m => m.id)).Nodup ∧
      ∀ m ∈ DisplayInterface.buildMarkers ⟨0, 0⟩ mixedStack, m.ns = "dls" :=
  ⟨by decide,
    (C24_marker_ids_are_stack_indices ⟨0, 0⟩ mixedStack (by decide)).1.trans rfl,
    (C24_marker_ids_are_stack_indices ⟨0, 0⟩ mixedStack (by decide)).2.2.1,
    (C24_marker_ids_are_stack_indices ⟨0, 0⟩ mixedStack (by decide)).2.2.2⟩

/-! ## Values beyond the `float` range -/

/-- The `double` 1e39 lies beyond the `float` range: narrowing it gives infinity. -/
theorem toFloat_overflow :
    (Dbl.fin 1000000000000000000000000000000000000000).toFloat = Dbl.pinf := by
  rw [Dbl.toFloat_fin, roundFloat, roundBinary_overflow 24 (-126) 127 _ 129 12325952
    (by rw [abs_of_pos (by norm_num)]; norm_num)
    (by rw [abs_of_pos (by norm_num)]; norm_num)
    (by norm_num)
    (by norm_num; rw [abs_lt]; constructor <;> norm_num)
    (by norm_num)]
  simp [Dbl.inf]

theorem infinite_translation_zeroed (big : Dbl) (h : big.toFloat = Dbl.pinf) :
    sanitize (assembledPos 6
      ⟨[⟨LX, big⟩, ⟨LY, 2⟩, ⟨LZ, 3⟩, ⟨AX, 0⟩, ⟨AY, 0⟩, ⟨AZ, 0⟩], []⟩) = ⟨0, 0, 0⟩ := by
  simp [assembledPos, assignBase, sanitize, LX, LY, LZ, AX, AY, AZ, h, Dbl.isfinite]

/-- A step whose x translation is the `double` 1e39 is zeroed: the value narrowed to `float`
is infinite. -/
theorem oversized_translation_zeroed :
    sanitize (assembledPos 6
      ⟨[⟨LX, Dbl.fin 1000000000000000000000000000000000000000⟩, ⟨LY, 2⟩, ⟨LZ, 3⟩, ⟨AX, 0⟩,
        ⟨AY, 0⟩, ⟨AZ, 0⟩], []⟩) = ⟨0, 0, 0⟩ :=
  infinite_translation_zeroed _ toFloat_overflow

theorem infinite_contact_clamped (big : Dbl) (h : big.toFloat = Dbl.pinf) :
    contactPoint ⟨0, 0, 0⟩ (Matrix4.ofQuaternion Quaternion.IDENTITY)
      ⟨"lf_foot", ⟨big, 0, 0⟩⟩ = ⟨0, 0, 0⟩ := by
  have hmul1 : (Dbl.fin 1).fmul Dbl.pinf = Dbl.pinf := by
    simp [Dbl.fmul]
    rfl
  have hmul0 : (Dbl.fin 0).fmul Dbl.pinf = Dbl.nan := by
    simp [Dbl.fmul]
    rfl
  simp [contactPoint, sanitize, Vector3.fadd, Matrix4.ofQuaternion, Matrix4.mulVec,
    Quaternion.IDENTITY, Quaternion.ToRotationMatrix, Vector3.ZERO, h, hmul1, hmul0,
    Dbl.isfinite]

/-- A contact whose x position is the `double` 1e39 is clamped to zero. -/
theorem oversized_contact_clamped :
    contactPoint ⟨0, 0, 0⟩ (Matrix4.ofQuaternion Quaternion.IDENTITY)
      ⟨"lf_foot", ⟨Dbl.fin 1000000000000000000000000000000000000000, 0, 0⟩⟩ = ⟨0, 0, 0⟩ :=
  infinite_contact_clamped _ toFloat_overflow

/-- The `float` nearest to the `double` 3e38. -/
theorem toFloat_3e38 :
    (Dbl.fin 300000000000000000000000000000000000000).toFloat =
      Dbl.fin 300000000549775575777803994281145270272 := by
  rw [Dbl.toFloat_fin, roundFloat, roundBinary_eval 24 (-126) 127 _ 127 14791142
    (by rw [abs_of_pos (by norm_num)]; norm_num)
    (by rw [abs_of_pos (by norm_num)]; norm_num)
    (by norm_num)
    (by norm_num; rw [abs_lt]; constructor <;> norm_num)
    (by norm_num)]
  norm_num

theorem summed_contact_clamped (F : ℚ) (c : Dbl) (hc : c.toFloat = Dbl.fin F)
    (hF : roundFloat F = Dbl.fin F) (hsum : roundFloat (F + F) = Dbl.pinf) :
    contactPoint ⟨Dbl.fin F, 0, 0⟩ (Matrix4.ofQuaternion Quaternion.IDENTITY)
      ⟨"lf_foot", ⟨c, 0, 0⟩⟩ = ⟨0, 0, 0⟩ := by
  simp [contactPoint, sanitize, Vector3.fadd, Matrix4.ofQuaternion, Matrix4.mulVec,
    Quaternion.IDENTITY, Quaternion.ToRotationMatrix, Vector3.ZERO, hc, hF, hsum,
    Dbl.isfinite]

/-- A base at x = 3e38 with a contact at x = 3e38 of the base frame: each value has a finite
`float`, their `float` sum overflows and the point is clamped to zero. -/
theorem overflowing_sum_clamped :
    contactPoint ⟨(Dbl.fin 300000000000000000000000000000000000000).toFloat, 0, 0⟩
      (Matrix4.ofQuaternion Quaternion.IDENTITY)
      ⟨"lf_foot", ⟨Dbl.fin 300000000000000000000000000000000000000, 0, 0⟩⟩ = ⟨0, 0, 0⟩ := by
  have hF : roundFloat 300000000549775575777803994281145270272 =
      Dbl.fin 300000000549775575777803994281145270272 := by
    have := roundBinary_exact 24 (-126) 127 14791142 104 (by norm_num) (by norm_num)
      (by norm_num)
    have hval : ((14791142 : ℤ) : ℚ) * 2 ^ (104 : ℤ) =
        300000000549775575777803994281145270272 := by
      norm_num
    rw [hval] at this
    exact this
  have hsum : roundFloat (300000000549775575777803994281145270272 +
      300000000549775575777803994281145270272) = Dbl.pinf := by
    rw [roundFloat, roundBinary_overflow 24 (-126) 127 _ 128 14791142
      (by rw [abs_of_pos (by norm_num)]; norm_num)
      (by rw [abs_of_pos (by norm_num)]; norm_num)
      (by norm_num)
      (by norm_num)
      (by norm_num)]
    simp [Dbl.inf]
  rw [toFloat_3e38]
  exact summed_contact_clamped _ _ toFloat_3e38 hF hsum

end DwlRviz
